import Mathlib

/-!
# Risk-Parity/risk_parity.cpp : equal-weight and inverse-volatility equity curves

A shallow embedding of the computation performed by `main` in
`src/Risk-Parity/risk_parity.cpp`: the row reader (`parseRow`, `readLines`) and
the computation from the parsed rows on (`main`).

Modelling conventions.

* The definitions are generic in the number type `F` and in the square root,
  which is passed as a parameter; they use only the operations the source uses.
  They are read in two number systems. For `F = ℝ` with `Real.sqrt` they give
  the computation in exact real arithmetic. For `F = Dbl` with `Dbl.sqrt` they
  give it in IEEE 754 binary64 arithmetic, which is the arithmetic of the
  source's `double`: every operation is rounded on its own to nearest with ties
  to even (no fused multiply-add, no wider intermediate precision).
* `std::vector<double>` is `List F`.  `operator[]` past the end is undefined
  behaviour in the source; here it is the fault `Fault.outOfBounds`.
* A floating-point division by zero or a square root of a negative number
  produces an infinity or a NaN, which no real number represents; here they
  are the faults `Fault.divByZero` and `Fault.sqrtOfNegative`.
* `size_t` subtraction wraps around on underflow (`subSizeT`).
* A counted loop `for (t = lo; t < n; ++t)` is `forLoop body lo (n - lo)`.
* A line is a `List Char`; the stream extractions into `std::string` and `char`
  are `getToken` and `getChar`, the library extraction into `double` is a
  parameter `getDouble` of the row reader.
-/

namespace RiskParity

/-- The ways in which a run can end without producing its result. -/
inductive Fault
  | notEnoughRows
  | outOfBounds
  | divByZero
  | sqrtOfNegative
  deriving DecidableEq

/-- Rolling statistics of one ETF (`class RollingStats`, lines 12-18): sum of
returns, sum of squares of returns, number of data points in the window. -/
@[ext]
structure RollingStats (F : Type) where
  sum : F
  sumSq : F
  count : Int

/-- One parsed data row (lines 63-75): the date token and the three returns. -/
structure Row (F : Type) where
  date : String
  rxlf : F
  rxop : F
  rxlk : F

/-- The per-day weights `wXLF`, `wXOP`, `wXLK` (lines 179-181). -/
structure Weights (F : Type) where
  wXLF : F
  wXOP : F
  wXLK : F

/-- The variables the risk-parity loop mutates: the equity vector and the
three rolling statistics. -/
structure VolState (F : Type) where
  equityVol : List F
  statsXLF : RollingStats F
  statsXOP : RollingStats F
  statsXLK : RollingStats F

/-- The constant `window_size` (line 112). -/
def window_size : Nat := 20

/-- Subtraction of two `size_t` values (both below `2 ^ 64`): the difference
when it is not negative, and the wrapped value `a + 2 ^ 64 - b` otherwise. -/
def subSizeT (a b : Nat) : Nat :=
  if b ≤ a then a - b else a + 2 ^ 64 - b

/-- A counted loop: `forLoop body lo k s` runs `body lo`, `body (lo + 1)`, ...,
`body (lo + k - 1)` in this order, threading the state, and stops at the first
fault. -/
def forLoop {σ : Type} (body : Nat → σ → Except Fault σ) : Nat → Nat → σ → Except Fault σ
  | _, 0, s => Except.ok s
  | t, k + 1, s =>
    match body t s with
    | Except.ok s' => forLoop body (t + 1) k s'
    | Except.error e => Except.error e

section Defs

variable {F : Type} [Zero F] [One F] [NatCast F] [IntCast F] [Add F] [Sub F] [Mul F] [Div F]
  [LT F] [DecidableEq F] [DecidableRel (fun a b : F => a < b)]

/-- The constant `startVal` (line 94). -/
def startVal : F := 100

/-- Reading `v[i]`. -/
def readAt (v : List F) (i : Nat) : Except Fault F :=
  match v[i]? with
  | some x => Except.ok x
  | none => Except.error Fault.outOfBounds

/-- Writing `v[i] = x`. -/
def writeAt (v : List F) (i : Nat) (x : F) : Except Fault (List F) :=
  if i < v.length then Except.ok (v.set i x) else Except.error Fault.outOfBounds

/-- Floating-point division `x / y`. -/
def fdiv (x y : F) : Except Fault F :=
  if y = 0 then Except.error Fault.divByZero else Except.ok (x / y)

/-- The call `std::sqrt(x)`. -/
def fsqrt (sqrt : F → F) (x : F) : Except Fault F :=
  if x < 0 then Except.error Fault.sqrtOfNegative else Except.ok (sqrt x)

/-- Body of the equal-weight loop (lines 103-104). -/
def equalWeightStep (XLF_Ret XOP_Ret XLK_Ret : List F) (t : Nat) (equityEqual : List F) :
    Except Fault (List F) := do
  let xlf ← readAt XLF_Ret t
  let xlk ← readAt XLK_Ret t
  let xop ← readAt XOP_Ret t
  let daily_ret := (xlf + xlk + xop) / 3
  let prev ← readAt equityEqual (subSizeT t 1)
  writeAt equityEqual t (prev * (1 + daily_ret))

/-- The equal-weighted strategy (lines 93-105). -/
def equalWeighted (XLF_Ret XOP_Ret XLK_Ret : List F) (n : Nat) : Except Fault (List F) := do
  let equityEqual ← writeAt (List.replicate n (0 : F)) 0 startVal
  forLoop (equalWeightStep XLF_Ret XOP_Ret XLK_Ret) 1 (n - 1) equityEqual

/-- Adding one return to the rolling sums (`sum += r; sumSq += r * r`). -/
def RollingStats.add (rs : RollingStats F) (r : F) : RollingStats F :=
  { rs with sum := rs.sum + r, sumSq := rs.sumSq + r * r }

/-- Removing one return from the rolling sums (`sum -= r; sumSq -= r * r`). -/
def RollingStats.remove (rs : RollingStats F) (r : F) : RollingStats F :=
  { rs with sum := rs.sum - r, sumSq := rs.sumSq - r * r }

/-- Body of the initialisation loop of the rolling statistics (lines 131-138). -/
def initStep (XLF_Ret XOP_Ret XLK_Ret : List F) (i : Nat)
    (s : RollingStats F × RollingStats F × RollingStats F) :
    Except Fault (RollingStats F × RollingStats F × RollingStats F) := do
  let xlf ← readAt XLF_Ret i
  let xop ← readAt XOP_Ret i
  let xlk ← readAt XLK_Ret i
  pure (s.1.add xlf, s.2.1.add xop, s.2.2.add xlk)

/-- The rolling statistics after their initialisation (lines 126-142): the
three default-constructed statistics, the loop over days `0 .. 19`, and the
assignment of `count`. -/
def initStats (XLF_Ret XOP_Ret XLK_Ret : List F) :
    Except Fault (RollingStats F × RollingStats F × RollingStats F) := do
  let fresh : RollingStats F := { sum := 0, sumSq := 0, count := 0 }
  let s ← forLoop (initStep XLF_Ret XOP_Ret XLK_Ret) 0 window_size (fresh, fresh, fresh)
  pure ({ s.1 with count := window_size }, { s.2.1 with count := window_size },
    { s.2.2 with count := window_size })

/-- The lambda `stdev` (lines 151-159). -/
def stdev (sqrt : F → F) (rs : RollingStats F) : Except Fault F := do
  let mean ← fdiv rs.sum (rs.count : F)
  let meanSq ← fdiv rs.sumSq (rs.count : F)
  let var := meanSq - mean * mean
  let var := if var < 0 then 0 else var
  fsqrt sqrt var

/-- Inverse volatility (lines 173-175): `(vol == 0.0) ? 0.0 : (1.0 / vol)`. -/
def invVol (vol : F) : Except Fault F :=
  if vol = 0 then Except.ok 0 else fdiv 1 vol

/-- One normalised weight (lines 179-181): `(sumInv > 0.0) ? (inv / sumInv) : 0.0`. -/
def normalise (inv sumInv : F) : Except Fault F :=
  if sumInv > 0 then fdiv inv sumInv else Except.ok 0

/-- The weights of one day from the three rolling statistics (lines 168-181). -/
def weights (sqrt : F → F) (statsXLF statsXOP statsXLK : RollingStats F) :
    Except Fault (Weights F) := do
  let volXLF ← stdev sqrt statsXLF
  let volXOP ← stdev sqrt statsXOP
  let volXLK ← stdev sqrt statsXLK
  let invXLF ← invVol volXLF
  let invXOP ← invVol volXOP
  let invXLK ← invVol volXLK
  let sumInv := invXLF + invXOP + invXLK
  let wXLF ← normalise invXLF sumInv
  let wXOP ← normalise invXOP sumInv
  let wXLK ← normalise invXLK sumInv
  pure { wXLF := wXLF, wXOP := wXOP, wXLK := wXLK }

/-- The portfolio return of a day under given weights (line 185). -/
def dailyRetVol (w : Weights F) (rXLF rXOP rXLK : F) : F :=
  w.wXLF * rXLF + w.wXOP * rXOP + w.wXLK * rXLK

/-- Rolling the window forward (lines 195-218): the guarded removal of day
`oldIdx` and the addition of day `newIdx`. -/
def rollForward (XLF_Ret XOP_Ret XLK_Ret : List F) (t : Nat) (s : VolState F) :
    Except Fault (VolState F) := do
  let oldIdx := subSizeT (subSizeT t window_size) 1
  let s ←
    if oldIdx < XLF_Ret.length then do
      let xlf ← readAt XLF_Ret oldIdx
      let xop ← readAt XOP_Ret oldIdx
      let xlk ← readAt XLK_Ret oldIdx
      pure { s with statsXLF := s.statsXLF.remove xlf, statsXOP := s.statsXOP.remove xop,
                    statsXLK := s.statsXLK.remove xlk }
    else pure s
  let newIdx := subSizeT t 1
  let xlf ← readAt XLF_Ret newIdx
  let xop ← readAt XOP_Ret newIdx
  let xlk ← readAt XLK_Ret newIdx
  pure { s with statsXLF := s.statsXLF.add xlf, statsXOP := s.statsXOP.add xop,
                statsXLK := s.statsXLK.add xlk }

/-- Body of the risk-parity loop (lines 167-218). -/
def volStep (sqrt : F → F) (XLF_Ret XOP_Ret XLK_Ret : List F) (t : Nat) (s : VolState F) :
    Except Fault (VolState F) := do
  let w ← weights sqrt s.statsXLF s.statsXOP s.statsXLK
  let rXLF ← readAt XLF_Ret t
  let rXOP ← readAt XOP_Ret t
  let rXLK ← readAt XLK_Ret t
  let prev ← readAt s.equityVol (subSizeT t 1)
  let equityVol ← writeAt s.equityVol t (prev * (1 + dailyRetVol w rXLF rXOP rXLK))
  rollForward XLF_Ret XOP_Ret XLK_Ret t { s with equityVol := equityVol }

/-- The state in which the risk-parity loop is entered (lines 116-142). -/
def volInit (XLF_Ret XOP_Ret XLK_Ret : List F) (n : Nat) : Except Fault (VolState F) := do
  let equityVol ← writeAt (List.replicate n (0 : F)) window_size startVal
  let s ← initStats XLF_Ret XOP_Ret XLK_Ret
  pure { equityVol := equityVol, statsXLF := s.1, statsXOP := s.2.1, statsXLK := s.2.2 }

/-- The state of the risk-parity loop when its counter has reached `t`, before
the body of iteration `t` runs (for `t = n`: when the loop is left). -/
def volStateAt (sqrt : F → F) (XLF_Ret XOP_Ret XLK_Ret : List F) (n t : Nat) :
    Except Fault (VolState F) := do
  let s ← volInit XLF_Ret XOP_Ret XLK_Ret n
  forLoop (volStep sqrt XLF_Ret XOP_Ret XLK_Ret) (window_size + 1) (t - (window_size + 1)) s

/-- The vol-weighted (risk-parity) strategy (lines 112-219). -/
def riskParity (sqrt : F → F) (XLF_Ret XOP_Ret XLK_Ret : List F) (n : Nat) :
    Except Fault (List F) := do
  let s ← volStateAt sqrt XLF_Ret XOP_Ret XLK_Ret n n
  pure s.equityVol

/-- Body of the output loop (lines 231-233): one result row. -/
def outputStep (dates : List String) (equityEqual equityVol : List F) (i : Nat)
    (out : List (String × F × F)) : Except Fault (List (String × F × F)) :=
  match dates[i]? with
  | none => Except.error Fault.outOfBounds
  | some d => do
    let e ← readAt equityEqual i
    let v ← readAt equityVol i
    pure (out ++ [(d, e, v)])

/-- The computation of `main` from the parsed rows on (lines 79-235): the
row-count check, the two strategies, and the rows written to the results
file. -/
def main (sqrt : F → F) (rows : List (Row F)) : Except Fault (List (String × F × F)) :=
  let dates := rows.map (fun r => r.date)
  let XLF_Ret := rows.map (fun r => r.rxlf)
  let XOP_Ret := rows.map (fun r => r.rxop)
  let XLK_Ret := rows.map (fun r => r.rxlk)
  let n := dates.length
  if n < 20 then Except.error Fault.notEnoughRows
  else do
    let equityEqual ← equalWeighted XLF_Ret XOP_Ret XLK_Ret n
    let equityVol ← riskParity sqrt XLF_Ret XOP_Ret XLK_Ret n
    forLoop (outputStep dates equityEqual equityVol) 0 n []

/-- A series of 22 days: `h` on day 0, 0 on days 1 to 20, `x` on day 21. -/
def pulse (h x : F) : List F := h :: (List.replicate 20 0 ++ [x])

/-- True when the run ended without a fault, in a result that passes the test. -/
def okAnd {α : Type} (e : Except Fault α) (p : α → Bool) : Bool :=
  match e with
  | Except.ok a => p a
  | Except.error _ => false

/-- Upper bound for the binary length: the first `k` among `k, 2k, 4k, ...` with
`n < 2 ^ k`. -/
def bitLenBound : Nat → Nat → Nat → Nat
  | 0, _, k => k
  | fuel + 1, n, k => if n < 2 ^ k then k else bitLenBound fuel n (2 * k)

/-- Bisection for the binary length: for `2 ^ lo ≤ n < 2 ^ hi`, the least `k` with
`n < 2 ^ k`. -/
def bitLenBisect : Nat → Nat → Nat → Nat → Nat
  | 0, _, _, hi => hi
  | fuel + 1, n, lo, hi =>
    if hi ≤ lo + 1 then hi
    else if n < 2 ^ ((lo + hi) / 2) then bitLenBisect fuel n lo ((lo + hi) / 2)
    else bitLenBisect fuel n ((lo + hi) / 2) hi

/-- Number of binary digits of a natural number: the least `k` with `n < 2 ^ k`. -/
def bitLen (n : Nat) : Nat :=
  if n = 0 then 0
  else bitLenBisect (bitLenBound n n 1) n 0 (bitLenBound n n 1)

/-- Rounding to binary64, round-to-nearest with ties to even: the multiple of
`2 ^ s` nearest to the ratio `a / q`, where `s` is chosen so that the result has
at most 53 significant binary digits. With magnitudes counted in units of
`2 ^ (-1074)`, the smallest positive binary64 value, this is the magnitude of
the binary64 value nearest to `a / q` units. -/
def roundMag (a q : Nat) : Nat :=
  let s := bitLen (a / q) - 53
  let d := q * 2 ^ s
  let m := a / d
  let r := a % d
  if 2 * r < d then m * 2 ^ s
  else if d < 2 * r then (m + 1) * 2 ^ s
  else if m % 2 = 0 then m * 2 ^ s
  else (m + 1) * 2 ^ s

/-- Newton iteration for the integer square root, from a start `x` that is not
below it. -/
def sqrtIter : Nat → Nat → Nat → Nat
  | 0, _, x => x
  | fuel + 1, n, x =>
    if (x + n / x) / 2 < x then sqrtIter fuel n ((x + n / x) / 2) else x

/-- Integer square root: the largest `r` with `r * r ≤ n`. -/
def isqrt (n : Nat) : Nat :=
  if n = 0 then 0 else sqrtIter n n (2 ^ ((bitLen n + 1) / 2))

/-- Rounding of a square root to binary64: the multiple of `2 ^ s` nearest to the
square root of `N`, with at most 53 significant binary digits, ties to even. -/
def roundSqrtMag (N : Nat) : Nat :=
  let s := bitLen (isqrt N) - 53
  let m := isqrt (N / (2 ^ s * 2 ^ s))
  let c := (2 * m + 1) * 2 ^ s
  if 4 * N < c * c then m * 2 ^ s
  else if c * c < 4 * N then (m + 1) * 2 ^ s
  else if m % 2 = 0 then m * 2 ^ s
  else (m + 1) * 2 ^ s

/-- A finite IEEE 754 binary64 value (the `double` of the source), held as the
integer number of units of `2 ^ (-1074)` it is worth. Every finite binary64
value, subnormal ones included, is such an integer. Infinities, NaN and the
sign of zero are not represented: a result beyond the binary64 range is rounded
to 53 digits like any other instead of becoming an infinity. -/
structure Dbl where
  units : Int
  deriving DecidableEq

/-- The binary64 value nearest to `p / q` units. -/
def Dbl.ofUnits (p : Int) (q : Nat) : Dbl :=
  if p < 0 then { units := -(roundMag p.natAbs q : Int) }
  else { units := (roundMag p.natAbs q : Int) }

/-- The binary64 value nearest to the ratio `p / q` of two integers, which is
how a decimal literal such as `0.1` is read (`Dbl.ofRatio 1 10`). -/
def Dbl.ofRatio (p : Int) (q : Nat) : Dbl :=
  Dbl.ofUnits (p * 2 ^ 1074) q

/-- The call `std::sqrt` in binary64: the correctly rounded square root. -/
def Dbl.sqrt (a : Dbl) : Dbl :=
  if a.units ≤ 0 then { units := 0 }
  else { units := (roundSqrtMag (a.units.natAbs * 2 ^ 1074) : Int) }

instance : Zero Dbl := ⟨{ units := 0 }⟩

instance : One Dbl := ⟨{ units := 2 ^ 1074 }⟩

instance : NatCast Dbl := ⟨fun n => Dbl.ofRatio n 1⟩

instance : IntCast Dbl := ⟨fun n => Dbl.ofRatio n 1⟩

instance : Add Dbl := ⟨fun a b => Dbl.ofUnits (a.units + b.units) 1⟩

instance : Sub Dbl := ⟨fun a b => Dbl.ofUnits (a.units - b.units) 1⟩

instance : Mul Dbl := ⟨fun a b => Dbl.ofUnits (a.units * b.units) (2 ^ 1074)⟩

instance : Div Dbl := ⟨fun a b =>
  if b.units = 0 then { units := 0 }
  else if b.units < 0 then Dbl.ofUnits (-(a.units * 2 ^ 1074)) b.units.natAbs
  else Dbl.ofUnits (a.units * 2 ^ 1074) b.units.natAbs⟩

instance : LT Dbl := ⟨fun a b => a.units < b.units⟩

instance : DecidableRel (fun a b : Dbl => a < b) := fun a b => Int.decLt a.units b.units

end Defs

section ProofDefs

variable {F : Type} [LinearOrderedField F]

/-- The equal-weight loop invariant on entry to iteration `t`. -/
def EqualInv (XLF XOP XLK : List F) (n t : Nat) (eq : List F) : Prop :=
  eq.length = n ∧ eq.getD 0 0 = 100 ∧
    ∀ u, 1 ≤ u → u < t →
      eq.getD u 0 = eq.getD (u - 1) 0 * (1 + (XLF.getD u 0 + XOP.getD u 0 + XLK.getD u 0) / 3)

/-- Statistics computed from scratch over the raw values `r[lo], ..., r[hi - 1]`
of a series: their sum, the sum of their squares, and a given count. -/
def sumsOver (r : List F) (lo hi : Nat) (count : Int) : RollingStats F :=
  { sum := ∑ i ∈ Finset.Ico lo hi, r.getD i 0,
    sumSq := ∑ i ∈ Finset.Ico lo hi, r.getD i 0 * r.getD i 0,
    count := count }

/-- The variance `meanSq - mean * mean` that `stdev` forms before clamping it. -/
def algVariance (rs : RollingStats F) : F :=
  rs.sumSq / (rs.count : F) - rs.sum / (rs.count : F) * (rs.sum / (rs.count : F))

/-- The value `stdev` returns when it does not fault. -/
def stdevValue (sqrt : F → F) (rs : RollingStats F) : F :=
  sqrt (if algVariance rs < 0 then 0 else algVariance rs)

/-- The value `invVol` returns when it does not fault. -/
def invValue (vol : F) : F := if vol = 0 then 0 else 1 / vol

/-- The value `normalise` returns when it does not fault. -/
def normValue (inv sumInv : F) : F := if sumInv > 0 then inv / sumInv else 0

/-- The value `weights` returns when it does not fault. -/
def weightsValue (sqrt : F → F) (statsXLF statsXOP statsXLK : RollingStats F) : Weights F :=
  let invXLF := invValue (stdevValue sqrt statsXLF)
  let invXOP := invValue (stdevValue sqrt statsXOP)
  let invXLK := invValue (stdevValue sqrt statsXLK)
  let sumInv := invXLF + invXOP + invXLK
  { wXLF := normValue invXLF sumInv, wXOP := normValue invXOP sumInv,
    wXLK := normValue invXLK sumInv }

/-- The risk-parity loop invariant on entry to iteration `t`: the equity vector
has its length, each rolling statistic holds the sums over days `t - 21 .. t - 2`,
the entries before `window_size` are untouched, entry `window_size` is the start
value, and every entry written so far compounds its predecessor. -/
def VolInv (sqrt : F → F) (XLF XOP XLK : List F) (n t : Nat) (s : VolState F) : Prop :=
  s.equityVol.length = n ∧
  s.statsXLF = sumsOver XLF (t - 21) (t - 1) 20 ∧
  s.statsXOP = sumsOver XOP (t - 21) (t - 1) 20 ∧
  s.statsXLK = sumsOver XLK (t - 21) (t - 1) 20 ∧
  (∀ i, i < 20 → s.equityVol.getD i 0 = 0) ∧
  s.equityVol.getD 20 0 = 100 ∧
  ∀ u, 21 ≤ u → u < t →
    s.equityVol.getD u 0 = s.equityVol.getD (u - 1) 0 *
      (1 + dailyRetVol
        (weightsValue sqrt (sumsOver XLF (u - 21) (u - 1) 20) (sumsOver XOP (u - 21) (u - 1) 20)
          (sumsOver XLK (u - 21) (u - 1) 20))
        (XLF.getD u 0) (XOP.getD u 0) (XLK.getD u 0))

/-- The statistics `stats` have count 20 and hold the sum and the sum of squares
of the raw values `r[first], ..., r[last]` (both ends included). -/
def TracksWindow (r : List F) (stats : RollingStats F) (first last : Nat) : Prop :=
  stats.count = 20 ∧
  stats.sum = ∑ i ∈ Finset.Icc first last, r.getD i 0 ∧
  stats.sumSq = ∑ i ∈ Finset.Icc first last, r.getD i 0 ^ 2

/-- The mean of the first 20 values of a series. -/
def windowMean (x : List F) : F := (∑ i ∈ Finset.range 20, x.getD i 0) / 20

/-- The population variance of the first 20 values of a series: the average
squared deviation from their mean. -/
def populationVariance (x : List F) : F :=
  (1 / 20) * ∑ i ∈ Finset.range 20, (x.getD i 0 - windowMean x) ^ 2

/-- Returns of one asset over 23 days: 1 on days 0 and 20, -1 on day 21 and 0 on
every other day. -/
def wipeoutXLF : List F := 1 :: (List.replicate 19 0 ++ [1, -1, 0])

/-- Returns of one asset over 23 days: 1 on day 20 and 0 on every other day. -/
def wipeoutFlat : List F := List.replicate 20 0 ++ [1, 0, 0]

/-- The four parallel vectors filled by the row reader (lines 54-57). -/
structure Series (F : Type) where
  dates : List String
  XLF_Ret : List F
  XOP_Ret : List F
  XLK_Ret : List F

/-- The test `std::isspace` in the classic locale: the space (32) and the
characters 9 to 13. -/
def isSpace (c : Char) : Bool :=
  c.toNat = 32 || (9 ≤ c.toNat && c.toNat ≤ 13)

/-- Skipping leading whitespace, the first step of every formatted extraction. -/
def skipSpaces (s : List Char) : List Char :=
  s.dropWhile isSpace

/-- The extraction `ss >> date` into a `std::string`: after the leading
whitespace, the characters up to the next whitespace or the end of the line; it
fails when there is none. Returns the token and the rest of the line. -/
def getToken (s : List Char) : Option (List Char × List Char) :=
  let tok := (skipSpaces s).takeWhile (fun c => !isSpace c)
  if tok.isEmpty then none
  else some (tok, (skipSpaces s).dropWhile (fun c => !isSpace c))

/-- The extraction `ss >> comma` into a `char`: after the leading whitespace, the
next character, whatever it is; it fails at the end of the line. -/
def getChar (s : List Char) : Option (Char × List Char) :=
  match skipSpaces s with
  | [] => none
  | c :: rest => some (c, rest)

/-- The extraction chain of line 68,
`ss >> date >> comma >> rxlf >> comma >> rxop >> comma >> rxlk`, on one line.
The extraction into a `double` is the parameter `getDouble`, which maps what is
left of the line to the number read and the rest, or fails. The chain fails as
soon as one extraction fails. -/
def parseRow (getDouble : List Char → Option (F × List Char)) (line : List Char) :
    Option (Row F) :=
  match getToken line with
  | none => none
  | some (date, s1) =>
    match getChar s1 with
    | none => none
    | some (_, s2) =>
      match getDouble s2 with
      | none => none
      | some (rxlf, s3) =>
        match getChar s3 with
        | none => none
        | some (_, s4) =>
          match getDouble s4 with
          | none => none
          | some (rxop, s5) =>
            match getChar s5 with
            | none => none
            | some (_, s6) =>
              match getDouble s6 with
              | none => none
              | some (rxlk, _) =>
                some { date := String.mk date, rxlf := rxlf, rxop := rxop, rxlk := rxlk }

/-- Body of the reading loop (lines 62-75): a line that fails to parse is
skipped, the fields of a line that parses are pushed to the four vectors. -/
def readLine (getDouble : List Char → Option (F × List Char)) (st : Series F)
    (line : List Char) : Series F :=
  match parseRow getDouble line with
  | none => st
  | some r =>
    { dates := st.dates ++ [r.date], XLF_Ret := st.XLF_Ret ++ [r.rxlf],
      XOP_Ret := st.XOP_Ret ++ [r.rxop], XLK_Ret := st.XLK_Ret ++ [r.rxlk] }

/-- The reading loop (lines 54-76) over the data lines of the file. -/
def readLines (getDouble : List Char → Option (F × List Char)) (lines : List (List Char)) :
    Series F :=
  lines.foldl (readLine getDouble) { dates := [], XLF_Ret := [], XOP_Ret := [], XLK_Ret := [] }

end ProofDefs

section Basics

theorem readAt_of_le {F : Type} (v : List F) (i : Nat) (h : v.length ≤ i) :
    readAt v i = Except.error Fault.outOfBounds := by
  simp [readAt, List.getElem?_eq_none h]

theorem writeAt_of_lt {F : Type} (v : List F) (i : Nat) (x : F) (h : i < v.length) :
    writeAt v i x = Except.ok (v.set i x) := by
  simp [writeAt, h]

theorem writeAt_of_le {F : Type} (v : List F) (i : Nat) (x : F) (h : v.length ≤ i) :
    writeAt v i x = Except.error Fault.outOfBounds := by
  simp [writeAt, Nat.not_lt.mpr h]

variable {F : Type} [LinearOrderedField F]

theorem subSizeT_of_le {a b : Nat} (h : b ≤ a) : subSizeT a b = a - b := by
  simp [subSizeT, h]

theorem readAt_of_lt (v : List F) (i : Nat) (h : i < v.length) :
    readAt v i = Except.ok (v.getD i 0) := by
  simp [readAt, List.getD, List.getElem?_eq_getElem h]

theorem getD_set_self (v : List F) (i : Nat) (x : F) (h : i < v.length) :
    (v.set i x).getD i 0 = x := by
  simp [List.getD, List.getElem?_set, h]

theorem getD_set_of_ne (v : List F) (i j : Nat) (x : F) (h : i ≠ j) :
    (v.set i x).getD j 0 = v.getD j 0 := by
  simp [List.getD, List.getElem?_set, h]

theorem getD_replicate_zero (n i : Nat) : (List.replicate n (0 : F)).getD i 0 = 0 := by
  by_cases h : i < n
  · simp [List.getD, List.getElem?_replicate, h]
  · simp [List.getD, List.getElem?_replicate, h]

end Basics

section Loops

variable {σ : Type}

theorem forLoop_zero (body : Nat → σ → Except Fault σ) (lo : Nat) (s : σ) :
    forLoop body lo 0 s = Except.ok s := rfl

theorem forLoop_succ_of_ok (body : Nat → σ → Except Fault σ) (lo k : Nat) (s s' : σ)
    (h : body lo s = Except.ok s') :
    forLoop body lo (k + 1) s = forLoop body (lo + 1) k s' := by
  simp [forLoop, h]

theorem forLoop_succ_of_error (body : Nat → σ → Except Fault σ) (lo k : Nat) (s : σ) (e : Fault)
    (h : body lo s = Except.error e) :
    forLoop body lo (k + 1) s = Except.error e := by
  simp [forLoop, h]

/-- Running `k + 1` iterations is running `k` iterations and then the body once more. -/
theorem forLoop_succ_last (body : Nat → σ → Except Fault σ) (lo k : Nat) (s s' : σ)
    (h : forLoop body lo k s = Except.ok s') :
    forLoop body lo (k + 1) s = body (lo + k) s' := by
  induction k generalizing lo s with
  | zero =>
    simp only [forLoop] at h
    cases h
    cases hb : body lo s' <;> simp [forLoop, hb]
  | succ k ih =>
    cases hb : body lo s with
    | error e => simp [forLoop, hb] at h
    | ok s1 =>
      rw [forLoop_succ_of_ok body lo k s s1 hb] at h
      rw [forLoop_succ_of_ok body lo (k + 1) s s1 hb, ih (lo + 1) s1 h]
      congr 1
      omega

/-- Invariant rule for counted loops: an invariant that holds on entry and is
carried by every iteration (which must not fault) holds on exit. -/
theorem forLoop_invariant (body : Nat → σ → Except Fault σ) (P : Nat → σ → Prop)
    (lo k : Nat) (s : σ) (h0 : P lo s)
    (hstep : ∀ t s, lo ≤ t → t < lo + k → P t s → ∃ s', body t s = Except.ok s' ∧ P (t + 1) s') :
    ∃ s', forLoop body lo k s = Except.ok s' ∧ P (lo + k) s' := by
  induction k generalizing lo s with
  | zero => exact ⟨s, rfl, h0⟩
  | succ k ih =>
    obtain ⟨s1, hb, hP⟩ := hstep lo s (Nat.le_refl lo) (by omega) h0
    obtain ⟨s2, hl, hP2⟩ := ih (lo + 1) s1 hP (fun t s ht1 ht2 hPt => hstep t s (by omega) (by omega) hPt)
    refine ⟨s2, ?_, ?_⟩
    · rw [forLoop_succ_of_ok body lo k s s1 hb, hl]
    · have : lo + (k + 1) = lo + 1 + k := by omega
      rw [this]; exact hP2

/-- Two loop bodies that agree on the iterations that are run give the same loop. -/
theorem forLoop_congr (body body' : Nat → σ → Except Fault σ) (lo k : Nat) (s : σ)
    (h : ∀ t s, lo ≤ t → t < lo + k → body t s = body' t s) :
    forLoop body lo k s = forLoop body' lo k s := by
  induction k generalizing lo s with
  | zero => rfl
  | succ k ih =>
    simp only [forLoop]
    rw [← h lo s (Nat.le_refl lo) (by omega)]
    cases body lo s with
    | error e => rfl
    | ok s1 => exact ih (lo + 1) s1 (fun t s ht1 ht2 => h t s (by omega) (by omega))

end Loops

section EqualWeight

variable {F : Type} [LinearOrderedField F]

theorem equalWeightStep_ok (XLF XOP XLK eq : List F) (n t : Nat)
    (hA : XLF.length = n) (hB : XOP.length = n) (hC : XLK.length = n) (he : eq.length = n)
    (h1 : 1 ≤ t) (ht : t < n) :
    equalWeightStep XLF XOP XLK t eq =
      Except.ok (eq.set t (eq.getD (t - 1) 0 *
        (1 + (XLF.getD t 0 + XLK.getD t 0 + XOP.getD t 0) / 3))) := by
  unfold equalWeightStep
  rw [readAt_of_lt XLF t (by omega), readAt_of_lt XLK t (by omega),
    readAt_of_lt XOP t (by omega), subSizeT_of_le h1]
  simp only [bind, Except.bind, readAt_of_lt eq (t - 1) (by omega),
    writeAt_of_lt eq t _ (show t < eq.length by omega)]

theorem equalWeighted_spec (XLF XOP XLK : List F) (n : Nat)
    (hA : XLF.length = n) (hB : XOP.length = n) (hC : XLK.length = n) (hn : 1 ≤ n) :
    ∃ eq, equalWeighted XLF XOP XLK n = Except.ok eq ∧ EqualInv XLF XOP XLK n n eq := by
  unfold equalWeighted
  rw [writeAt_of_lt _ 0 _ (by simpa using hn)]
  simp only [bind, Except.bind]
  have h := forLoop_invariant (equalWeightStep XLF XOP XLK) (EqualInv XLF XOP XLK n) 1 (n - 1)
    ((List.replicate n (0 : F)).set 0 startVal) ?_ ?_
  · have e : 1 + (n - 1) = n := by omega
    rw [e] at h
    exact h
  · refine ⟨by simp, ?_, ?_⟩
    · rw [getD_set_self _ _ _ (by simpa using hn)]; rfl
    · intro u h1 h2; omega
  · intro t eq ht1 ht2 ⟨hl, h0, hr⟩
    refine ⟨_, equalWeightStep_ok XLF XOP XLK eq n t hA hB hC hl ht1 (by omega), ?_, ?_, ?_⟩
    · simpa using hl
    · rw [getD_set_of_ne _ _ _ _ (by omega)]; exact h0
    · intro u hu1 hu2
      by_cases hut : u = t
      · subst hut
        rw [getD_set_self _ _ _ (by omega), getD_set_of_ne _ _ _ _ (by omega)]
        congr 2
        ring
      · rw [getD_set_of_ne _ _ _ _ (Ne.symm hut), getD_set_of_ne _ _ _ _ (by omega)]
        exact hr u hu1 (by omega)

theorem equalWeightStep_congr (XLF XOP XLK XLF' XOP' XLK' : List F) (t : Nat) (eq : List F)
    (hA : XLF'[t]? = XLF[t]?) (hB : XOP'[t]? = XOP[t]?) (hC : XLK'[t]? = XLK[t]?) :
    equalWeightStep XLF' XOP' XLK' t eq = equalWeightStep XLF XOP XLK t eq := by
  simp only [equalWeightStep, readAt, hA, hB, hC]

theorem equalWeighted_congr (XLF XOP XLK XLF' XOP' XLK' : List F) (n : Nat)
    (hA : ∀ t, 1 ≤ t → XLF'[t]? = XLF[t]?) (hB : ∀ t, 1 ≤ t → XOP'[t]? = XOP[t]?)
    (hC : ∀ t, 1 ≤ t → XLK'[t]? = XLK[t]?) :
    equalWeighted XLF' XOP' XLK' n = equalWeighted XLF XOP XLK n := by
  unfold equalWeighted
  cases writeAt (List.replicate n (0 : F)) 0 startVal with
  | error e => rfl
  | ok eq =>
    simp only [bind, Except.bind]
    exact forLoop_congr _ _ 1 (n - 1) eq (fun t s h1 _ =>
      equalWeightStep_congr XLF XOP XLK XLF' XOP' XLK' t s (hA t h1) (hB t h1) (hC t h1))

end EqualWeight

/-- C1. Equal-weight curve: for three aligned return series of length `n ≥ 1` the
equal-weight strategy returns a curve of length `n` with `equity[0] = 100` and
`equity[t] = equity[t-1] * (1 + (XLF[t] + XOP[t] + XLK[t]) / 3)` for `1 ≤ t < n`; and
series that differ from these on day 0 only give the same curve. -/
theorem C1_equal_weight_curve (XLF XOP XLK : List ℝ) (n : ℕ)
    (hA : XLF.length = n) (hB : XOP.length = n) (hC : XLK.length = n) (hn : 1 ≤ n) :
    (∃ equity, equalWeighted XLF XOP XLK n = Except.ok equity ∧ equity.length = n ∧
      equity.getD 0 0 = 100 ∧
      ∀ t, 1 ≤ t → t < n →
        equity.getD t 0 = equity.getD (t - 1) 0 * (1 + (XLF.getD t 0 + XOP.getD t 0 + XLK.getD t 0) / 3)) ∧
    ∀ XLF' XOP' XLK' : List ℝ,
      (∀ t, 1 ≤ t → XLF'[t]? = XLF[t]?) → (∀ t, 1 ≤ t → XOP'[t]? = XOP[t]?) →
      (∀ t, 1 ≤ t → XLK'[t]? = XLK[t]?) →
      equalWeighted XLF' XOP' XLK' n = equalWeighted XLF XOP XLK n := by
  refine ⟨?_, fun A B C h1 h2 h3 => equalWeighted_congr XLF XOP XLK A B C n h1 h2 h3⟩
  obtain ⟨eq, h, hl, h0, hr⟩ := equalWeighted_spec XLF XOP XLK n hA hB hC hn
  exact ⟨eq, h, hl, h0, fun t h1 h2 => hr t h1 h2⟩

theorem C1_equal_weight_curve_witness :
    ([1, 2] : List ℝ).length = 2 ∧ ([3, 4] : List ℝ).length = 2 ∧ ([5, 6] : List ℝ).length = 2 ∧
    1 ≤ 2 ∧
    ((∃ equity, equalWeighted ([1, 2] : List ℝ) [3, 4] [5, 6] 2 = Except.ok equity ∧
      equity.length = 2 ∧ equity.getD 0 0 = 100 ∧
      ∀ t, 1 ≤ t → t < 2 →
        equity.getD t 0 = equity.getD (t - 1) 0 *
          (1 + (([1, 2] : List ℝ).getD t 0 + ([3, 4] : List ℝ).getD t 0 +
            ([5, 6] : List ℝ).getD t 0) / 3)) ∧
    ∀ XLF' XOP' XLK' : List ℝ,
      (∀ t, 1 ≤ t → XLF'[t]? = ([1, 2] : List ℝ)[t]?) →
      (∀ t, 1 ≤ t → XOP'[t]? = ([3, 4] : List ℝ)[t]?) →
      (∀ t, 1 ≤ t → XLK'[t]? = ([5, 6] : List ℝ)[t]?) →
      equalWeighted XLF' XOP' XLK' 2 = equalWeighted ([1, 2] : List ℝ) [3, 4] [5, 6] 2) :=
  ⟨rfl, rfl, rfl, by decide, C1_equal_weight_curve [1, 2] [3, 4] [5, 6] 2 rfl rfl rfl (by decide)⟩

section Stats

variable {F : Type} [LinearOrderedField F]

theorem fdiv_of_ne (x y : F) (h : y ≠ 0) : fdiv x y = Except.ok (x / y) := by
  simp [fdiv, h]

theorem fdiv_zero (x : F) : fdiv x 0 = Except.error Fault.divByZero := by
  simp [fdiv]

theorem fsqrt_of_nonneg (sqrt : F → F) (x : F) (h : 0 ≤ x) :
    fsqrt sqrt x = Except.ok (sqrt x) := by
  simp [fsqrt, not_lt.mpr h]

theorem stdev_eq_ok (sqrt : F → F) (rs : RollingStats F) (h : rs.count ≠ 0) :
    stdev sqrt rs = Except.ok (stdevValue sqrt rs) := by
  have hc : (rs.count : F) ≠ 0 := Int.cast_ne_zero.mpr h
  unfold stdev stdevValue algVariance
  simp only [fdiv_of_ne _ _ hc, bind, Except.bind]
  apply fsqrt_of_nonneg
  split_ifs with hv
  · exact le_refl 0
  · exact not_lt.mp hv

theorem stdev_count_zero (sqrt : F → F) (rs : RollingStats F) (h : rs.count = 0) :
    stdev sqrt rs = Except.error Fault.divByZero := by
  unfold stdev
  simp [h, fdiv_zero, bind, Except.bind]

theorem invVol_eq_ok (vol : F) : invVol vol = Except.ok (invValue vol) := by
  unfold invVol invValue
  split_ifs with h
  · rfl
  · exact fdiv_of_ne 1 vol h

theorem normalise_eq_ok (inv sumInv : F) :
    normalise inv sumInv = Except.ok (normValue inv sumInv) := by
  unfold normalise normValue
  split_ifs with h
  · exact fdiv_of_ne inv sumInv (ne_of_gt h)
  · rfl

theorem weights_eq_ok (sqrt : F → F) (sA sB sC : RollingStats F)
    (hA : sA.count ≠ 0) (hB : sB.count ≠ 0) (hC : sC.count ≠ 0) :
    weights sqrt sA sB sC = Except.ok (weightsValue sqrt sA sB sC) := by
  unfold weights weightsValue
  simp only [stdev_eq_ok sqrt _ hA, stdev_eq_ok sqrt _ hB, stdev_eq_ok sqrt _ hC, invVol_eq_ok,
    normalise_eq_ok, bind, Except.bind, pure, Except.pure]

theorem sumsOver_add (r : List F) (lo hi : Nat) (c : Int) (h : lo ≤ hi) :
    (sumsOver r lo hi c).add (r.getD hi 0) = sumsOver r lo (hi + 1) c := by
  ext
  · simp [sumsOver, RollingStats.add, Finset.sum_Ico_succ_top h]
  · simp [sumsOver, RollingStats.add, Finset.sum_Ico_succ_top h]
  · rfl

theorem sumsOver_remove (r : List F) (lo hi : Nat) (c : Int) (h : lo < hi) :
    (sumsOver r lo hi c).remove (r.getD lo 0) = sumsOver r (lo + 1) hi c := by
  ext
  · simp [sumsOver, RollingStats.remove, Finset.sum_eq_sum_Ico_succ_bot h]
  · simp [sumsOver, RollingStats.remove, Finset.sum_eq_sum_Ico_succ_bot h]
  · rfl

theorem sumsOver_empty (r : List F) (lo : Nat) (c : Int) :
    sumsOver r lo lo c = { sum := 0, sumSq := 0, count := c } := by
  simp [sumsOver]

theorem initStep_ok (XLF XOP XLK : List F) (i : Nat)
    (s : RollingStats F × RollingStats F × RollingStats F)
    (hA : i < XLF.length) (hB : i < XOP.length) (hC : i < XLK.length) :
    initStep XLF XOP XLK i s =
      Except.ok (s.1.add (XLF.getD i 0), s.2.1.add (XOP.getD i 0), s.2.2.add (XLK.getD i 0)) := by
  simp only [initStep, readAt_of_lt _ _ hA, readAt_of_lt _ _ hB, readAt_of_lt _ _ hC, bind,
    Except.bind, pure, Except.pure]

theorem initStats_eq_ok (XLF XOP XLK : List F)
    (hA : 20 ≤ XLF.length) (hB : 20 ≤ XOP.length) (hC : 20 ≤ XLK.length) :
    initStats XLF XOP XLK =
      Except.ok (sumsOver XLF 0 20 20, sumsOver XOP 0 20 20, sumsOver XLK 0 20 20) := by
  have h := forLoop_invariant (initStep XLF XOP XLK)
    (fun i s => s = (sumsOver XLF 0 i 0, sumsOver XOP 0 i 0, sumsOver XLK 0 i 0)) 0 window_size
    ({ sum := 0, sumSq := 0, count := 0 }, { sum := 0, sumSq := 0, count := 0 },
      { sum := 0, sumSq := 0, count := 0 }) ?_ ?_
  · obtain ⟨s, hs, hP⟩ := h
    unfold initStats
    simp only [hs, bind, Except.bind, pure, Except.pure, hP]
    rfl
  · simp only [sumsOver_empty]
  · intro i s _ hi hP
    simp only [window_size] at hi
    refine ⟨_, initStep_ok XLF XOP XLK i s (by omega) (by omega) (by omega), ?_⟩
    rw [hP]
    simp only [sumsOver_add _ 0 i 0 (Nat.zero_le i)]

end Stats

section RiskParityLoop

variable {F : Type} [LinearOrderedField F]

theorem oldIdx_eq (t : Nat) (h : 21 ≤ t) : subSizeT (subSizeT t window_size) 1 = t - 21 := by
  have h1 : subSizeT t window_size = t - 20 := subSizeT_of_le (by simp only [window_size]; omega)
  rw [h1, subSizeT_of_le (by omega)]
  omega

theorem rollForward_ok (XLF XOP XLK : List F) (n t : Nat) (s : VolState F)
    (hA : XLF.length = n) (hB : XOP.length = n) (hC : XLK.length = n)
    (h21 : 21 ≤ t) (ht : t < n) :
    rollForward XLF XOP XLK t s = Except.ok
      { s with
        statsXLF := (s.statsXLF.remove (XLF.getD (t - 21) 0)).add (XLF.getD (t - 1) 0),
        statsXOP := (s.statsXOP.remove (XOP.getD (t - 21) 0)).add (XOP.getD (t - 1) 0),
        statsXLK := (s.statsXLK.remove (XLK.getD (t - 21) 0)).add (XLK.getD (t - 1) 0) } := by
  unfold rollForward
  have hold : t - 21 < XLF.length := by omega
  simp only [oldIdx_eq t h21, subSizeT_of_le (show 1 ≤ t by omega), hold, if_true,
    readAt_of_lt XLF (t - 21) (by omega), readAt_of_lt XOP (t - 21) (by omega),
    readAt_of_lt XLK (t - 21) (by omega), readAt_of_lt XLF (t - 1) (by omega),
    readAt_of_lt XOP (t - 1) (by omega), readAt_of_lt XLK (t - 1) (by omega),
    bind, Except.bind, pure, Except.pure]

theorem volStep_ok (sqrt : F → F) (XLF XOP XLK : List F) (n t : Nat) (s : VolState F)
    (hA : XLF.length = n) (hB : XOP.length = n) (hC : XLK.length = n)
    (he : s.equityVol.length = n)
    (cA : s.statsXLF.count ≠ 0) (cB : s.statsXOP.count ≠ 0) (cC : s.statsXLK.count ≠ 0)
    (h21 : 21 ≤ t) (ht : t < n) :
    volStep sqrt XLF XOP XLK t s = Except.ok
      { equityVol := s.equityVol.set t (s.equityVol.getD (t - 1) 0 *
          (1 + dailyRetVol (weightsValue sqrt s.statsXLF s.statsXOP s.statsXLK)
            (XLF.getD t 0) (XOP.getD t 0) (XLK.getD t 0))),
        statsXLF := (s.statsXLF.remove (XLF.getD (t - 21) 0)).add (XLF.getD (t - 1) 0),
        statsXOP := (s.statsXOP.remove (XOP.getD (t - 21) 0)).add (XOP.getD (t - 1) 0),
        statsXLK := (s.statsXLK.remove (XLK.getD (t - 21) 0)).add (XLK.getD (t - 1) 0) } := by
  unfold volStep
  simp only [weights_eq_ok sqrt _ _ _ cA cB cC, readAt_of_lt XLF t (by omega),
    readAt_of_lt XOP t (by omega), readAt_of_lt XLK t (by omega),
    subSizeT_of_le (show 1 ≤ t by omega), readAt_of_lt s.equityVol (t - 1) (by omega),
    writeAt_of_lt s.equityVol t _ (show t < s.equityVol.length by omega),
    bind, Except.bind]
  rw [rollForward_ok XLF XOP XLK n t _ hA hB hC h21 ht]

theorem volInit_ok (XLF XOP XLK : List F) (n : Nat)
    (hA : XLF.length = n) (hB : XOP.length = n) (hC : XLK.length = n) (hn : 21 ≤ n) :
    volInit XLF XOP XLK n = Except.ok
      { equityVol := (List.replicate n (0 : F)).set 20 100,
        statsXLF := sumsOver XLF 0 20 20, statsXOP := sumsOver XOP 0 20 20,
        statsXLK := sumsOver XLK 0 20 20 } := by
  unfold volInit
  rw [writeAt_of_lt _ _ _ (by simp only [window_size, List.length_replicate]; omega),
    initStats_eq_ok XLF XOP XLK (by omega) (by omega) (by omega)]
  rfl

theorem volInit_short (XLF XOP XLK : List F) (n : Nat) (hn : n ≤ 20) :
    volInit XLF XOP XLK n = Except.error Fault.outOfBounds := by
  unfold volInit
  rw [writeAt_of_le _ _ _ (by simp only [window_size, List.length_replicate]; omega)]
  rfl

theorem volInv_init (sqrt : F → F) (XLF XOP XLK : List F) (n : Nat) (hn : 21 ≤ n) :
    VolInv sqrt XLF XOP XLK n 21
      { equityVol := (List.replicate n (0 : F)).set 20 100,
        statsXLF := sumsOver XLF 0 20 20, statsXOP := sumsOver XOP 0 20 20,
        statsXLK := sumsOver XLK 0 20 20 } := by
  refine ⟨by simp, rfl, rfl, rfl, ?_, ?_, ?_⟩
  · intro i hi
    simp only
    rw [getD_set_of_ne _ _ _ _ (by omega), getD_replicate_zero]
  · simp only
    rw [getD_set_self _ _ _ (by simp only [List.length_replicate]; omega)]
  · intro u h1 h2
    omega

theorem volInv_step (sqrt : F → F) (XLF XOP XLK : List F) (n t : Nat) (s : VolState F)
    (hA : XLF.length = n) (hB : XOP.length = n) (hC : XLK.length = n)
    (h21 : 21 ≤ t) (ht : t < n) (hI : VolInv sqrt XLF XOP XLK n t s) :
    ∃ s', volStep sqrt XLF XOP XLK t s = Except.ok s' ∧ VolInv sqrt XLF XOP XLK n (t + 1) s' := by
  obtain ⟨hl, sA, sB, sC, hz, h20, hr⟩ := hI
  refine ⟨_, volStep_ok sqrt XLF XOP XLK n t s hA hB hC hl (by rw [sA]; simp [sumsOver])
    (by rw [sB]; simp [sumsOver]) (by rw [sC]; simp [sumsOver]) h21 ht, ?_, ?_, ?_, ?_, ?_, ?_, ?_⟩
  · simpa using hl
  · simp only [sA]
    rw [sumsOver_remove _ _ _ _ (by omega), sumsOver_add _ _ _ _ (by omega)]
    congr 1 <;> omega
  · simp only [sB]
    rw [sumsOver_remove _ _ _ _ (by omega), sumsOver_add _ _ _ _ (by omega)]
    congr 1 <;> omega
  · simp only [sC]
    rw [sumsOver_remove _ _ _ _ (by omega), sumsOver_add _ _ _ _ (by omega)]
    congr 1 <;> omega
  · intro i hi
    simp only
    rw [getD_set_of_ne _ _ _ _ (by omega)]
    exact hz i hi
  · simp only
    rw [getD_set_of_ne _ _ _ _ (by omega)]
    exact h20
  · intro u hu1 hu2
    simp only
    by_cases hut : u = t
    · subst hut
      rw [getD_set_self _ _ _ (by omega), getD_set_of_ne _ _ _ _ (by omega), sA, sB, sC]
    · rw [getD_set_of_ne _ _ _ _ (Ne.symm hut), getD_set_of_ne _ _ _ _ (by omega)]
      exact hr u hu1 (by omega)

/-- The loop reaches every counter value `t` with `21 ≤ t ≤ n` without a fault,
in a state that satisfies the invariant. -/
theorem volStateAt_spec (sqrt : F → F) (XLF XOP XLK : List F) (n t : Nat)
    (hA : XLF.length = n) (hB : XOP.length = n) (hC : XLK.length = n)
    (h21 : 21 ≤ t) (ht : t ≤ n) :
    ∃ s, volStateAt sqrt XLF XOP XLK n t = Except.ok s ∧ VolInv sqrt XLF XOP XLK n t s := by
  unfold volStateAt
  rw [volInit_ok XLF XOP XLK n hA hB hC (by omega)]
  simp only [bind, Except.bind]
  have h := forLoop_invariant (volStep sqrt XLF XOP XLK) (VolInv sqrt XLF XOP XLK n)
    (window_size + 1) (t - (window_size + 1)) _ (volInv_init sqrt XLF XOP XLK n (by omega))
    (fun u s hu1 hu2 hI => volInv_step sqrt XLF XOP XLK n u s hA hB hC
      (by simp only [window_size] at hu1; omega) (by simp only [window_size] at hu2; omega) hI)
  have e : window_size + 1 + (t - (window_size + 1)) = t := by
    simp only [window_size]; omega
  rw [e] at h
  exact h

/-- The state on entry to iteration `t + 1` is the body of iteration `t` applied
to the state on entry to iteration `t`. -/
theorem volStateAt_succ (sqrt : F → F) (XLF XOP XLK : List F) (n t : Nat) (s : VolState F)
    (h21 : 21 ≤ t) (hs : volStateAt sqrt XLF XOP XLK n t = Except.ok s) :
    volStateAt sqrt XLF XOP XLK n (t + 1) = volStep sqrt XLF XOP XLK t s := by
  unfold volStateAt at hs ⊢
  cases hi : volInit XLF XOP XLK n with
  | error e => simp [hi, bind, Except.bind] at hs
  | ok s0 =>
    simp only [hi, bind, Except.bind] at hs ⊢
    have e : t + 1 - (window_size + 1) = (t - (window_size + 1)) + 1 := by
      simp only [window_size]; omega
    rw [e, forLoop_succ_last _ _ _ _ _ hs]
    congr 1
    simp only [window_size]; omega

end RiskParityLoop

section LoopState

variable {F : Type} [LinearOrderedField F]

/-- Running `a + b` iterations is running `a` iterations and then `b` more. -/
theorem forLoop_add {σ : Type} (body : Nat → σ → Except Fault σ) (lo a b : Nat) (s s' : σ)
    (h : forLoop body lo a s = Except.ok s') :
    forLoop body lo (a + b) s = forLoop body (lo + a) b s' := by
  induction a generalizing lo s with
  | zero =>
    simp only [forLoop] at h
    cases h
    simp
  | succ a ih =>
    cases hb : body lo s with
    | error e => simp [forLoop, hb] at h
    | ok s1 =>
      rw [forLoop_succ_of_ok body lo a s s1 hb] at h
      have e : a + 1 + b = (a + b) + 1 := by omega
      rw [e, forLoop_succ_of_ok body lo (a + b) s s1 hb, ih (lo + 1) s1 h]
      congr 1
      omega

/-- The strategy is the rest of its loop run from the state on entry to
iteration `t`: `volStateAt` is the state the loop of `riskParity` passes through. -/
theorem riskParity_from (sqrt : F → F) (XLF XOP XLK : List F) (n t : Nat) (s : VolState F)
    (h21 : 21 ≤ t) (ht : t ≤ n) (hs : volStateAt sqrt XLF XOP XLK n t = Except.ok s) :
    riskParity sqrt XLF XOP XLK n =
      match forLoop (volStep sqrt XLF XOP XLK) t (n - t) s with
      | Except.ok s' => Except.ok s'.equityVol
      | Except.error e => Except.error e := by
  unfold riskParity volStateAt
  unfold volStateAt at hs
  cases hi : volInit XLF XOP XLK n with
  | error e => simp [hi, bind, Except.bind] at hs
  | ok s0 =>
    simp only [hi, bind, Except.bind] at hs ⊢
    have e : n - (window_size + 1) = (t - (window_size + 1)) + (n - t) := by
      simp only [window_size]; omega
    have e2 : window_size + 1 + (t - (window_size + 1)) = t := by
      simp only [window_size]; omega
    rw [e, forLoop_add _ _ _ _ _ _ hs, e2]
    cases forLoop (volStep sqrt XLF XOP XLK) t (n - t) s <;> rfl

end LoopState

section Curves

variable {F : Type} [LinearOrderedField F]

theorem tracksWindow_sumsOver (r : List F) (lo hi : Nat) :
    TracksWindow r (sumsOver r lo (hi + 1) 20) lo hi := by
  refine ⟨rfl, ?_, ?_⟩
  · simp only [sumsOver, ← Nat.Ico_succ_right]
  · simp only [sumsOver, ← Nat.Ico_succ_right, pow_two]

theorem getD_drop (r : List F) (k i : Nat) : (r.drop k).getD i 0 = r.getD (k + i) 0 := by
  simp [List.getD, List.getElem?_drop]

theorem sumsOver_drop (r : List F) (k len : Nat) (c : Int) :
    sumsOver (r.drop k) 0 len c = sumsOver r k (k + len) c := by
  have e : ∀ f : Nat → F, ∑ i ∈ Finset.Ico 0 len, f (k + i) = ∑ i ∈ Finset.Ico k (k + len), f i := by
    intro f
    rw [Finset.sum_Ico_eq_sum_range f k (k + len)]
    simp
  ext
  · simp only [sumsOver, getD_drop]
    exact e (fun i => r.getD i 0)
  · simp only [sumsOver, getD_drop]
    exact e (fun i => r.getD i 0 * r.getD i 0)
  · rfl

/-- The statistics the loop holds on entry to iteration `t` are the ones the
initialisation code computes from scratch on the series shifted by `t - 21`. -/
theorem initStats_drop (XLF XOP XLK : List F) (n t : Nat)
    (hA : XLF.length = n) (hB : XOP.length = n) (hC : XLK.length = n)
    (h21 : 21 ≤ t) (ht : t < n) :
    initStats (XLF.drop (t - 21)) (XOP.drop (t - 21)) (XLK.drop (t - 21)) =
      Except.ok (sumsOver XLF (t - 21) (t - 1) 20, sumsOver XOP (t - 21) (t - 1) 20,
        sumsOver XLK (t - 21) (t - 1) 20) := by
  rw [initStats_eq_ok _ _ _ (by simp only [List.length_drop]; omega)
    (by simp only [List.length_drop]; omega) (by simp only [List.length_drop]; omega)]
  have e : t - 21 + 20 = t - 1 := by omega
  simp only [sumsOver_drop, e]

theorem riskParity_eq (sqrt : F → F) (XLF XOP XLK : List F) (n : Nat) (s : VolState F)
    (h : volStateAt sqrt XLF XOP XLK n n = Except.ok s) :
    riskParity sqrt XLF XOP XLK n = Except.ok s.equityVol := by
  simp only [riskParity, h, bind, Except.bind, pure, Except.pure]

end Curves

/-- C3 (as amended). Rolling-stats equivalence in exact real arithmetic: for a
day `t` with `21 ≤ t < n` the loop reaches iteration `t`, and there each asset's
incrementally maintained statistics have count 20 and hold the sum and the sum
of squares of that asset's returns on days `t - 21 .. t - 2`; they are the
statistics the initialisation code computes from scratch on the series shifted
by `t - 21`, so `stdev` gives the same result on both. -/
theorem C3_rolling_stats_equivalence (XLF XOP XLK : List ℝ) (n t : ℕ)
    (hA : XLF.length = n) (hB : XOP.length = n) (hC : XLK.length = n)
    (h21 : 21 ≤ t) (ht : t < n) :
    ∃ s, volStateAt Real.sqrt XLF XOP XLK n t = Except.ok s ∧
      TracksWindow XLF s.statsXLF (t - 21) (t - 2) ∧
      TracksWindow XOP s.statsXOP (t - 21) (t - 2) ∧
      TracksWindow XLK s.statsXLK (t - 21) (t - 2) ∧
      ∃ fA fB fC,
        initStats (XLF.drop (t - 21)) (XOP.drop (t - 21)) (XLK.drop (t - 21)) =
          Except.ok (fA, fB, fC) ∧
        TracksWindow XLF fA (t - 21) (t - 2) ∧ TracksWindow XOP fB (t - 21) (t - 2) ∧
        TracksWindow XLK fC (t - 21) (t - 2) ∧
        stdev Real.sqrt s.statsXLF = stdev Real.sqrt fA ∧
        stdev Real.sqrt s.statsXOP = stdev Real.sqrt fB ∧
        stdev Real.sqrt s.statsXLK = stdev Real.sqrt fC := by
  obtain ⟨s, hs, _, sA, sB, sC, _⟩ :=
    volStateAt_spec Real.sqrt XLF XOP XLK n t hA hB hC h21 (Nat.le_of_lt ht)
  have e : t - 1 = t - 2 + 1 := by omega
  have tA := tracksWindow_sumsOver XLF (t - 21) (t - 2)
  have tB := tracksWindow_sumsOver XOP (t - 21) (t - 2)
  have tC := tracksWindow_sumsOver XLK (t - 21) (t - 2)
  rw [← e] at tA tB tC
  refine ⟨s, hs, by rw [sA]; exact tA, by rw [sB]; exact tB, by rw [sC]; exact tC,
    _, _, _, initStats_drop XLF XOP XLK n t hA hB hC h21 ht, tA, tB, tC, ?_, ?_, ?_⟩
  · rw [sA]
  · rw [sB]
  · rw [sC]

section Boundary

variable {F : Type} [LinearOrderedField F]

theorem riskParity_short (sqrt : F → F) (XLF XOP XLK : List F) (n : Nat) (hn : n ≤ 20) :
    riskParity sqrt XLF XOP XLK n = Except.error Fault.outOfBounds := by
  simp only [riskParity, volStateAt, volInit_short XLF XOP XLK n hn, bind, Except.bind]

theorem main_twenty_rows (sqrt : F → F) (rows : List (Row F)) (h : rows.length = 20) :
    main sqrt rows = Except.error Fault.outOfBounds := by
  obtain ⟨eq, he, _⟩ := equalWeighted_spec (rows.map (fun r => r.rxlf))
    (rows.map (fun r => r.rxop)) (rows.map (fun r => r.rxlk)) 20
    (by simp [h]) (by simp [h]) (by simp [h]) (by decide)
  simp only [main, List.length_map, h, lt_irrefl, if_false, he,
    riskParity_short sqrt _ _ _ 20 (Nat.le_refl 20), bind, Except.bind]

theorem stdevValue_zero_sums (r : List ℝ) (lo hi : Nat)
    (h : ∀ i, lo ≤ i → i < hi → r.getD i 0 = 0) :
    stdevValue Real.sqrt (sumsOver r lo hi 20) = 0 := by
  have h1 : (sumsOver r lo hi 20).sum = 0 := by
    simp only [sumsOver]
    exact Finset.sum_eq_zero (fun i hi => by
      rw [Finset.mem_Ico] at hi; exact h i hi.1 hi.2)
  have h2 : (sumsOver r lo hi 20).sumSq = 0 := by
    simp only [sumsOver]
    exact Finset.sum_eq_zero (fun i hi => by
      rw [Finset.mem_Ico] at hi; rw [h i hi.1 hi.2]; ring)
  simp [stdevValue, algVariance, h1, h2]

end Boundary

/-- C10 (the code does otherwise). An input of exactly 20 rows passes the row-count
check, and the run then ends in an access past the end of a vector: the write of
the start value to `equityVol[window_size]`. -/
theorem C10_twenty_rows_out_of_bounds (rows : List (Row ℝ)) (h : rows.length = 20) :
    main Real.sqrt rows = Except.error Fault.outOfBounds ∧
    main Real.sqrt rows ≠ Except.error Fault.notEnoughRows ∧
    writeAt (List.replicate rows.length (0 : ℝ)) window_size startVal =
      Except.error Fault.outOfBounds ∧
    riskParity Real.sqrt (rows.map (fun r => r.rxlf)) (rows.map (fun r => r.rxop))
      (rows.map (fun r => r.rxlk)) rows.length = Except.error Fault.outOfBounds := by
  refine ⟨main_twenty_rows Real.sqrt rows h, ?_, ?_, ?_⟩
  · rw [main_twenty_rows Real.sqrt rows h]
    intro hne
    cases hne
  · exact writeAt_of_le _ _ _ (by simp [h, window_size])
  · exact riskParity_short Real.sqrt _ _ _ _ (by omega)

theorem C10_twenty_rows_out_of_bounds_witness :
    (List.replicate 20 ({ date := "2020-01-02", rxlf := 0, rxop := 0, rxlk := 0 } : Row ℝ)).length
      = 20 ∧
    main Real.sqrt
      (List.replicate 20 ({ date := "2020-01-02", rxlf := 0, rxop := 0, rxlk := 0 } : Row ℝ)) =
      Except.error Fault.outOfBounds :=
  ⟨by simp, (C10_twenty_rows_out_of_bounds _ (by simp)).1⟩

section WeightValues

variable {F : Type} [LinearOrderedField F]

theorem invValue_zero : invValue (0 : F) = 0 := by
  simp [invValue]

theorem invValue_nonneg (v : F) (h : 0 ≤ v) : 0 ≤ invValue v := by
  unfold invValue
  split_ifs
  · exact le_refl 0
  · exact div_nonneg zero_le_one h

theorem invValue_pos (v : F) (h : 0 < v) : 0 < invValue v := by
  unfold invValue
  rw [if_neg (ne_of_gt h)]
  exact div_pos zero_lt_one h

theorem normValue_nonneg (inv sumInv : F) (h : 0 ≤ inv) : 0 ≤ normValue inv sumInv := by
  unfold normValue
  split_ifs with hs
  · exact div_nonneg h (le_of_lt hs)
  · exact le_refl 0

theorem normValue_zero_left (sumInv : F) : normValue 0 sumInv = 0 := by
  simp [normValue]

theorem normValue_of_not_pos (inv sumInv : F) (h : ¬ 0 < sumInv) : normValue inv sumInv = 0 := by
  simp [normValue, h]

theorem normValue_sum (x y z : F) (h : 0 < x + y + z) :
    normValue x (x + y + z) + normValue y (x + y + z) + normValue z (x + y + z) = 1 := by
  simp only [normValue, gt_iff_lt, h, if_true]
  field_simp

theorem stdevValue_nonneg (rs : RollingStats ℝ) : 0 ≤ stdevValue Real.sqrt rs :=
  Real.sqrt_nonneg _

theorem weightsValue_nonneg (sA sB sC : RollingStats ℝ) :
    0 ≤ (weightsValue Real.sqrt sA sB sC).wXLF ∧ 0 ≤ (weightsValue Real.sqrt sA sB sC).wXOP ∧
      0 ≤ (weightsValue Real.sqrt sA sB sC).wXLK :=
  ⟨normValue_nonneg _ _ (invValue_nonneg _ (stdevValue_nonneg sA)),
    normValue_nonneg _ _ (invValue_nonneg _ (stdevValue_nonneg sB)),
    normValue_nonneg _ _ (invValue_nonneg _ (stdevValue_nonneg sC))⟩

theorem weightsValue_sum (sA sB sC : RollingStats ℝ)
    (h : stdevValue Real.sqrt sA ≠ 0 ∨ stdevValue Real.sqrt sB ≠ 0 ∨ stdevValue Real.sqrt sC ≠ 0) :
    (weightsValue Real.sqrt sA sB sC).wXLF + (weightsValue Real.sqrt sA sB sC).wXOP +
      (weightsValue Real.sqrt sA sB sC).wXLK = 1 := by
  have nA := invValue_nonneg _ (stdevValue_nonneg sA)
  have nB := invValue_nonneg _ (stdevValue_nonneg sB)
  have nC := invValue_nonneg _ (stdevValue_nonneg sC)
  have hpos : 0 < invValue (stdevValue Real.sqrt sA) + invValue (stdevValue Real.sqrt sB) +
      invValue (stdevValue Real.sqrt sC) := by
    rcases h with h | h | h
    · have := invValue_pos _ (lt_of_le_of_ne (stdevValue_nonneg sA) (Ne.symm h))
      linarith
    · have := invValue_pos _ (lt_of_le_of_ne (stdevValue_nonneg sB) (Ne.symm h))
      linarith
    · have := invValue_pos _ (lt_of_le_of_ne (stdevValue_nonneg sC) (Ne.symm h))
      linarith
  exact normValue_sum _ _ _ hpos

theorem weightsValue_all_zero (sqrt : F → F) (sA sB sC : RollingStats F)
    (hA : stdevValue sqrt sA = 0) (hB : stdevValue sqrt sB = 0) (hC : stdevValue sqrt sC = 0) :
    (weightsValue sqrt sA sB sC).wXLF = 0 ∧ (weightsValue sqrt sA sB sC).wXOP = 0 ∧
      (weightsValue sqrt sA sB sC).wXLK = 0 := by
  simp [weightsValue, hA, hB, hC, invValue_zero, normValue_zero_left]

theorem weightsValue_wXLF_zero (sqrt : F → F) (sA sB sC : RollingStats F)
    (hA : stdevValue sqrt sA = 0) : (weightsValue sqrt sA sB sC).wXLF = 0 := by
  simp [weightsValue, hA, invValue_zero, normValue_zero_left]

theorem stdevValue_eq_max (rs : RollingStats ℝ) :
    stdevValue Real.sqrt rs =
      Real.sqrt (max 0 (rs.sumSq / (rs.count : ℝ) - (rs.sum / (rs.count : ℝ)) ^ 2)) := by
  unfold stdevValue algVariance
  rw [pow_two]
  split_ifs with h
  · rw [max_eq_left (le_of_lt h)]
  · rw [max_eq_right (not_lt.mp h)]

theorem stdevValue_of_neg (rs : RollingStats ℝ)
    (h : rs.sumSq / (rs.count : ℝ) - (rs.sum / (rs.count : ℝ)) ^ 2 < 0) :
    stdevValue Real.sqrt rs = 0 := by
  rw [stdevValue_eq_max, max_eq_left (le_of_lt h), Real.sqrt_zero]

theorem algVariance_sumsOver (x : List F) :
    algVariance (sumsOver x 0 20 20) = populationVariance x := by
  have e : Finset.Ico 0 20 = Finset.range 20 := by
    rw [Finset.range_eq_Ico]
  have expand : ∀ i ∈ Finset.range 20, (x.getD i 0 - windowMean x) ^ 2 =
      x.getD i 0 * x.getD i 0 - 2 * windowMean x * x.getD i 0 + windowMean x ^ 2 := by
    intro i _
    ring
  have hm : ∑ i ∈ Finset.range 20, x.getD i 0 = 20 * windowMean x := by
    unfold windowMean
    field_simp
  simp only [algVariance, sumsOver, populationVariance, e]
  rw [Finset.sum_congr rfl expand, Finset.sum_add_distrib, Finset.sum_sub_distrib,
    ← Finset.mul_sum, Finset.sum_const, Finset.card_range, hm]
  simp only [nsmul_eq_mul]
  push_cast
  field_simp
  ring

theorem populationVariance_nonneg (x : List F) : 0 ≤ populationVariance x := by
  unfold populationVariance
  exact mul_nonneg (by norm_num) (Finset.sum_nonneg (fun i _ => sq_nonneg _))

end WeightValues

/-- C5. Weight normalisation: for any three rolling statistics with count 20 the
three standard deviations and the weights are computed without a fault, the
weights are non-negative, they sum to exactly 1 when at least one standard
deviation is nonzero, and they are all 0 when all three are zero. -/
theorem C5_weight_normalisation (sA sB sC : RollingStats ℝ)
    (hA : sA.count = 20) (hB : sB.count = 20) (hC : sC.count = 20) :
    ∃ vA vB vC w, stdev Real.sqrt sA = Except.ok vA ∧ stdev Real.sqrt sB = Except.ok vB ∧
      stdev Real.sqrt sC = Except.ok vC ∧ weights Real.sqrt sA sB sC = Except.ok w ∧
      0 ≤ w.wXLF ∧ 0 ≤ w.wXOP ∧ 0 ≤ w.wXLK ∧
      ((vA ≠ 0 ∨ vB ≠ 0 ∨ vC ≠ 0) → w.wXLF + w.wXOP + w.wXLK = 1) ∧
      ((vA = 0 ∧ vB = 0 ∧ vC = 0) → w.wXLF = 0 ∧ w.wXOP = 0 ∧ w.wXLK = 0) := by
  have cA : sA.count ≠ 0 := by rw [hA]; decide
  have cB : sB.count ≠ 0 := by rw [hB]; decide
  have cC : sC.count ≠ 0 := by rw [hC]; decide
  obtain ⟨n1, n2, n3⟩ := weightsValue_nonneg sA sB sC
  exact ⟨_, _, _, _, stdev_eq_ok Real.sqrt sA cA, stdev_eq_ok Real.sqrt sB cB,
    stdev_eq_ok Real.sqrt sC cC, weights_eq_ok Real.sqrt sA sB sC cA cB cC, n1, n2, n3,
    weightsValue_sum sA sB sC,
    fun h => weightsValue_all_zero Real.sqrt sA sB sC h.1 h.2.1 h.2.2⟩

theorem C5_weight_normalisation_witness :
    ({ sum := 1, sumSq := 2, count := 20 } : RollingStats ℝ).count = 20 ∧
    ∃ vA vB vC w,
      stdev Real.sqrt ({ sum := 1, sumSq := 2, count := 20 } : RollingStats ℝ) = Except.ok vA ∧
      stdev Real.sqrt ({ sum := 1, sumSq := 2, count := 20 } : RollingStats ℝ) = Except.ok vB ∧
      stdev Real.sqrt ({ sum := 1, sumSq := 2, count := 20 } : RollingStats ℝ) = Except.ok vC ∧
      weights Real.sqrt ({ sum := 1, sumSq := 2, count := 20 } : RollingStats ℝ)
        { sum := 1, sumSq := 2, count := 20 } { sum := 1, sumSq := 2, count := 20 } = Except.ok w ∧
      0 ≤ w.wXLF ∧ 0 ≤ w.wXOP ∧ 0 ≤ w.wXLK ∧
      ((vA ≠ 0 ∨ vB ≠ 0 ∨ vC ≠ 0) → w.wXLF + w.wXOP + w.wXLK = 1) ∧
      ((vA = 0 ∧ vB = 0 ∧ vC = 0) → w.wXLF = 0 ∧ w.wXOP = 0 ∧ w.wXLK = 0) :=
  ⟨rfl, C5_weight_normalisation _ _ _ rfl rfl rfl⟩

/-- C6. Standard deviation query: for rolling statistics with `count > 0`, `stdev`
returns `sqrt (max 0 (sumSq / count - (sum / count) ^ 2))` without a fault; the
result is non-negative, and it is exactly 0 when the algebraic variance
`sumSq / count - (sum / count) ^ 2` is negative. -/
theorem C6_stdev_query (rs : RollingStats ℝ) (h : 0 < rs.count) :
    stdev Real.sqrt rs =
      Except.ok (Real.sqrt (max 0 (rs.sumSq / (rs.count : ℝ) - (rs.sum / (rs.count : ℝ)) ^ 2))) ∧
    0 ≤ Real.sqrt (max 0 (rs.sumSq / (rs.count : ℝ) - (rs.sum / (rs.count : ℝ)) ^ 2)) ∧
    (rs.sumSq / (rs.count : ℝ) - (rs.sum / (rs.count : ℝ)) ^ 2 < 0 →
      stdev Real.sqrt rs = Except.ok 0) := by
  have c : rs.count ≠ 0 := ne_of_gt h
  refine ⟨?_, Real.sqrt_nonneg _, fun hneg => ?_⟩
  · rw [stdev_eq_ok Real.sqrt rs c, stdevValue_eq_max]
  · rw [stdev_eq_ok Real.sqrt rs c, stdevValue_of_neg rs hneg]

theorem C6_stdev_query_witness :
    0 < ({ sum := 20, sumSq := 0, count := 20 } : RollingStats ℝ).count ∧
    ({ sum := 20, sumSq := 0, count := 20 } : RollingStats ℝ).sumSq / ((20 : Int) : ℝ) -
      (({ sum := 20, sumSq := 0, count := 20 } : RollingStats ℝ).sum / ((20 : Int) : ℝ)) ^ 2 < 0 ∧
    stdev Real.sqrt ({ sum := 20, sumSq := 0, count := 20 } : RollingStats ℝ) = Except.ok 0 :=
  ⟨by decide, by norm_num,
    (C6_stdev_query { sum := 20, sumSq := 0, count := 20 } (by decide)).2.2 (by norm_num)⟩

/-- C7. Population standard deviation: for series with at least 20 values the
initialisation gives, for each asset, statistics with count 20 holding the sum
and the sum of squares of its first 20 values; `stdev` of them is the square root
of the average squared deviation of those values from their mean, and their
algebraic variance `sumSq / 20 - (sum / 20) ^ 2` equals that average and is never
negative. -/
theorem C7_population_stdev (XLF XOP XLK : List ℝ)
    (hA : 20 ≤ XLF.length) (hB : 20 ≤ XOP.length) (hC : 20 ≤ XLK.length) :
    ∃ sA sB sC, initStats XLF XOP XLK = Except.ok (sA, sB, sC) ∧
      (TracksWindow XLF sA 0 19 ∧
        stdev Real.sqrt sA = Except.ok (Real.sqrt (populationVariance XLF)) ∧
        sA.sumSq / 20 - (sA.sum / 20) ^ 2 = populationVariance XLF ∧
        0 ≤ sA.sumSq / 20 - (sA.sum / 20) ^ 2) ∧
      (TracksWindow XOP sB 0 19 ∧
        stdev Real.sqrt sB = Except.ok (Real.sqrt (populationVariance XOP)) ∧
        sB.sumSq / 20 - (sB.sum / 20) ^ 2 = populationVariance XOP ∧
        0 ≤ sB.sumSq / 20 - (sB.sum / 20) ^ 2) ∧
      (TracksWindow XLK sC 0 19 ∧
        stdev Real.sqrt sC = Except.ok (Real.sqrt (populationVariance XLK)) ∧
        sC.sumSq / 20 - (sC.sum / 20) ^ 2 = populationVariance XLK ∧
        0 ≤ sC.sumSq / 20 - (sC.sum / 20) ^ 2) := by
  have key : ∀ x : List ℝ, TracksWindow x (sumsOver x 0 20 20) 0 19 ∧
      stdev Real.sqrt (sumsOver x 0 20 20) = Except.ok (Real.sqrt (populationVariance x)) ∧
      (sumsOver x 0 20 20).sumSq / 20 - ((sumsOver x 0 20 20).sum / 20) ^ 2 =
        populationVariance x ∧
      0 ≤ (sumsOver x 0 20 20).sumSq / 20 - ((sumsOver x 0 20 20).sum / 20) ^ 2 := by
    intro x
    have hv := algVariance_sumsOver x
    have hv2 : (sumsOver x 0 20 20).sumSq / 20 - ((sumsOver x 0 20 20).sum / 20) ^ 2 =
        populationVariance x := by
      rw [← hv, pow_two]
      simp [algVariance, sumsOver]
    refine ⟨tracksWindow_sumsOver x 0 19, ?_, hv2, by rw [hv2]; exact populationVariance_nonneg x⟩
    rw [stdev_eq_ok Real.sqrt _ (by simp [sumsOver])]
    unfold stdevValue
    rw [hv, if_neg (not_lt.mpr (populationVariance_nonneg x))]
  exact ⟨_, _, _, initStats_eq_ok XLF XOP XLK hA hB hC, key XLF, key XOP, key XLK⟩

theorem C7_population_stdev_witness :
    20 ≤ (List.replicate 20 (1 : ℝ)).length ∧
    ∃ sA sB sC, initStats (List.replicate 20 (1 : ℝ)) (List.replicate 20 (1 : ℝ))
        (List.replicate 20 (1 : ℝ)) = Except.ok (sA, sB, sC) ∧
      (TracksWindow (List.replicate 20 (1 : ℝ)) sA 0 19 ∧
        stdev Real.sqrt sA = Except.ok (Real.sqrt (populationVariance (List.replicate 20 (1 : ℝ)))) ∧
        sA.sumSq / 20 - (sA.sum / 20) ^ 2 = populationVariance (List.replicate 20 (1 : ℝ)) ∧
        0 ≤ sA.sumSq / 20 - (sA.sum / 20) ^ 2) ∧
      (TracksWindow (List.replicate 20 (1 : ℝ)) sB 0 19 ∧
        stdev Real.sqrt sB = Except.ok (Real.sqrt (populationVariance (List.replicate 20 (1 : ℝ)))) ∧
        sB.sumSq / 20 - (sB.sum / 20) ^ 2 = populationVariance (List.replicate 20 (1 : ℝ)) ∧
        0 ≤ sB.sumSq / 20 - (sB.sum / 20) ^ 2) ∧
      (TracksWindow (List.replicate 20 (1 : ℝ)) sC 0 19 ∧
        stdev Real.sqrt sC = Except.ok (Real.sqrt (populationVariance (List.replicate 20 (1 : ℝ)))) ∧
        sC.sumSq / 20 - (sC.sum / 20) ^ 2 = populationVariance (List.replicate 20 (1 : ℝ)) ∧
        0 ≤ sC.sumSq / 20 - (sC.sum / 20) ^ 2) :=
  ⟨by simp, C7_population_stdev (List.replicate 20 1) (List.replicate 20 1) (List.replicate 20 1)
    (by simp) (by simp) (by simp)⟩

section ZeroVolatility

variable {F : Type} [LinearOrderedField F]

theorem algVariance_const (r : List F) (lo : Nat) (k : F)
    (h : ∀ i, lo ≤ i → i < lo + 20 → r.getD i 0 = k) :
    algVariance (sumsOver r lo (lo + 20) 20) = 0 := by
  have h1 : (sumsOver r lo (lo + 20) 20).sum = 20 * k := by
    have e : ∑ i ∈ Finset.Ico lo (lo + 20), r.getD i 0 = ∑ _i ∈ Finset.Ico lo (lo + 20), k :=
      Finset.sum_congr rfl (fun i hi => by
        rw [Finset.mem_Ico] at hi; exact h i hi.1 hi.2)
    simp only [sumsOver]
    rw [e, Finset.sum_const, Nat.card_Ico]
    simp
  have h2 : (sumsOver r lo (lo + 20) 20).sumSq = 20 * (k * k) := by
    have e : ∑ i ∈ Finset.Ico lo (lo + 20), r.getD i 0 * r.getD i 0 =
        ∑ _i ∈ Finset.Ico lo (lo + 20), k * k :=
      Finset.sum_congr rfl (fun i hi => by
        rw [Finset.mem_Ico] at hi; rw [h i hi.1 hi.2])
    simp only [sumsOver]
    rw [e, Finset.sum_const, Nat.card_Ico]
    simp
  have h3 : ((sumsOver r lo (lo + 20) 20).count : F) = 20 := by
    simp [sumsOver]
  have h20 : (20 : F) ≠ 0 := by norm_num
  simp only [algVariance, h1, h2, h3]
  rw [mul_div_cancel_left₀ _ h20, mul_div_cancel_left₀ _ h20, sub_self]

theorem stdevValue_const (r : List ℝ) (lo : Nat) (k : ℝ)
    (h : ∀ i, lo ≤ i → i < lo + 20 → r.getD i 0 = k) :
    stdevValue Real.sqrt (sumsOver r lo (lo + 20) 20) = 0 := by
  unfold stdevValue
  rw [algVariance_const r lo k h]
  simp

theorem getD_replicate_of_lt (n i : Nat) (x : F) (h : i < n) :
    (List.replicate n x).getD i 0 = x := by
  simp [List.getD, List.getElem?_replicate, h]

theorem dailyRetVol_zero_weights (w : Weights F) (x y z : F)
    (h : w.wXLF = 0 ∧ w.wXOP = 0 ∧ w.wXLK = 0) : dailyRetVol w x y z = 0 := by
  simp [dailyRetVol, h.1, h.2.1, h.2.2]

theorem dailyRetVol_zero_returns (w : Weights F) : dailyRetVol w 0 0 0 = 0 := by
  simp [dailyRetVol]

/-- With all-zero returns the equal-weight curve stays at the start value. -/
theorem equalWeighted_zero (n : Nat) (hn : 1 ≤ n) :
    ∃ eq, equalWeighted (List.replicate n (0 : F)) (List.replicate n 0) (List.replicate n 0) n =
        Except.ok eq ∧ ∀ i, i < n → eq.getD i 0 = 100 := by
  obtain ⟨eq, he, _, h0, hr⟩ := equalWeighted_spec (List.replicate n (0 : F))
    (List.replicate n 0) (List.replicate n 0) n (by simp) (by simp) (by simp) hn
  refine ⟨eq, he, ?_⟩
  intro i
  induction i with
  | zero => intro _; exact h0
  | succ i ih =>
    intro hi
    rw [hr (i + 1) (by omega) hi, Nat.add_sub_cancel, ih (by omega), getD_replicate_zero]
    norm_num

/-- With all-zero returns the risk-parity curve stays at the start value from
day 20 on. -/
theorem riskParity_zero (sqrt : F → F) (n : Nat) (hn : 21 ≤ n) :
    ∃ eq, riskParity sqrt (List.replicate n (0 : F)) (List.replicate n 0)
        (List.replicate n 0) n = Except.ok eq ∧ ∀ i, 20 ≤ i → i < n → eq.getD i 0 = 100 := by
  obtain ⟨s, hs, _, _, _, _, _, h20, hr⟩ := volStateAt_spec sqrt (List.replicate n (0 : F))
    (List.replicate n 0) (List.replicate n 0) n n (by simp) (by simp) (by simp) hn (Nat.le_refl n)
  refine ⟨s.equityVol, riskParity_eq sqrt _ _ _ n s hs, ?_⟩
  intro i
  induction i with
  | zero => intro h; omega
  | succ i ih =>
    intro h1 h2
    by_cases hi : i + 1 = 20
    · rw [hi]; exact h20
    · rw [hr (i + 1) (by omega) h2, Nat.add_sub_cancel, ih (by omega) (by omega),
        getD_replicate_zero, dailyRetVol_zero_returns]
      norm_num

end ZeroVolatility

/-- C8 (as amended). Zero-volatility asset in exact real arithmetic: on a
risk-parity day `t` (`21 ≤ t < n`) on which the XLF returns held by its
statistics (days `t - 21 .. t - 2`) are all the same constant, the standard
deviation of XLF is exactly 0 and its weight is exactly 0, both computed without
a fault (no division by zero); and when XOP or XLK has a nonzero standard
deviation, the weights of XOP and XLK sum to 1. -/
theorem C8_zero_volatility_asset (XLF XOP XLK : List ℝ) (n t : ℕ) (k : ℝ)
    (hA : XLF.length = n) (hB : XOP.length = n) (hC : XLK.length = n)
    (h21 : 21 ≤ t) (ht : t < n)
    (hconst : ∀ i, t - 21 ≤ i → i ≤ t - 2 → XLF.getD i 0 = k) :
    ∃ s w, volStateAt Real.sqrt XLF XOP XLK n t = Except.ok s ∧
      stdev Real.sqrt s.statsXLF = Except.ok 0 ∧
      weights Real.sqrt s.statsXLF s.statsXOP s.statsXLK = Except.ok w ∧
      w.wXLF = 0 ∧
      ((stdev Real.sqrt s.statsXOP ≠ Except.ok 0 ∨ stdev Real.sqrt s.statsXLK ≠ Except.ok 0) →
        w.wXOP + w.wXLK = 1) := by
  obtain ⟨s, hs, _, sA, sB, sC, _⟩ :=
    volStateAt_spec Real.sqrt XLF XOP XLK n t hA hB hC h21 (Nat.le_of_lt ht)
  have cA : s.statsXLF.count ≠ 0 := by rw [sA]; simp [sumsOver]
  have cB : s.statsXOP.count ≠ 0 := by rw [sB]; simp [sumsOver]
  have cC : s.statsXLK.count ≠ 0 := by rw [sC]; simp [sumsOver]
  have e : t - 1 = t - 21 + 20 := by omega
  have vA : stdevValue Real.sqrt s.statsXLF = 0 := by
    rw [sA, e]
    exact stdevValue_const XLF (t - 21) k (fun i h1 h2 => hconst i h1 (by omega))
  have wA := weightsValue_wXLF_zero Real.sqrt s.statsXLF s.statsXOP s.statsXLK vA
  refine ⟨s, _, hs, by rw [stdev_eq_ok Real.sqrt _ cA, vA],
    weights_eq_ok Real.sqrt _ _ _ cA cB cC, wA, ?_⟩
  intro h
  rw [stdev_eq_ok Real.sqrt _ cB, stdev_eq_ok Real.sqrt _ cC] at h
  have hsum := weightsValue_sum s.statsXLF s.statsXOP s.statsXLK (by
    rcases h with h | h
    · exact Or.inr (Or.inl (fun h0 => h (by rw [h0])))
    · exact Or.inr (Or.inr (fun h0 => h (by rw [h0]))))
  rw [wA, zero_add] at hsum
  exact hsum

/-- C9. All-zero input: for `n ≥ 21`, when all three assets return 0 on every day
the equal-weight curve is 100 at every index below `n` and the risk-parity curve
is 100 at every index from 20 on; and for any input, on a risk-parity day on
which all three standard deviations are zero the daily return is 0 and
`equityVol[t] = equityVol[t-1]`. -/
theorem C9_all_zero_input (XLF XOP XLK : List ℝ) (n : ℕ)
    (hA : XLF.length = n) (hB : XOP.length = n) (hC : XLK.length = n) (hn : 21 ≤ n) :
    (∃ equityEqual equityVol,
      equalWeighted (List.replicate n (0 : ℝ)) (List.replicate n 0) (List.replicate n 0) n =
        Except.ok equityEqual ∧
      (∀ i, i < n → equityEqual.getD i 0 = 100) ∧
      riskParity Real.sqrt (List.replicate n (0 : ℝ)) (List.replicate n 0) (List.replicate n 0) n =
        Except.ok equityVol ∧
      (∀ i, 20 ≤ i → i < n → equityVol.getD i 0 = 100)) ∧
    (∃ equityVol, riskParity Real.sqrt XLF XOP XLK n = Except.ok equityVol ∧
      ∀ t, 21 ≤ t → t < n →
        ∃ s w, volStateAt Real.sqrt XLF XOP XLK n t = Except.ok s ∧
          weights Real.sqrt s.statsXLF s.statsXOP s.statsXLK = Except.ok w ∧
          (stdev Real.sqrt s.statsXLF = Except.ok 0 → stdev Real.sqrt s.statsXOP = Except.ok 0 →
            stdev Real.sqrt s.statsXLK = Except.ok 0 →
            dailyRetVol w (XLF.getD t 0) (XOP.getD t 0) (XLK.getD t 0) = 0 ∧
              equityVol.getD t 0 = equityVol.getD (t - 1) 0)) := by
  constructor
  · obtain ⟨e1, h1, h2⟩ := equalWeighted_zero (F := ℝ) n (by omega)
    obtain ⟨e2, h3, h4⟩ := riskParity_zero Real.sqrt n hn
    exact ⟨e1, e2, h1, h2, h3, h4⟩
  · obtain ⟨sn, hsn, _, _, _, _, _, _, hr⟩ :=
      volStateAt_spec Real.sqrt XLF XOP XLK n n hA hB hC hn (Nat.le_refl n)
    refine ⟨sn.equityVol, riskParity_eq Real.sqrt XLF XOP XLK n sn hsn, ?_⟩
    intro t h21 ht
    obtain ⟨s, hs, _, sA, sB, sC, _⟩ :=
      volStateAt_spec Real.sqrt XLF XOP XLK n t hA hB hC h21 (Nat.le_of_lt ht)
    have cA : s.statsXLF.count ≠ 0 := by rw [sA]; simp [sumsOver]
    have cB : s.statsXOP.count ≠ 0 := by rw [sB]; simp [sumsOver]
    have cC : s.statsXLK.count ≠ 0 := by rw [sC]; simp [sumsOver]
    refine ⟨s, _, hs, weights_eq_ok Real.sqrt _ _ _ cA cB cC, ?_⟩
    intro zA zB zC
    rw [stdev_eq_ok Real.sqrt _ cA] at zA
    rw [stdev_eq_ok Real.sqrt _ cB] at zB
    rw [stdev_eq_ok Real.sqrt _ cC] at zC
    have hd := dailyRetVol_zero_weights _ (XLF.getD t 0) (XOP.getD t 0) (XLK.getD t 0)
      (weightsValue_all_zero Real.sqrt s.statsXLF s.statsXOP s.statsXLK
        (Except.ok.inj zA) (Except.ok.inj zB) (Except.ok.inj zC))
    refine ⟨hd, ?_⟩
    rw [hr t h21 ht, ← sA, ← sB, ← sC, hd]
    ring

theorem C9_all_zero_input_witness :
    (List.replicate 25 (0 : ℝ)).length = 25 ∧ 21 ≤ 25 ∧
    ∃ equityEqual equityVol,
      equalWeighted (List.replicate 25 (0 : ℝ)) (List.replicate 25 0) (List.replicate 25 0) 25 =
        Except.ok equityEqual ∧
      (∀ i, i < 25 → equityEqual.getD i 0 = 100) ∧
      riskParity Real.sqrt (List.replicate 25 (0 : ℝ)) (List.replicate 25 0)
        (List.replicate 25 0) 25 = Except.ok equityVol ∧
      (∀ i, 20 ≤ i → i < 25 → equityVol.getD i 0 = 100) :=
  ⟨by simp, by decide,
    (C9_all_zero_input (List.replicate 25 0) (List.replicate 25 0) (List.replicate 25 0) 25
      (by simp) (by simp) (by simp) (by decide)).1⟩

section MainRun

variable {F : Type} [LinearOrderedField F]

theorem outputStep_ok (dates : List String) (eqE eqV : List F) (n i : Nat)
    (out : List (String × F × F))
    (hd : dates.length = n) (hE : eqE.length = n) (hV : eqV.length = n) (hi : i < n) :
    ∃ row, outputStep dates eqE eqV i out = Except.ok (out ++ [row]) := by
  have h1 : dates[i]? = some (dates[i]) := List.getElem?_eq_getElem (by omega)
  refine ⟨(dates[i], eqE.getD i 0, eqV.getD i 0), ?_⟩
  unfold outputStep
  rw [h1]
  simp only [readAt_of_lt eqE i (by omega), readAt_of_lt eqV i (by omega), bind, Except.bind,
    pure, Except.pure]

theorem outputLoop_ok (dates : List String) (eqE eqV : List F) (n : Nat)
    (hd : dates.length = n) (hE : eqE.length = n) (hV : eqV.length = n) :
    ∃ out, forLoop (outputStep dates eqE eqV) 0 n [] = Except.ok out ∧ out.length = n := by
  have h := forLoop_invariant (outputStep dates eqE eqV) (fun i out => out.length = i) 0 n []
    rfl (fun i out _ hi hP => by
      obtain ⟨row, hr⟩ := outputStep_ok dates eqE eqV n i out hd hE hV (by omega)
      exact ⟨_, hr, by simp [hP]⟩)
  simpa using h

/-- With at least 21 rows the run completes and writes one result row per input row. -/
theorem main_ok (sqrt : F → F) (rows : List (Row F)) (h : 21 ≤ rows.length) :
    ∃ out, main sqrt rows = Except.ok out ∧ out.length = rows.length := by
  obtain ⟨eqE, hE, hlE, _⟩ := equalWeighted_spec (rows.map (fun r => r.rxlf))
    (rows.map (fun r => r.rxop)) (rows.map (fun r => r.rxlk)) rows.length
    (by simp) (by simp) (by simp) (by omega)
  obtain ⟨s, hs, hlV, _⟩ := volStateAt_spec sqrt (rows.map (fun r => r.rxlf))
    (rows.map (fun r => r.rxop)) (rows.map (fun r => r.rxlk)) rows.length rows.length
    (by simp) (by simp) (by simp) h (Nat.le_refl _)
  have hV := riskParity_eq sqrt _ _ _ _ s hs
  obtain ⟨out, ho, hl⟩ := outputLoop_ok (rows.map (fun r => r.date)) eqE s.equityVol rows.length
    (by simp) hlE hlV
  refine ⟨out, ?_, hl⟩
  have hn : ¬ rows.length < 20 := by omega
  simp only [main, List.length_map, hn, if_false, hE, hV, bind, Except.bind]
  exact ho

theorem main_too_few (sqrt : F → F) (rows : List (Row F)) (h : rows.length < 20) :
    main sqrt rows = Except.error Fault.notEnoughRows := by
  simp only [main, List.length_map, h, if_true]

theorem main_notEnoughRows_iff (sqrt : F → F) (rows : List (Row F)) :
    main sqrt rows = Except.error Fault.notEnoughRows ↔ rows.length < 20 := by
  constructor
  · intro hm
    by_contra hlt
    by_cases h20 : rows.length = 20
    · rw [main_twenty_rows sqrt rows h20] at hm
      cases hm
    · obtain ⟨out, ho, _⟩ := main_ok sqrt rows (by omega)
      rw [ho] at hm
      cases hm
  · exact main_too_few sqrt rows

end MainRun

/-- C11. InsufficientData: the run ends with the insufficient-data error exactly when
fewer than 20 rows were parsed; in that case no result row is produced, and the
outcome is this error rather than the fault in which the risk-parity strategy
would end on such an input, so the strategies are not run. -/
theorem C11_insufficient_data (rows : List (Row ℝ)) :
    (main Real.sqrt rows = Except.error Fault.notEnoughRows ↔ rows.length < 20) ∧
    (rows.length < 20 →
      (∀ out, main Real.sqrt rows ≠ Except.ok out) ∧
      riskParity Real.sqrt (rows.map (fun r => r.rxlf)) (rows.map (fun r => r.rxop))
        (rows.map (fun r => r.rxlk)) rows.length = Except.error Fault.outOfBounds ∧
      main Real.sqrt rows ≠ Except.error Fault.outOfBounds) := by
  refine ⟨main_notEnoughRows_iff Real.sqrt rows, fun h => ⟨?_, ?_, ?_⟩⟩
  · intro out ho
    rw [main_too_few Real.sqrt rows h] at ho
    cases ho
  · exact riskParity_short Real.sqrt _ _ _ _ (by omega)
  · intro ho
    rw [main_too_few Real.sqrt rows h] at ho
    cases ho

theorem C11_insufficient_data_witness :
    (List.replicate 19 ({ date := "2020-01-02", rxlf := 0, rxop := 0, rxlk := 0 } : Row ℝ)).length
      < 20 ∧
    main Real.sqrt
      (List.replicate 19 ({ date := "2020-01-02", rxlf := 0, rxop := 0, rxlk := 0 } : Row ℝ)) =
      Except.error Fault.notEnoughRows ∧
    main Real.sqrt
      (List.replicate 20 ({ date := "2020-01-02", rxlf := 0, rxop := 0, rxlk := 0 } : Row ℝ)) ≠
      Except.error Fault.notEnoughRows :=
  ⟨by simp, (C11_insufficient_data _).1.mpr (by simp),
    fun h => absurd ((C11_insufficient_data _).1.mp h) (by simp)⟩

section Allocation

variable {F : Type} [LinearOrderedField F]

theorem sumsOver_congr (r r' : List F) (lo hi : Nat) (c : Int)
    (h : ∀ i, lo ≤ i → i < hi → r'.getD i 0 = r.getD i 0) :
    sumsOver r' lo hi c = sumsOver r lo hi c := by
  ext
  · simp only [sumsOver]
    exact Finset.sum_congr rfl (fun i hi => by
      rw [Finset.mem_Ico] at hi; exact h i hi.1 hi.2)
  · simp only [sumsOver]
    exact Finset.sum_congr rfl (fun i hi => by
      rw [Finset.mem_Ico] at hi; rw [h i hi.1 hi.2])
  · rfl

theorem invValue_of_ne (v : F) (h : v ≠ 0) : invValue v = 1 / v := by
  simp [invValue, h]

theorem normValue_of_pos (inv sumInv : F) (h : 0 < sumInv) :
    normValue inv sumInv = inv / sumInv := by
  simp [normValue, h]

/-- The weights when all three standard deviations are positive: each is the
inverse volatility over the sum of the inverse volatilities. -/
theorem weightsValue_of_pos (sqrt : F → F) (sA sB sC : RollingStats F)
    (hA : 0 < stdevValue sqrt sA) (hB : 0 < stdevValue sqrt sB) (hC : 0 < stdevValue sqrt sC) :
    (weightsValue sqrt sA sB sC).wXLF = 1 / stdevValue sqrt sA /
        (1 / stdevValue sqrt sA + 1 / stdevValue sqrt sB + 1 / stdevValue sqrt sC) ∧
    (weightsValue sqrt sA sB sC).wXOP = 1 / stdevValue sqrt sB /
        (1 / stdevValue sqrt sA + 1 / stdevValue sqrt sB + 1 / stdevValue sqrt sC) ∧
    (weightsValue sqrt sA sB sC).wXLK = 1 / stdevValue sqrt sC /
        (1 / stdevValue sqrt sA + 1 / stdevValue sqrt sB + 1 / stdevValue sqrt sC) := by
  have pA : 0 < 1 / stdevValue sqrt sA := div_pos zero_lt_one hA
  have pB : 0 < 1 / stdevValue sqrt sB := div_pos zero_lt_one hB
  have pC : 0 < 1 / stdevValue sqrt sC := div_pos zero_lt_one hC
  have hS : 0 < 1 / stdevValue sqrt sA + 1 / stdevValue sqrt sB + 1 / stdevValue sqrt sC := by
    linarith
  refine ⟨?_, ?_, ?_⟩ <;>
    simp only [weightsValue, invValue_of_ne _ (ne_of_gt hA), invValue_of_ne _ (ne_of_gt hB),
      invValue_of_ne _ (ne_of_gt hC), normValue_of_pos _ _ hS]

/-- Inverse weighting: `(1 / x) / S * x = 1 / S`, and a smaller volatility gives a
larger weight. -/
theorem inverse_share_mul (x S : F) (hx : 0 < x) (hS : 0 < S) : 1 / x / S * x = 1 / S := by
  have hx0 : x ≠ 0 := ne_of_gt hx
  have hS0 : S ≠ 0 := ne_of_gt hS
  field_simp

theorem inverse_share_lt (x y S : F) (hx : 0 < x) (hS : 0 < S) (h : x < y) :
    1 / y / S < 1 / x / S :=
  div_lt_div_of_pos_right (one_div_lt_one_div_of_lt hx h) hS

end Allocation

/-- C12. No look-ahead: two inputs of the same length that agree on all returns at
indices up to `t - 2` reach iteration `t` (`21 ≤ t < n`) with statistics that
give the same weights, whatever their returns on days `t - 1`, `t` and later. -/
theorem C12_no_look_ahead (XLF XOP XLK XLF' XOP' XLK' : List ℝ) (n t : ℕ)
    (hA : XLF.length = n) (hB : XOP.length = n) (hC : XLK.length = n)
    (hA' : XLF'.length = n) (hB' : XOP'.length = n) (hC' : XLK'.length = n)
    (h21 : 21 ≤ t) (ht : t < n)
    (eA : ∀ i, i ≤ t - 2 → XLF'.getD i 0 = XLF.getD i 0)
    (eB : ∀ i, i ≤ t - 2 → XOP'.getD i 0 = XOP.getD i 0)
    (eC : ∀ i, i ≤ t - 2 → XLK'.getD i 0 = XLK.getD i 0) :
    ∃ s s' w, volStateAt Real.sqrt XLF XOP XLK n t = Except.ok s ∧
      volStateAt Real.sqrt XLF' XOP' XLK' n t = Except.ok s' ∧
      weights Real.sqrt s.statsXLF s.statsXOP s.statsXLK = Except.ok w ∧
      weights Real.sqrt s'.statsXLF s'.statsXOP s'.statsXLK = Except.ok w := by
  obtain ⟨s, hs, _, sA, sB, sC, _⟩ :=
    volStateAt_spec Real.sqrt XLF XOP XLK n t hA hB hC h21 (Nat.le_of_lt ht)
  obtain ⟨s', hs', _, sA', sB', sC', _⟩ :=
    volStateAt_spec Real.sqrt XLF' XOP' XLK' n t hA' hB' hC' h21 (Nat.le_of_lt ht)
  have cA : s.statsXLF.count ≠ 0 := by rw [sA]; simp [sumsOver]
  have cB : s.statsXOP.count ≠ 0 := by rw [sB]; simp [sumsOver]
  have cC : s.statsXLK.count ≠ 0 := by rw [sC]; simp [sumsOver]
  have e1 : s'.statsXLF = s.statsXLF := by
    rw [sA, sA']; exact sumsOver_congr _ _ _ _ _ (fun i _ h2 => eA i (by omega))
  have e2 : s'.statsXOP = s.statsXOP := by
    rw [sB, sB']; exact sumsOver_congr _ _ _ _ _ (fun i _ h2 => eB i (by omega))
  have e3 : s'.statsXLK = s.statsXLK := by
    rw [sC, sC']; exact sumsOver_congr _ _ _ _ _ (fun i _ h2 => eC i (by omega))
  refine ⟨s, s', _, hs, hs', weights_eq_ok Real.sqrt _ _ _ cA cB cC, ?_⟩
  rw [e1, e2, e3]
  exact weights_eq_ok Real.sqrt _ _ _ cA cB cC

theorem C12_no_look_ahead_witness :
    (List.replicate 23 (0 : ℝ)).length = 23 ∧
    (List.replicate 20 (0 : ℝ) ++ [1, 2, 3]).length = 23 ∧ 21 ≤ 21 ∧ 21 < 23 ∧
    (∀ i, i ≤ 21 - 2 →
      (List.replicate 20 (0 : ℝ) ++ [1, 2, 3]).getD i 0 = (List.replicate 23 (0 : ℝ)).getD i 0) ∧
    ∃ s s' w, volStateAt Real.sqrt (List.replicate 23 (0 : ℝ)) (List.replicate 23 0)
        (List.replicate 23 0) 23 21 = Except.ok s ∧
      volStateAt Real.sqrt (List.replicate 20 (0 : ℝ) ++ [1, 2, 3])
        (List.replicate 20 (0 : ℝ) ++ [1, 2, 3]) (List.replicate 20 (0 : ℝ) ++ [1, 2, 3]) 23 21 =
        Except.ok s' ∧
      weights Real.sqrt s.statsXLF s.statsXOP s.statsXLK = Except.ok w ∧
      weights Real.sqrt s'.statsXLF s'.statsXOP s'.statsXLK = Except.ok w :=
  have hk : ∀ i, i ≤ 21 - 2 →
      (List.replicate 20 (0 : ℝ) ++ [1, 2, 3]).getD i 0 = (List.replicate 23 (0 : ℝ)).getD i 0 :=
    fun i hi => by
      rw [List.getD_append _ _ _ _ (by simp only [List.length_replicate]; omega),
        getD_replicate_zero, getD_replicate_zero]
  ⟨by simp, by simp, by decide, by decide, hk,
    C12_no_look_ahead _ _ _ _ _ _ 23 21 (by simp) (by simp) (by simp) (by simp) (by simp)
      (by simp) (by decide) (by decide) hk hk hk⟩

section Positivity

variable {F : Type} [LinearOrderedField F]

/-- A combination with non-negative weights that sum to 1 lies between the
smallest and the largest of the combined values. -/
theorem convex_bounds (a b c x y z : F) (ha : 0 ≤ a) (hb : 0 ≤ b) (hc : 0 ≤ c)
    (hs : a + b + c = 1) :
    min x (min y z) ≤ a * x + b * y + c * z ∧ a * x + b * y + c * z ≤ max x (max y z) := by
  have m1 : min x (min y z) ≤ x := min_le_left _ _
  have m2 : min x (min y z) ≤ y := le_trans (min_le_right _ _) (min_le_left _ _)
  have m3 : min x (min y z) ≤ z := le_trans (min_le_right _ _) (min_le_right _ _)
  have M1 : x ≤ max x (max y z) := le_max_left _ _
  have M2 : y ≤ max x (max y z) := le_trans (le_max_left _ _) (le_max_right _ _)
  have M3 : z ≤ max x (max y z) := le_trans (le_max_right _ _) (le_max_right _ _)
  have e1 : min x (min y z) = a * min x (min y z) + b * min x (min y z) + c * min x (min y z) := by
    rw [← add_mul, ← add_mul, hs, one_mul]
  have e2 : max x (max y z) = a * max x (max y z) + b * max x (max y z) + c * max x (max y z) := by
    rw [← add_mul, ← add_mul, hs, one_mul]
  constructor
  · rw [e1]
    exact add_le_add (add_le_add (mul_le_mul_of_nonneg_left m1 ha)
      (mul_le_mul_of_nonneg_left m2 hb)) (mul_le_mul_of_nonneg_left m3 hc)
  · rw [e2]
    exact add_le_add (add_le_add (mul_le_mul_of_nonneg_left M1 ha)
      (mul_le_mul_of_nonneg_left M2 hb)) (mul_le_mul_of_nonneg_left M3 hc)

/-- The risk-parity return of a day is 0 with all-zero weights, or a convex
combination of the three returns of that day. -/
theorem dailyRetVol_cases (sA sB sC : RollingStats ℝ) (x y z : ℝ) :
    ((weightsValue Real.sqrt sA sB sC).wXLF = 0 ∧ (weightsValue Real.sqrt sA sB sC).wXOP = 0 ∧
      (weightsValue Real.sqrt sA sB sC).wXLK = 0 ∧
      dailyRetVol (weightsValue Real.sqrt sA sB sC) x y z = 0) ∨
    (0 ≤ (weightsValue Real.sqrt sA sB sC).wXLF ∧ 0 ≤ (weightsValue Real.sqrt sA sB sC).wXOP ∧
      0 ≤ (weightsValue Real.sqrt sA sB sC).wXLK ∧
      (weightsValue Real.sqrt sA sB sC).wXLF + (weightsValue Real.sqrt sA sB sC).wXOP +
        (weightsValue Real.sqrt sA sB sC).wXLK = 1 ∧
      min x (min y z) ≤ dailyRetVol (weightsValue Real.sqrt sA sB sC) x y z ∧
      dailyRetVol (weightsValue Real.sqrt sA sB sC) x y z ≤ max x (max y z)) := by
  by_cases h : stdevValue Real.sqrt sA = 0 ∧ stdevValue Real.sqrt sB = 0 ∧
      stdevValue Real.sqrt sC = 0
  · have hz := weightsValue_all_zero Real.sqrt sA sB sC h.1 h.2.1 h.2.2
    exact Or.inl ⟨hz.1, hz.2.1, hz.2.2, dailyRetVol_zero_weights _ x y z hz⟩
  · have hs := weightsValue_sum sA sB sC (by
      by_contra hc
      push_neg at hc
      exact h hc)
    obtain ⟨n1, n2, n3⟩ := weightsValue_nonneg sA sB sC
    exact Or.inr ⟨n1, n2, n3, hs, convex_bounds _ _ _ x y z n1 n2 n3 hs⟩

theorem dailyRetVol_gt (sA sB sC : RollingStats ℝ) (x y z : ℝ)
    (hx : -1 < x) (hy : -1 < y) (hz : -1 < z) :
    -1 < dailyRetVol (weightsValue Real.sqrt sA sB sC) x y z := by
  rcases dailyRetVol_cases sA sB sC x y z with h | h
  · rw [h.2.2.2]; norm_num
  · exact lt_of_lt_of_le (lt_min hx (lt_min hy hz)) h.2.2.2.2.1

theorem equalInv_pos (XLF XOP XLK : List F) (n : Nat) (eq : List F)
    (hI : EqualInv XLF XOP XLK n n eq)
    (hr : ∀ u, 1 ≤ u → u < n → -1 < (XLF.getD u 0 + XOP.getD u 0 + XLK.getD u 0) / 3) :
    ∀ t, t < n → 0 < eq.getD t 0 := by
  obtain ⟨_, h0, hrec⟩ := hI
  intro t
  induction t with
  | zero => intro _; rw [h0]; norm_num
  | succ t ih =>
    intro ht
    rw [hrec (t + 1) (by omega) ht, Nat.add_sub_cancel]
    have := hr (t + 1) (by omega) ht
    exact mul_pos (ih (by omega)) (by linarith)

theorem volInv_pos (sqrt : F → F) (XLF XOP XLK : List F) (n : Nat) (s : VolState F)
    (hI : VolInv sqrt XLF XOP XLK n n s)
    (hr : ∀ u, 21 ≤ u → u < n →
      -1 < dailyRetVol
        (weightsValue sqrt (sumsOver XLF (u - 21) (u - 1) 20) (sumsOver XOP (u - 21) (u - 1) 20)
          (sumsOver XLK (u - 21) (u - 1) 20))
        (XLF.getD u 0) (XOP.getD u 0) (XLK.getD u 0)) :
    ∀ t, 20 ≤ t → t < n → 0 < s.equityVol.getD t 0 := by
  obtain ⟨_, _, _, _, _, h20, hrec⟩ := hI
  intro t
  induction t with
  | zero => intro h; omega
  | succ t ih =>
    intro h1 h2
    by_cases ht : t + 1 = 20
    · rw [ht, h20]; norm_num
    · rw [hrec (t + 1) (by omega) h2]
      have := hr (t + 1) (by omega) h2
      exact mul_pos (ih (by omega) (by omega)) (by linarith)

end Positivity

/-- C17 (as amended). Positive equity in exact real arithmetic: for `n ≥ 21`,
when every return of every asset is greater than -1, both strategies return
their curves, the equal-weight curve is positive at every index below `n` and
the risk-parity curve is positive at every index from 20 on; on each risk-parity
day the daily return is 0 with all-zero weights, or the weights are non-negative
and sum to 1 and the daily return lies between the smallest and the largest of
the three returns of that day. -/
theorem C17_positive_equity (XLF XOP XLK : List ℝ) (n : ℕ)
    (hA : XLF.length = n) (hB : XOP.length = n) (hC : XLK.length = n) (hn : 21 ≤ n)
    (pA : ∀ i, i < n → -1 < XLF.getD i 0) (pB : ∀ i, i < n → -1 < XOP.getD i 0)
    (pC : ∀ i, i < n → -1 < XLK.getD i 0) :
    ∃ equityEqual equityVol, equalWeighted XLF XOP XLK n = Except.ok equityEqual ∧
      riskParity Real.sqrt XLF XOP XLK n = Except.ok equityVol ∧
      (∀ t, t < n → 0 < equityEqual.getD t 0) ∧
      (∀ t, 20 ≤ t → t < n → 0 < equityVol.getD t 0) ∧
      ∀ t, 21 ≤ t → t < n →
        ∃ s w, volStateAt Real.sqrt XLF XOP XLK n t = Except.ok s ∧
          weights Real.sqrt s.statsXLF s.statsXOP s.statsXLK = Except.ok w ∧
          ((w.wXLF = 0 ∧ w.wXOP = 0 ∧ w.wXLK = 0 ∧
              dailyRetVol w (XLF.getD t 0) (XOP.getD t 0) (XLK.getD t 0) = 0) ∨
            (0 ≤ w.wXLF ∧ 0 ≤ w.wXOP ∧ 0 ≤ w.wXLK ∧ w.wXLF + w.wXOP + w.wXLK = 1 ∧
              min (XLF.getD t 0) (min (XOP.getD t 0) (XLK.getD t 0)) ≤
                dailyRetVol w (XLF.getD t 0) (XOP.getD t 0) (XLK.getD t 0) ∧
              dailyRetVol w (XLF.getD t 0) (XOP.getD t 0) (XLK.getD t 0) ≤
                max (XLF.getD t 0) (max (XOP.getD t 0) (XLK.getD t 0)))) := by
  obtain ⟨eqE, hE, hIE⟩ := equalWeighted_spec XLF XOP XLK n hA hB hC (by omega)
  obtain ⟨sn, hsn, hIV⟩ := volStateAt_spec Real.sqrt XLF XOP XLK n n hA hB hC hn (Nat.le_refl n)
  refine ⟨eqE, sn.equityVol, hE, riskParity_eq Real.sqrt XLF XOP XLK n sn hsn, ?_, ?_, ?_⟩
  · refine equalInv_pos XLF XOP XLK n eqE hIE (fun u _ hu => ?_)
    have := pA u hu
    have := pB u hu
    have := pC u hu
    linarith
  · exact volInv_pos Real.sqrt XLF XOP XLK n sn hIV
      (fun u _ hu => dailyRetVol_gt _ _ _ _ _ _ (pA u hu) (pB u hu) (pC u hu))
  · intro t h21 ht
    obtain ⟨s, hs, _, sA, sB, sC, _⟩ :=
      volStateAt_spec Real.sqrt XLF XOP XLK n t hA hB hC h21 (Nat.le_of_lt ht)
    have cA : s.statsXLF.count ≠ 0 := by rw [sA]; simp [sumsOver]
    have cB : s.statsXOP.count ≠ 0 := by rw [sB]; simp [sumsOver]
    have cC : s.statsXLK.count ≠ 0 := by rw [sC]; simp [sumsOver]
    exact ⟨s, _, hs, weights_eq_ok Real.sqrt _ _ _ cA cB cC,
      dailyRetVol_cases s.statsXLF s.statsXOP s.statsXLK _ _ _⟩

section Agreement

variable {F : Type} [LinearOrderedField F]

theorem weightsValue_wXOP_zero (sqrt : F → F) (sA sB sC : RollingStats F)
    (hB : stdevValue sqrt sB = 0) : (weightsValue sqrt sA sB sC).wXOP = 0 := by
  simp [weightsValue, hB, invValue_zero, normValue_zero_left]

theorem weightsValue_wXLK_zero (sqrt : F → F) (sA sB sC : RollingStats F)
    (hC : stdevValue sqrt sC = 0) : (weightsValue sqrt sA sB sC).wXLK = 0 := by
  simp [weightsValue, hC, invValue_zero, normValue_zero_left]

/-- Three equal positive standard deviations give three weights of one third. -/
theorem weightsValue_equal (sqrt : F → F) (sA sB sC : RollingStats F)
    (hAB : stdevValue sqrt sA = stdevValue sqrt sB) (hBC : stdevValue sqrt sB = stdevValue sqrt sC)
    (hA : 0 < stdevValue sqrt sA) :
    (weightsValue sqrt sA sB sC).wXLF = 1 / 3 ∧ (weightsValue sqrt sA sB sC).wXOP = 1 / 3 ∧
      (weightsValue sqrt sA sB sC).wXLK = 1 / 3 := by
  have hB : 0 < stdevValue sqrt sB := by rw [← hAB]; exact hA
  have hC : 0 < stdevValue sqrt sC := by rw [← hBC]; exact hB
  obtain ⟨w1, w2, w3⟩ := weightsValue_of_pos sqrt sA sB sC hA hB hC
  have hne : stdevValue sqrt sA ≠ 0 := ne_of_gt hA
  rw [← hBC, ← hAB] at w1 w2 w3
  refine ⟨?_, ?_, ?_⟩
  · rw [w1]; field_simp; ring
  · rw [w2]; field_simp; ring
  · rw [w3]; field_simp; ring

theorem dailyRetVol_thirds (w : Weights F) (x y z : F)
    (h : w.wXLF = 1 / 3 ∧ w.wXOP = 1 / 3 ∧ w.wXLK = 1 / 3) :
    dailyRetVol w x y z = (x + y + z) / 3 := by
  simp only [dailyRetVol, h.1, h.2.1, h.2.2]
  ring

/-- The sums over a window that holds a single 1 among zeros. -/
theorem sumsOver_pulse (r : List F) (lo hi j : Nat) (c : Int) (h1 : lo ≤ j) (h2 : j < hi)
    (hj : r.getD j 0 = 1) (h0 : ∀ i, lo ≤ i → i < hi → i ≠ j → r.getD i 0 = 0) :
    sumsOver r lo hi c = { sum := 1, sumSq := 1, count := c } := by
  have hmem : j ∈ Finset.Ico lo hi := Finset.mem_Ico.mpr ⟨h1, h2⟩
  ext
  · simp only [sumsOver]
    rw [Finset.sum_eq_single j (fun i hi hne => by
      rw [Finset.mem_Ico] at hi; exact h0 i hi.1 hi.2 hne) (fun h => absurd hmem h), hj]
  · simp only [sumsOver]
    rw [Finset.sum_eq_single j (fun i hi hne => by
      rw [Finset.mem_Ico] at hi; rw [h0 i hi.1 hi.2 hne, mul_zero]) (fun h => absurd hmem h), hj,
      mul_one]
  · rfl

theorem stdevValue_pulse_pos : 0 < stdevValue Real.sqrt { sum := 1, sumSq := 1, count := 20 } := by
  have hv : algVariance ({ sum := 1, sumSq := 1, count := 20 } : RollingStats ℝ) = 19 / 400 := by
    simp only [algVariance]
    norm_num
  unfold stdevValue
  rw [hv, if_neg (by norm_num)]
  exact Real.sqrt_pos.mpr (by norm_num)

theorem getD_forall (l : List F) (P : F → Prop) (h0 : P 0) (hl : ∀ x ∈ l, P x) (i : Nat) :
    P (l.getD i 0) := by
  by_cases h : i < l.length
  · rw [List.getD_eq_getElem l 0 h]
    exact hl _ (List.getElem_mem h)
  · rw [List.getD_eq_default l 0 (Nat.le_of_not_lt h)]
    exact h0

theorem wipeoutXLF_length : (wipeoutXLF : List F).length = 23 := by
  simp [wipeoutXLF]

theorem wipeoutFlat_length : (wipeoutFlat : List F).length = 23 := by
  simp [wipeoutFlat]

theorem wipeoutFlat_low (i : Nat) (h : i < 20) : (wipeoutFlat : List F).getD i 0 = 0 := by
  unfold wipeoutFlat
  rw [List.getD_append _ _ _ _ (by simpa using h)]
  exact getD_replicate_zero 20 i

theorem wipeoutXLF_mid (i : Nat) (h1 : 1 ≤ i) (h2 : i < 20) :
    (wipeoutXLF : List F).getD i 0 = 0 := by
  obtain ⟨j, rfl⟩ : ∃ j, i = j + 1 := ⟨i - 1, by omega⟩
  unfold wipeoutXLF
  rw [List.getD_cons_succ, List.getD_append _ _ _ _ (by simp only [List.length_replicate]; omega)]
  exact getD_replicate_zero 19 j

theorem wipeoutXLF_0 : (wipeoutXLF : List F).getD 0 0 = 1 := by
  simp [wipeoutXLF]

theorem wipeoutXLF_20 : (wipeoutXLF : List F).getD 20 0 = 1 := by
  simp [wipeoutXLF]

theorem wipeoutXLF_21 : (wipeoutXLF : List F).getD 21 0 = -1 := by
  simp [wipeoutXLF]

theorem wipeoutXLF_22 : (wipeoutXLF : List F).getD 22 0 = 0 := by
  simp [wipeoutXLF]

theorem wipeoutFlat_20 : (wipeoutFlat : List F).getD 20 0 = 1 := by
  simp [wipeoutFlat]

theorem wipeoutFlat_21 : (wipeoutFlat : List F).getD 21 0 = 0 := by
  simp [wipeoutFlat]

theorem wipeoutFlat_22 : (wipeoutFlat : List F).getD 22 0 = 0 := by
  simp [wipeoutFlat]

theorem wipeoutXLF_ge (i : Nat) : -1 ≤ (wipeoutXLF : List F).getD i 0 := by
  refine getD_forall (wipeoutXLF : List F) (fun x => -1 ≤ x) (by norm_num) (fun x hx => ?_) i
  simp only [wipeoutXLF, List.mem_cons, List.mem_append, List.mem_replicate,
    List.mem_singleton] at hx
  rcases hx with rfl | ⟨_, rfl⟩ | rfl | rfl | rfl | hx
  · norm_num
  · norm_num
  · norm_num
  · norm_num
  · norm_num
  · cases hx

theorem wipeoutFlat_ge (i : Nat) : 0 ≤ (wipeoutFlat : List F).getD i 0 := by
  refine getD_forall (wipeoutFlat : List F) (fun x => 0 ≤ x) (le_refl 0) (fun x hx => ?_) i
  simp only [wipeoutFlat, List.mem_cons, List.mem_append, List.mem_replicate,
    List.mem_singleton] at hx
  rcases hx with ⟨_, rfl⟩ | rfl | rfl | rfl | hx
  · norm_num
  · norm_num
  · norm_num
  · norm_num
  · cases hx

end Agreement

/-- C16 (as amended). Agreement with equal weighting in exact real arithmetic:
on a risk-parity day `t` (`21 ≤ t < n`) on which the three standard deviations
are equal and nonzero, each weight is exactly 1/3 and the risk-parity daily
return is `(XLF[t] + XOP[t] + XLK[t]) / 3`, so that `equityVol[t] /
equityVol[t-1] = equityEqual[t] / equityEqual[t-1]` whenever `equityEqual[t-1]`
and `equityVol[t-1]` are both nonzero. -/
theorem C16_agreement_with_equal_weighting (XLF XOP XLK : List ℝ) (n : ℕ)
    (hA : XLF.length = n) (hB : XOP.length = n) (hC : XLK.length = n) (hn : 21 ≤ n) :
    ∃ equityEqual equityVol, equalWeighted XLF XOP XLK n = Except.ok equityEqual ∧
      riskParity Real.sqrt XLF XOP XLK n = Except.ok equityVol ∧
      ∀ t, 21 ≤ t → t < n →
        ∃ s vA vB vC w, volStateAt Real.sqrt XLF XOP XLK n t = Except.ok s ∧
          stdev Real.sqrt s.statsXLF = Except.ok vA ∧ stdev Real.sqrt s.statsXOP = Except.ok vB ∧
          stdev Real.sqrt s.statsXLK = Except.ok vC ∧
          weights Real.sqrt s.statsXLF s.statsXOP s.statsXLK = Except.ok w ∧
          (vA = vB → vB = vC → vA ≠ 0 →
            w.wXLF = 1 / 3 ∧ w.wXOP = 1 / 3 ∧ w.wXLK = 1 / 3 ∧
            dailyRetVol w (XLF.getD t 0) (XOP.getD t 0) (XLK.getD t 0) =
              (XLF.getD t 0 + XOP.getD t 0 + XLK.getD t 0) / 3 ∧
            (equityEqual.getD (t - 1) 0 ≠ 0 → equityVol.getD (t - 1) 0 ≠ 0 →
              equityVol.getD t 0 / equityVol.getD (t - 1) 0 =
                equityEqual.getD t 0 / equityEqual.getD (t - 1) 0)) := by
  obtain ⟨eqE, hE, _, _, hrE⟩ := equalWeighted_spec XLF XOP XLK n hA hB hC (by omega)
  obtain ⟨sn, hsn, _, _, _, _, _, _, hrV⟩ :=
    volStateAt_spec Real.sqrt XLF XOP XLK n n hA hB hC hn (Nat.le_refl n)
  refine ⟨eqE, sn.equityVol, hE, riskParity_eq Real.sqrt XLF XOP XLK n sn hsn, ?_⟩
  intro t h21 ht
  obtain ⟨s, hs, _, sA, sB, sC, _⟩ :=
    volStateAt_spec Real.sqrt XLF XOP XLK n t hA hB hC h21 (Nat.le_of_lt ht)
  have cA : s.statsXLF.count ≠ 0 := by rw [sA]; simp [sumsOver]
  have cB : s.statsXOP.count ≠ 0 := by rw [sB]; simp [sumsOver]
  have cC : s.statsXLK.count ≠ 0 := by rw [sC]; simp [sumsOver]
  refine ⟨s, _, _, _, _, hs, stdev_eq_ok Real.sqrt _ cA, stdev_eq_ok Real.sqrt _ cB,
    stdev_eq_ok Real.sqrt _ cC, weights_eq_ok Real.sqrt _ _ _ cA cB cC, ?_⟩
  intro eAB eBC nA
  have pA := lt_of_le_of_ne (stdevValue_nonneg s.statsXLF) (Ne.symm nA)
  have hw := weightsValue_equal Real.sqrt _ _ _ eAB eBC pA
  have hd := dailyRetVol_thirds _ (XLF.getD t 0) (XOP.getD t 0) (XLK.getD t 0) hw
  refine ⟨hw.1, hw.2.1, hw.2.2, hd, ?_⟩
  intro nE nV
  rw [hrV t h21 ht, ← sA, ← sB, ← sC, hd, hrE t (by omega) ht, mul_div_cancel_left₀ _ nV,
    mul_div_cancel_left₀ _ nE]

section RowReader

variable {F : Type}

theorem skipSpaces_no_space (s : List Char) (h : ∀ c ∈ s, isSpace c = false) :
    skipSpaces s = s := by
  cases s with
  | nil => rfl
  | cons c rest =>
    simp [skipSpaces, List.dropWhile, h c (List.mem_cons_self c rest)]

theorem takeWhile_no_space (s : List Char) (h : ∀ c ∈ s, isSpace c = false) :
    s.takeWhile (fun c => !isSpace c) = s := by
  induction s with
  | nil => rfl
  | cons c rest ih =>
    simp only [List.takeWhile, h c (List.mem_cons_self c rest), Bool.not_false]
    rw [ih (fun d hd => h d (List.mem_cons_of_mem c hd))]

theorem dropWhile_no_space (s : List Char) (h : ∀ c ∈ s, isSpace c = false) :
    s.dropWhile (fun c => !isSpace c) = [] := by
  induction s with
  | nil => rfl
  | cons c rest ih =>
    simp only [List.dropWhile, h c (List.mem_cons_self c rest), Bool.not_false]
    exact ih (fun d hd => h d (List.mem_cons_of_mem c hd))

/-- On a line without whitespace the extraction into the date string takes the
whole line, or fails when the line is empty. -/
theorem getToken_no_space (s : List Char) (h : ∀ c ∈ s, isSpace c = false) :
    getToken s = none ∨ getToken s = some (s, []) := by
  unfold getToken
  rw [skipSpaces_no_space s h, takeWhile_no_space s h, dropWhile_no_space s h]
  cases s with
  | nil => left; rfl
  | cons c rest => right; rfl

theorem getChar_nil : getChar [] = none := rfl

theorem parseRow_no_space (getDouble : List Char → Option (F × List Char)) (line : List Char)
    (h : ∀ c ∈ line, isSpace c = false) : parseRow getDouble line = none := by
  unfold parseRow
  rcases getToken_no_space line h with e | e
  · rw [e]
  · rw [e]
    simp only [getChar_nil]

theorem readLine_dropped (getDouble : List Char → Option (F × List Char)) (st : Series F)
    (line : List Char) (h : parseRow getDouble line = none) : readLine getDouble st line = st := by
  simp only [readLine, h]

/-- Every line leaves the four vectors with equal lengths. -/
theorem readLine_aligned (getDouble : List Char → Option (F × List Char)) (st : Series F)
    (line : List Char)
    (h : st.XLF_Ret.length = st.dates.length ∧ st.XOP_Ret.length = st.dates.length ∧
      st.XLK_Ret.length = st.dates.length) :
    (readLine getDouble st line).XLF_Ret.length = (readLine getDouble st line).dates.length ∧
    (readLine getDouble st line).XOP_Ret.length = (readLine getDouble st line).dates.length ∧
    (readLine getDouble st line).XLK_Ret.length = (readLine getDouble st line).dates.length := by
  unfold readLine
  cases parseRow getDouble line with
  | none => exact h
  | some r => simp [h.1, h.2.1, h.2.2]

theorem foldl_readLine_aligned (getDouble : List Char → Option (F × List Char))
    (lines : List (List Char)) (st : Series F)
    (h : st.XLF_Ret.length = st.dates.length ∧ st.XOP_Ret.length = st.dates.length ∧
      st.XLK_Ret.length = st.dates.length) :
    (lines.foldl (readLine getDouble) st).XLF_Ret.length =
        (lines.foldl (readLine getDouble) st).dates.length ∧
    (lines.foldl (readLine getDouble) st).XOP_Ret.length =
        (lines.foldl (readLine getDouble) st).dates.length ∧
    (lines.foldl (readLine getDouble) st).XLK_Ret.length =
        (lines.foldl (readLine getDouble) st).dates.length := by
  induction lines generalizing st with
  | nil => exact h
  | cons l rest ih => exact ih _ (readLine_aligned getDouble st l h)

/-- The reader does accept a line in which whitespace ends the date token. -/
theorem parseRow_spaced_example (getDouble : List Char → Option (F × List Char)) (x y z : F)
    (h1 : getDouble ['1', ',', '2', ',', '3'] = some (x, [',', '2', ',', '3']))
    (h2 : getDouble ['2', ',', '3'] = some (y, [',', '3']))
    (h3 : getDouble ['3'] = some (z, [])) :
    parseRow getDouble ['d', ' ', ',', '1', ',', '2', ',', '3'] =
      some { date := "d", rxlf := x, rxop := y, rxlk := z } := by
  have e1 : getToken ['d', ' ', ',', '1', ',', '2', ',', '3'] =
      some (['d'], [' ', ',', '1', ',', '2', ',', '3']) := by decide
  have e2 : getChar [' ', ',', '1', ',', '2', ',', '3'] =
      some (',', ['1', ',', '2', ',', '3']) := by decide
  have e3 : getChar [',', '2', ',', '3'] = some (',', ['2', ',', '3']) := by decide
  have e4 : getChar [',', '3'] = some (',', ['3']) := by decide
  simp only [parseRow, e1, e2, h1, e3, h2, e4, h3]

end RowReader

/-- C15 (the code does otherwise). A line without any whitespace, such as
`2020-01-02,0.01,0.02,0.03`, is dropped by the row reader whatever the number
extraction does: the extraction into the date string takes the whole line, so the
extraction of the first comma fails at the end of the line, and the four vectors
stay as they are. -/
theorem C15_line_without_whitespace_dropped (getDouble : List Char → Option (ℝ × List Char))
    (st : Series ℝ) (line : List Char) (h : ∀ c ∈ line, isSpace c = false) :
    parseRow getDouble line = none ∧ readLine getDouble st line = st ∧
    (getToken line = none ∨ (getToken line = some (line, []) ∧ getChar [] = none)) := by
  have hp := parseRow_no_space getDouble line h
  refine ⟨hp, readLine_dropped getDouble st line hp, ?_⟩
  rcases getToken_no_space line h with e | e
  · exact Or.inl e
  · exact Or.inr ⟨e, rfl⟩

theorem C15_line_without_whitespace_dropped_witness :
    (∀ c ∈ "2020-01-02,0.01,0.02,0.03".toList, isSpace c = false) ∧
    parseRow (fun s => some ((0 : ℝ), s)) "2020-01-02,0.01,0.02,0.03".toList = none ∧
    readLines (fun s => some ((0 : ℝ), s)) ["2020-01-02,0.01,0.02,0.03".toList] =
      { dates := [], XLF_Ret := [], XOP_Ret := [], XLK_Ret := [] } :=
  have h : ∀ c ∈ "2020-01-02,0.01,0.02,0.03".toList, isSpace c = false := by decide
  ⟨h,
    (C15_line_without_whitespace_dropped (fun s => some ((0 : ℝ), s))
      { dates := [], XLF_Ret := [], XOP_Ret := [], XLK_Ret := [] } _ h).1,
    (C15_line_without_whitespace_dropped (fun s => some ((0 : ℝ), s))
      { dates := [], XLF_Ret := [], XOP_Ret := [], XLK_Ret := [] } _ h).2.1⟩

section Pulse

variable {F : Type} [LinearOrderedField F]

theorem pulse_length (h x : F) : (pulse h x).length = 22 := by
  simp [pulse]

theorem pulse_getD_first (h x : F) : (pulse h x).getD 0 0 = h := by
  simp [pulse]

theorem pulse_getD_mid (h x : F) (i : Nat) (h1 : 1 ≤ i) (h2 : i ≤ 20) :
    (pulse h x).getD i 0 = 0 := by
  obtain ⟨j, rfl⟩ : ∃ j, i = j + 1 := ⟨i - 1, by omega⟩
  unfold pulse
  rw [List.getD_cons_succ, List.getD_append _ _ _ _ (by simp only [List.length_replicate]; omega)]
  exact getD_replicate_zero 20 j

theorem pulse_getD_last (h x : F) : (pulse h x).getD 21 0 = x := by
  simp [pulse]

/-- The sums over a window in which at most the value of day `j` is nonzero. -/
theorem sumsOver_single (r : List F) (lo hi j : Nat) (c : Int) (h1 : lo ≤ j) (h2 : j < hi)
    (h0 : ∀ i, lo ≤ i → i < hi → i ≠ j → r.getD i 0 = 0) :
    sumsOver r lo hi c =
      { sum := r.getD j 0, sumSq := r.getD j 0 * r.getD j 0, count := c } := by
  have hmem : j ∈ Finset.Ico lo hi := Finset.mem_Ico.mpr ⟨h1, h2⟩
  ext
  · simp only [sumsOver]
    rw [Finset.sum_eq_single j (fun i hi hne => by
      rw [Finset.mem_Ico] at hi; exact h0 i hi.1 hi.2 hne) (fun h => absurd hmem h)]
  · simp only [sumsOver]
    rw [Finset.sum_eq_single j (fun i hi hne => by
      rw [Finset.mem_Ico] at hi; rw [h0 i hi.1 hi.2 hne, mul_zero]) (fun h => absurd hmem h)]
  · rfl

theorem sumsOver_zeros (r : List F) (lo hi : Nat) (c : Int)
    (h0 : ∀ i, lo ≤ i → i < hi → r.getD i 0 = 0) :
    sumsOver r lo hi c = { sum := 0, sumSq := 0, count := c } := by
  ext
  · simp only [sumsOver]
    exact Finset.sum_eq_zero (fun i hi => by
      rw [Finset.mem_Ico] at hi; exact h0 i hi.1 hi.2)
  · simp only [sumsOver]
    exact Finset.sum_eq_zero (fun i hi => by
      rw [Finset.mem_Ico] at hi; rw [h0 i hi.1 hi.2, mul_zero])
  · rfl

theorem sumsOver_pulse_window (h x : F) :
    sumsOver (pulse h x) 0 20 20 = { sum := h, sumSq := h * h, count := 20 } := by
  rw [sumsOver_single (pulse h x) 0 20 0 20 (Nat.le_refl 0) (by decide)
    (fun i _ h2 hne => pulse_getD_mid h x i (by omega) (by omega)), pulse_getD_first]

theorem sumsOver_replicate_zero (n lo hi : Nat) (c : Int) :
    sumsOver (List.replicate n (0 : F)) lo hi c = { sum := 0, sumSq := 0, count := c } :=
  sumsOver_zeros _ lo hi c (fun i _ _ => getD_replicate_zero n i)

theorem algVariance_single (h : F) :
    algVariance ({ sum := h, sumSq := h * h, count := 20 } : RollingStats F) =
      19 * (h * h) / 400 := by
  simp only [algVariance]
  push_cast
  field_simp
  ring

theorem stdevValue_single (h : ℝ) :
    stdevValue Real.sqrt { sum := h, sumSq := h * h, count := 20 } =
      Real.sqrt (19 * (h * h) / 400) := by
  unfold stdevValue
  rw [algVariance_single, if_neg (not_lt.mpr
    (div_nonneg (mul_nonneg (by norm_num) (mul_self_nonneg h)) (by norm_num)))]

theorem stdevValue_single_pos (h : ℝ) (hh : h ≠ 0) :
    0 < stdevValue Real.sqrt { sum := h, sumSq := h * h, count := 20 } := by
  rw [stdevValue_single]
  exact Real.sqrt_pos.mpr
    (div_pos (mul_pos (by norm_num) (mul_self_pos.mpr hh)) (by norm_num))

theorem stdevValue_zero_stats :
    stdevValue Real.sqrt ({ sum := 0, sumSq := 0, count := 20 } : RollingStats ℝ) = 0 := by
  simp [stdevValue, algVariance]

theorem invValue_eq_ite (v : ℝ) : invValue v = if v = 0 then 0 else 1 / v := by
  unfold invValue
  split_ifs <;> rfl

theorem normValue_eq_ite (inv sumInv : ℝ) :
    normValue inv sumInv = if 0 < sumInv then inv / sumInv else 0 := by
  unfold normValue
  split_ifs <;> rfl

theorem stdevValue_count_twenty (rs : RollingStats ℝ) (h : rs.count = 20) :
    stdevValue Real.sqrt rs = Real.sqrt (max 0 (rs.sumSq / 20 - (rs.sum / 20) ^ 2)) := by
  rw [stdevValue_eq_max, h]
  norm_num

/-- The state on entry to iteration 21 of a 22-day run, and the curve the run
returns. -/
theorem run_of_22_days (sqrt : F → F) (XLF XOP XLK : List F)
    (hA : XLF.length = 22) (hB : XOP.length = 22) (hC : XLK.length = 22) :
    ∃ s equity, volStateAt sqrt XLF XOP XLK 22 21 = Except.ok s ∧
      riskParity sqrt XLF XOP XLK 22 = Except.ok equity ∧
      s.statsXLF = sumsOver XLF 0 20 20 ∧ s.statsXOP = sumsOver XOP 0 20 20 ∧
      s.statsXLK = sumsOver XLK 0 20 20 ∧
      equity.getD 20 0 = 100 ∧
      equity.getD 21 0 = 100 * (1 + dailyRetVol
        (weightsValue sqrt (sumsOver XLF 0 20 20) (sumsOver XOP 0 20 20) (sumsOver XLK 0 20 20))
        (XLF.getD 21 0) (XOP.getD 21 0) (XLK.getD 21 0)) := by
  obtain ⟨s, hs, _, sA, sB, sC, _⟩ :=
    volStateAt_spec sqrt XLF XOP XLK 22 21 hA hB hC (by decide) (by decide)
  obtain ⟨sn, hsn, _, _, _, _, _, h20, hr⟩ :=
    volStateAt_spec sqrt XLF XOP XLK 22 22 hA hB hC (by decide) (by decide)
  refine ⟨s, sn.equityVol, hs, riskParity_eq sqrt XLF XOP XLK 22 sn hsn, sA, sB, sC, h20, ?_⟩
  have h := hr 21 (by decide) (by decide)
  rw [h20] at h
  exact h

end Pulse

/-- C2. Risk-parity curve: for `n ≥ 21` the risk-parity strategy returns a curve of
length `n` whose entries before index 20 are the placeholder 0, whose entry 20 is
100, and whose entry `t` (`21 ≤ t < n`) is
`equity[t-1] * (1 + wXLF * XLF[t] + wXOP * XOP[t] + wXLK * XLK[t])`. The weights
are the inverse-volatility weights of the rolling statistics as they stand on
entry to iteration `t`: with `v = sqrt (max 0 (sumSq / 20 - (sum / 20) ^ 2))` the
volatility of an asset and `i = 1 / v` its inverse (0 when `v = 0`), the weight
is `i / (iXLF + iXOP + iXLK)` (0 when that sum is not positive). -/
theorem C2_risk_parity_curve (XLF XOP XLK : List ℝ) (n : ℕ)
    (hA : XLF.length = n) (hB : XOP.length = n) (hC : XLK.length = n) (hn : 21 ≤ n) :
    ∃ equity, riskParity Real.sqrt XLF XOP XLK n = Except.ok equity ∧ equity.length = n ∧
      (∀ i, i < 20 → equity.getD i 0 = 0) ∧ equity.getD 20 0 = 100 ∧
      ∀ t, 21 ≤ t → t < n →
        ∃ s w vA vB vC iA iB iC,
          volStateAt Real.sqrt XLF XOP XLK n t = Except.ok s ∧
          weights Real.sqrt s.statsXLF s.statsXOP s.statsXLK = Except.ok w ∧
          vA = Real.sqrt (max 0 (s.statsXLF.sumSq / 20 - (s.statsXLF.sum / 20) ^ 2)) ∧
          vB = Real.sqrt (max 0 (s.statsXOP.sumSq / 20 - (s.statsXOP.sum / 20) ^ 2)) ∧
          vC = Real.sqrt (max 0 (s.statsXLK.sumSq / 20 - (s.statsXLK.sum / 20) ^ 2)) ∧
          iA = (if vA = 0 then 0 else 1 / vA) ∧
          iB = (if vB = 0 then 0 else 1 / vB) ∧
          iC = (if vC = 0 then 0 else 1 / vC) ∧
          w.wXLF = (if 0 < iA + iB + iC then iA / (iA + iB + iC) else 0) ∧
          w.wXOP = (if 0 < iA + iB + iC then iB / (iA + iB + iC) else 0) ∧
          w.wXLK = (if 0 < iA + iB + iC then iC / (iA + iB + iC) else 0) ∧
          equity.getD t 0 = equity.getD (t - 1) 0 *
            (1 + (w.wXLF * XLF.getD t 0 + w.wXOP * XOP.getD t 0 + w.wXLK * XLK.getD t 0)) := by
  obtain ⟨sn, hsn, hl, _, _, _, hz, h20, hr⟩ :=
    volStateAt_spec Real.sqrt XLF XOP XLK n n hA hB hC hn (Nat.le_refl n)
  refine ⟨sn.equityVol, riskParity_eq Real.sqrt XLF XOP XLK n sn hsn, hl, hz, h20, ?_⟩
  intro t h21 ht
  obtain ⟨s, hs, _, sA, sB, sC, _⟩ :=
    volStateAt_spec Real.sqrt XLF XOP XLK n t hA hB hC h21 (Nat.le_of_lt ht)
  have cA : s.statsXLF.count = 20 := by rw [sA]; rfl
  have cB : s.statsXOP.count = 20 := by rw [sB]; rfl
  have cC : s.statsXLK.count = 20 := by rw [sC]; rfl
  refine ⟨s, weightsValue Real.sqrt s.statsXLF s.statsXOP s.statsXLK,
    stdevValue Real.sqrt s.statsXLF, stdevValue Real.sqrt s.statsXOP,
    stdevValue Real.sqrt s.statsXLK, invValue (stdevValue Real.sqrt s.statsXLF),
    invValue (stdevValue Real.sqrt s.statsXOP), invValue (stdevValue Real.sqrt s.statsXLK),
    hs, weights_eq_ok Real.sqrt _ _ _ (by rw [cA]; decide) (by rw [cB]; decide)
      (by rw [cC]; decide),
    stdevValue_count_twenty _ cA, stdevValue_count_twenty _ cB, stdevValue_count_twenty _ cC,
    invValue_eq_ite _, invValue_eq_ite _, invValue_eq_ite _,
    normValue_eq_ite _ _, normValue_eq_ite _ _, normValue_eq_ite _ _, ?_⟩
  rw [sA, sB, sC]
  exact hr t h21 ht

theorem C2_risk_parity_curve_witness :
    (pulse (1 : ℝ) (-1)).length = 22 ∧ (List.replicate 22 (0 : ℝ)).length = 22 ∧ 21 ≤ 22 ∧
    ∃ equity s w,
      riskParity Real.sqrt (pulse (1 : ℝ) (-1)) (List.replicate 22 0) (List.replicate 22 0) 22 =
        Except.ok equity ∧
      volStateAt Real.sqrt (pulse (1 : ℝ) (-1)) (List.replicate 22 0) (List.replicate 22 0) 22 21 =
        Except.ok s ∧
      weights Real.sqrt s.statsXLF s.statsXOP s.statsXLK = Except.ok w ∧
      w.wXLF = 1 ∧ w.wXOP = 0 ∧ w.wXLK = 0 ∧
      equity.getD 20 0 = 100 ∧ equity.getD 21 0 = 0 := by
  obtain ⟨equity, hr, _, _, h20, hday⟩ := C2_risk_parity_curve (pulse (1 : ℝ) (-1))
    (List.replicate 22 0) (List.replicate 22 0) 22 (pulse_length 1 (-1)) (by simp) (by simp)
    (by decide)
  obtain ⟨s, w, vA, vB, vC, iA, iB, iC, hs, hw, hvA, hvB, hvC, hiA, hiB, hiC, hwA, hwB, hwC, he⟩ :=
    hday 21 (by decide) (by decide)
  obtain ⟨s', _, hs', _, sA, sB, sC, _, _⟩ := run_of_22_days Real.sqrt (pulse (1 : ℝ) (-1))
    (List.replicate 22 0) (List.replicate 22 0) (pulse_length 1 (-1)) (by simp) (by simp)
  have es : s = s' := Except.ok.inj (hs.symm.trans hs')
  rw [es, sA, sumsOver_pulse_window] at hvA
  rw [es, sB, sumsOver_replicate_zero] at hvB
  rw [es, sC, sumsOver_replicate_zero] at hvC
  have pA : 0 < vA := by
    rw [hvA]
    exact Real.sqrt_pos.mpr (lt_max_of_lt_right (by norm_num))
  have zB : vB = 0 := by
    rw [hvB]
    norm_num
  have zC : vC = 0 := by
    rw [hvC]
    norm_num
  rw [if_neg (ne_of_gt pA)] at hiA
  rw [zB, if_pos rfl] at hiB
  rw [zC, if_pos rfl] at hiC
  have piA : 0 < iA := by rw [hiA]; exact div_pos zero_lt_one pA
  have hsum : iA + iB + iC = iA := by rw [hiB, hiC, add_zero, add_zero]
  rw [hsum, if_pos piA] at hwA hwB hwC
  have w1 : w.wXLF = 1 := by rw [hwA]; exact div_self (ne_of_gt piA)
  have w2 : w.wXOP = 0 := by rw [hwB, hiB, zero_div]
  have w3 : w.wXLK = 0 := by rw [hwC, hiC, zero_div]
  refine ⟨pulse_length 1 (-1), by simp, by decide, equity, s, w, hr, hs, hw, w1, w2, w3, h20, ?_⟩
  rw [he, w1, w2, w3, pulse_getD_last]
  norm_num

/-- C13. Roll-forward guard: on every iteration `t` with `21 ≤ t < n` the leaving
index `t - window_size - 1` is computed without wrap-around and is `t - 21`, it
and the entering index `t - 1` are valid indices, so the guard holds. Rolling
forward then ends without a fault in a state whose sums are the old sums minus
the return (and its square) of day `t - 21` plus the return (and its square) of
day `t - 1`, for each asset, with the counts and the equity vector unchanged; and
this is how the statistics on entry to iteration `t + 1` arise from those on
entry to iteration `t`. -/
theorem C13_roll_forward_guard (XLF XOP XLK : List ℝ) (n t : ℕ) (s : VolState ℝ)
    (hA : XLF.length = n) (hB : XOP.length = n) (hC : XLK.length = n)
    (h21 : 21 ≤ t) (ht : t < n) :
    ((subSizeT (subSizeT t window_size) 1 : ℕ) : ℤ) = (t : ℤ) - (window_size : ℤ) - 1 ∧
    subSizeT (subSizeT t window_size) 1 = t - 21 ∧
    subSizeT (subSizeT t window_size) 1 < XLF.length ∧
    subSizeT t 1 = t - 1 ∧ subSizeT t 1 < XLF.length ∧
    (∃ s', rollForward XLF XOP XLK t s = Except.ok s' ∧
      s'.statsXLF.sum = s.statsXLF.sum - XLF.getD (t - 21) 0 + XLF.getD (t - 1) 0 ∧
      s'.statsXLF.sumSq = s.statsXLF.sumSq - XLF.getD (t - 21) 0 * XLF.getD (t - 21) 0 +
        XLF.getD (t - 1) 0 * XLF.getD (t - 1) 0 ∧
      s'.statsXOP.sum = s.statsXOP.sum - XOP.getD (t - 21) 0 + XOP.getD (t - 1) 0 ∧
      s'.statsXOP.sumSq = s.statsXOP.sumSq - XOP.getD (t - 21) 0 * XOP.getD (t - 21) 0 +
        XOP.getD (t - 1) 0 * XOP.getD (t - 1) 0 ∧
      s'.statsXLK.sum = s.statsXLK.sum - XLK.getD (t - 21) 0 + XLK.getD (t - 1) 0 ∧
      s'.statsXLK.sumSq = s.statsXLK.sumSq - XLK.getD (t - 21) 0 * XLK.getD (t - 21) 0 +
        XLK.getD (t - 1) 0 * XLK.getD (t - 1) 0 ∧
      s'.statsXLF.count = s.statsXLF.count ∧ s'.statsXOP.count = s.statsXOP.count ∧
      s'.statsXLK.count = s.statsXLK.count ∧ s'.equityVol = s.equityVol) ∧
    ∃ s1 s2, volStateAt Real.sqrt XLF XOP XLK n t = Except.ok s1 ∧
      volStateAt Real.sqrt XLF XOP XLK n (t + 1) = Except.ok s2 ∧
      s2.statsXLF.sum = s1.statsXLF.sum - XLF.getD (t - 21) 0 + XLF.getD (t - 1) 0 ∧
      s2.statsXLF.sumSq = s1.statsXLF.sumSq - XLF.getD (t - 21) 0 * XLF.getD (t - 21) 0 +
        XLF.getD (t - 1) 0 * XLF.getD (t - 1) 0 ∧
      s2.statsXOP.sum = s1.statsXOP.sum - XOP.getD (t - 21) 0 + XOP.getD (t - 1) 0 ∧
      s2.statsXOP.sumSq = s1.statsXOP.sumSq - XOP.getD (t - 21) 0 * XOP.getD (t - 21) 0 +
        XOP.getD (t - 1) 0 * XOP.getD (t - 1) 0 ∧
      s2.statsXLK.sum = s1.statsXLK.sum - XLK.getD (t - 21) 0 + XLK.getD (t - 1) 0 ∧
      s2.statsXLK.sumSq = s1.statsXLK.sumSq - XLK.getD (t - 21) 0 * XLK.getD (t - 21) 0 +
        XLK.getD (t - 1) 0 * XLK.getD (t - 1) 0 := by
  have ho := oldIdx_eq t h21
  have hn : subSizeT t 1 = t - 1 := subSizeT_of_le (by omega)
  refine ⟨?_, ho, by rw [ho]; omega, hn, by rw [hn]; omega,
    ⟨_, rollForward_ok XLF XOP XLK n t s hA hB hC h21 ht, rfl, rfl, rfl, rfl, rfl, rfl, rfl, rfl,
      rfl, rfl⟩, ?_⟩
  · rw [ho]
    simp only [window_size]
    omega
  · obtain ⟨s1, hs1, hl, sA, sB, sC, _⟩ :=
      volStateAt_spec Real.sqrt XLF XOP XLK n t hA hB hC h21 (Nat.le_of_lt ht)
    have hstep := volStep_ok Real.sqrt XLF XOP XLK n t s1 hA hB hC hl
      (by rw [sA]; simp [sumsOver]) (by rw [sB]; simp [sumsOver]) (by rw [sC]; simp [sumsOver])
      h21 ht
    exact ⟨s1, _, hs1,
      (volStateAt_succ Real.sqrt XLF XOP XLK n t s1 h21 hs1).trans hstep,
      rfl, rfl, rfl, rfl, rfl, rfl⟩

theorem C13_roll_forward_guard_witness :
    ((5 : ℝ) :: (List.replicate 19 0 ++ [7, 0])).length = 22 ∧
    (List.replicate 22 (0 : ℝ)).length = 22 ∧ 21 ≤ 21 ∧ 21 < 22 ∧
    subSizeT (subSizeT 21 window_size) 1 = 0 ∧ subSizeT 21 1 = 20 ∧
    ∃ s', rollForward ((5 : ℝ) :: (List.replicate 19 0 ++ [7, 0])) (List.replicate 22 0)
        (List.replicate 22 0) 21
        { equityVol := [], statsXLF := { sum := 5, sumSq := 25, count := 20 },
          statsXOP := { sum := 0, sumSq := 0, count := 20 },
          statsXLK := { sum := 0, sumSq := 0, count := 20 } } = Except.ok s' ∧
      s'.statsXLF.sum = 7 ∧ s'.statsXLF.sumSq = 49 ∧ s'.statsXLF.count = 20 := by
  have h := C13_roll_forward_guard ((5 : ℝ) :: (List.replicate 19 0 ++ [7, 0]))
    (List.replicate 22 0) (List.replicate 22 0) 22 21
    { equityVol := [], statsXLF := { sum := 5, sumSq := 25, count := 20 },
      statsXOP := { sum := 0, sumSq := 0, count := 20 },
      statsXLK := { sum := 0, sumSq := 0, count := 20 } }
    (by simp) (by simp) (by simp) (by decide) (by decide)
  obtain ⟨_, h2, _, h4, _, ⟨s', hs', e1, e2, _, _, _, _, c1, _, _, _⟩, _⟩ := h
  have g0 : ((5 : ℝ) :: (List.replicate 19 0 ++ [7, 0])).getD (21 - 21) 0 = 5 := by simp
  have g20 : ((5 : ℝ) :: (List.replicate 19 0 ++ [7, 0])).getD (21 - 1) 0 = 7 := by simp
  rw [g0, g20] at e1 e2
  refine ⟨by simp, by simp, by decide, by decide, h2, h4, s', hs', ?_, ?_, c1⟩
  · rw [e1]; norm_num
  · rw [e2]; norm_num

theorem C3_rolling_stats_equivalence_witness :
    (wipeoutXLF : List ℝ).length = 23 ∧ (wipeoutFlat : List ℝ).length = 23 ∧ 21 ≤ 22 ∧ 22 < 23 ∧
    ∃ s, volStateAt Real.sqrt (wipeoutXLF : List ℝ) wipeoutFlat wipeoutFlat 23 22 = Except.ok s ∧
      s.statsXLF.count = 20 ∧ s.statsXLF.sum = 1 ∧ s.statsXLF.sumSq = 1 ∧
      ∃ fA fB fC,
        initStats ((wipeoutXLF : List ℝ).drop 1) ((wipeoutFlat : List ℝ).drop 1)
          ((wipeoutFlat : List ℝ).drop 1) = Except.ok (fA, fB, fC) ∧
        fA.sum = 1 ∧ fA.sumSq = 1 ∧
        stdev Real.sqrt s.statsXLF = stdev Real.sqrt fA := by
  obtain ⟨s, hs, ⟨c, e1, e2⟩, _, _, fA, fB, fC, hf, ⟨_, f1, f2⟩, _, _, hv, _, _⟩ :=
    C3_rolling_stats_equivalence (wipeoutXLF : List ℝ) wipeoutFlat wipeoutFlat 23 22
      wipeoutXLF_length wipeoutFlat_length wipeoutFlat_length (by decide) (by decide)
  have hmem : 20 ∈ Finset.Icc (22 - 21) (22 - 2) := Finset.mem_Icc.mpr ⟨by decide, by decide⟩
  have hmid : ∀ i ∈ Finset.Icc (22 - 21) (22 - 2), i ≠ 20 →
      (wipeoutXLF : List ℝ).getD i 0 = 0 := fun i hi hne => by
    rw [Finset.mem_Icc] at hi
    exact wipeoutXLF_mid i (by omega) (by omega)
  have g1 : ∑ i ∈ Finset.Icc (22 - 21) (22 - 2), (wipeoutXLF : List ℝ).getD i 0 = 1 := by
    rw [Finset.sum_eq_single 20 hmid (fun h => absurd hmem h), wipeoutXLF_20]
  have g2 : ∑ i ∈ Finset.Icc (22 - 21) (22 - 2), (wipeoutXLF : List ℝ).getD i 0 ^ 2 = 1 := by
    rw [Finset.sum_eq_single 20 (fun i hi hne => by rw [hmid i hi hne]; norm_num)
      (fun h => absurd hmem h), wipeoutXLF_20]
    norm_num
  exact ⟨wipeoutXLF_length, wipeoutFlat_length, by decide, by decide, s, hs, c,
    e1.trans g1, e2.trans g2, fA, fB, fC, hf, f1.trans g1, f2.trans g2, hv⟩

section PricedWindow

variable {F : Type} [LinearOrderedField F]

theorem dayFour_length :
    (List.replicate 4 (0 : F) ++ (1 :: List.replicate 21 0)).length = 26 := by
  simp

theorem dayFour_getD_four :
    (List.replicate 4 (0 : F) ++ (1 :: List.replicate 21 0)).getD 4 0 = 1 := by
  simp

theorem dayFour_getD_other (i : Nat) (h : i ≠ 4) :
    (List.replicate 4 (0 : F) ++ (1 :: List.replicate 21 0)).getD i 0 = 0 := by
  by_cases hlt : i < 4
  · rw [List.getD_append _ _ _ _ (by simpa using hlt)]
    exact getD_replicate_zero 4 i
  · obtain ⟨j, rfl⟩ : ∃ j, i = 4 + (j + 1) := ⟨i - 5, by omega⟩
    rw [List.getD_append_right _ _ _ _ (by simp)]
    simp only [List.length_replicate, Nat.add_sub_cancel_left, List.getD_cons_succ]
    exact getD_replicate_zero 21 j

end PricedWindow

/-- C4 (as amended). Window used to price a day, in exact real arithmetic: on
every day `t` with `21 ≤ t < n` the statistics queried hold the sums of the
returns and of their squares over days `t - 21` to `t - 2`, and the volatility of
each asset that determines the weights of day `t` is
`sqrt (max 0 (sumSq / 20 - (sum / 20) ^ 2))` of these sums: it is computed from
the 20 returns of days `t - 21` to `t - 2` (days 4 to 23 for day 25). -/
theorem C4_window_of_priced_day (XLF XOP XLK : List ℝ) (n t : ℕ)
    (hA : XLF.length = n) (hB : XOP.length = n) (hC : XLK.length = n)
    (h21 : 21 ≤ t) (ht : t < n) :
    ∃ s vA vB vC, volStateAt Real.sqrt XLF XOP XLK n t = Except.ok s ∧
      TracksWindow XLF s.statsXLF (t - 21) (t - 2) ∧
      TracksWindow XOP s.statsXOP (t - 21) (t - 2) ∧
      TracksWindow XLK s.statsXLK (t - 21) (t - 2) ∧
      stdev Real.sqrt s.statsXLF = Except.ok vA ∧ stdev Real.sqrt s.statsXOP = Except.ok vB ∧
      stdev Real.sqrt s.statsXLK = Except.ok vC ∧
      vA = Real.sqrt (max 0 ((∑ i ∈ Finset.Icc (t - 21) (t - 2), XLF.getD i 0 ^ 2) / 20 -
        ((∑ i ∈ Finset.Icc (t - 21) (t - 2), XLF.getD i 0) / 20) ^ 2)) ∧
      vB = Real.sqrt (max 0 ((∑ i ∈ Finset.Icc (t - 21) (t - 2), XOP.getD i 0 ^ 2) / 20 -
        ((∑ i ∈ Finset.Icc (t - 21) (t - 2), XOP.getD i 0) / 20) ^ 2)) ∧
      vC = Real.sqrt (max 0 ((∑ i ∈ Finset.Icc (t - 21) (t - 2), XLK.getD i 0 ^ 2) / 20 -
        ((∑ i ∈ Finset.Icc (t - 21) (t - 2), XLK.getD i 0) / 20) ^ 2)) := by
  obtain ⟨s, hs, _, sA, sB, sC, _⟩ :=
    volStateAt_spec Real.sqrt XLF XOP XLK n t hA hB hC h21 (Nat.le_of_lt ht)
  have e : t - 1 = t - 2 + 1 := by omega
  have tA := tracksWindow_sumsOver XLF (t - 21) (t - 2)
  have tB := tracksWindow_sumsOver XOP (t - 21) (t - 2)
  have tC := tracksWindow_sumsOver XLK (t - 21) (t - 2)
  rw [← e, ← sA] at tA
  rw [← e, ← sB] at tB
  rw [← e, ← sC] at tC
  refine ⟨s, _, _, _, hs, tA, tB, tC, stdev_eq_ok Real.sqrt _ (by rw [tA.1]; decide),
    stdev_eq_ok Real.sqrt _ (by rw [tB.1]; decide),
    stdev_eq_ok Real.sqrt _ (by rw [tC.1]; decide), ?_, ?_, ?_⟩
  · rw [stdevValue_count_twenty _ tA.1, tA.2.1, tA.2.2]
  · rw [stdevValue_count_twenty _ tB.1, tB.2.1, tB.2.2]
  · rw [stdevValue_count_twenty _ tC.1, tC.2.1, tC.2.2]

theorem C4_window_of_priced_day_witness :
    (List.replicate 4 (0 : ℝ) ++ (1 :: List.replicate 21 0)).length = 26 ∧
    (List.replicate 26 (0 : ℝ)).length = 26 ∧ 21 ≤ 25 ∧ 25 < 26 ∧
    ∃ s vA, volStateAt Real.sqrt (List.replicate 4 (0 : ℝ) ++ (1 :: List.replicate 21 0))
        (List.replicate 26 0) (List.replicate 26 0) 26 25 = Except.ok s ∧
      stdev Real.sqrt s.statsXLF = Except.ok vA ∧
      s.statsXLF.sum = 1 ∧ s.statsXLF.sumSq = 1 ∧ vA = Real.sqrt (19 / 400) ∧
      ∑ i ∈ Finset.Icc 5 24, (List.replicate 4 (0 : ℝ) ++ (1 :: List.replicate 21 0)).getD i 0 =
        0 := by
  obtain ⟨s, vA, _, _, hs, ⟨_, e1, e2⟩, _, _, hv, _, _, hvA, _, _⟩ :=
    C4_window_of_priced_day (List.replicate 4 (0 : ℝ) ++ (1 :: List.replicate 21 0))
      (List.replicate 26 0) (List.replicate 26 0) 26 25 dayFour_length (by simp) (by simp)
      (by decide) (by decide)
  have hmem : 4 ∈ Finset.Icc (25 - 21) (25 - 2) := Finset.mem_Icc.mpr ⟨by decide, by decide⟩
  have g1 : ∑ i ∈ Finset.Icc (25 - 21) (25 - 2),
      (List.replicate 4 (0 : ℝ) ++ (1 :: List.replicate 21 0)).getD i 0 = 1 := by
    rw [Finset.sum_eq_single 4 (fun i _ hne => dayFour_getD_other i hne)
      (fun h => absurd hmem h), dayFour_getD_four]
  have g2 : ∑ i ∈ Finset.Icc (25 - 21) (25 - 2),
      (List.replicate 4 (0 : ℝ) ++ (1 :: List.replicate 21 0)).getD i 0 ^ 2 = 1 := by
    rw [Finset.sum_eq_single 4 (fun i _ hne => by rw [dayFour_getD_other i hne]; norm_num)
      (fun h => absurd hmem h), dayFour_getD_four]
    norm_num
  refine ⟨dayFour_length, by simp, by decide, by decide, s, vA, hs, hv, e1.trans g1,
    e2.trans g2, ?_, ?_⟩
  · rw [hvA, g1, g2]
    congr 1
    norm_num
  · exact Finset.sum_eq_zero (fun i hi => by
      rw [Finset.mem_Icc] at hi
      exact dayFour_getD_other i (by omega))

theorem C8_zero_volatility_asset_witness :
    (List.replicate 22 ((1 : ℝ) / 100)).length = 22 ∧ (pulse (1 : ℝ) 0).length = 22 ∧
    (pulse (2 : ℝ) 0).length = 22 ∧ 21 ≤ 21 ∧ 21 < 22 ∧
    (∀ i, 21 - 21 ≤ i → i ≤ 21 - 2 →
      (List.replicate 22 ((1 : ℝ) / 100)).getD i 0 = 1 / 100) ∧
    ∃ s w, volStateAt Real.sqrt (List.replicate 22 ((1 : ℝ) / 100)) (pulse 1 0) (pulse 2 0)
        22 21 = Except.ok s ∧
      stdev Real.sqrt s.statsXLF = Except.ok 0 ∧
      stdev Real.sqrt s.statsXOP ≠ Except.ok 0 ∧
      weights Real.sqrt s.statsXLF s.statsXOP s.statsXLK = Except.ok w ∧
      w.wXLF = 0 ∧ w.wXOP + w.wXLK = 1 := by
  have hc : ∀ i, 21 - 21 ≤ i → i ≤ 21 - 2 →
      (List.replicate 22 ((1 : ℝ) / 100)).getD i 0 = 1 / 100 :=
    fun i _ h => getD_replicate_of_lt 22 i _ (by omega)
  obtain ⟨s, w, hs, hv, hw, hA0, himp⟩ := C8_zero_volatility_asset
    (List.replicate 22 ((1 : ℝ) / 100)) (pulse 1 0) (pulse 2 0) 22 21 (1 / 100) (by simp)
    (pulse_length 1 0) (pulse_length 2 0) (by decide) (by decide) hc
  obtain ⟨s', _, hs', _, _, sB, _, _, _⟩ := run_of_22_days Real.sqrt
    (List.replicate 22 ((1 : ℝ) / 100)) (pulse 1 0) (pulse 2 0) (by simp)
    (pulse_length 1 0) (pulse_length 2 0)
  have es : s = s' := Except.ok.inj (hs.symm.trans hs')
  have nB : stdev Real.sqrt s.statsXOP ≠ Except.ok 0 := by
    rw [es, sB, sumsOver_pulse_window, stdev_eq_ok Real.sqrt _ (by decide)]
    intro h
    exact ne_of_gt (stdevValue_single_pos 1 one_ne_zero) (Except.ok.inj h)
  exact ⟨by simp, pulse_length 1 0, pulse_length 2 0, by decide, by decide, hc, s, w, hs, hv,
    nB, hw, hA0, himp (Or.inl nB)⟩

/-- C14 (as amended). Inverse-volatility allocation in exact real arithmetic: on
a risk-parity day `t` (`21 ≤ t < n`) each standard deviation is
`sqrt (max 0 (sumSq / 20 - (sum / 20) ^ 2))` of the statistics of its asset, and
when all three are nonzero, each weight is
`(1 / stdev_i) / (1 / stdev_XLF + 1 / stdev_XOP + 1 / stdev_XLK)`, the product
`weight_i * stdev_i` is the same for the three assets, and of two assets the one
with the strictly smaller standard deviation has the strictly larger weight. -/
theorem C14_inverse_volatility_allocation (XLF XOP XLK : List ℝ) (n t : ℕ)
    (hA : XLF.length = n) (hB : XOP.length = n) (hC : XLK.length = n)
    (h21 : 21 ≤ t) (ht : t < n) :
    ∃ s vA vB vC w, volStateAt Real.sqrt XLF XOP XLK n t = Except.ok s ∧
      stdev Real.sqrt s.statsXLF = Except.ok vA ∧ stdev Real.sqrt s.statsXOP = Except.ok vB ∧
      stdev Real.sqrt s.statsXLK = Except.ok vC ∧
      weights Real.sqrt s.statsXLF s.statsXOP s.statsXLK = Except.ok w ∧
      vA = Real.sqrt (max 0 (s.statsXLF.sumSq / 20 - (s.statsXLF.sum / 20) ^ 2)) ∧
      vB = Real.sqrt (max 0 (s.statsXOP.sumSq / 20 - (s.statsXOP.sum / 20) ^ 2)) ∧
      vC = Real.sqrt (max 0 (s.statsXLK.sumSq / 20 - (s.statsXLK.sum / 20) ^ 2)) ∧
      (vA ≠ 0 → vB ≠ 0 → vC ≠ 0 →
        w.wXLF = 1 / vA / (1 / vA + 1 / vB + 1 / vC) ∧
        w.wXOP = 1 / vB / (1 / vA + 1 / vB + 1 / vC) ∧
        w.wXLK = 1 / vC / (1 / vA + 1 / vB + 1 / vC) ∧
        w.wXLF * vA = w.wXOP * vB ∧ w.wXOP * vB = w.wXLK * vC ∧
        (vA < vB → w.wXOP < w.wXLF) ∧ (vB < vA → w.wXLF < w.wXOP) ∧
        (vA < vC → w.wXLK < w.wXLF) ∧ (vC < vA → w.wXLF < w.wXLK) ∧
        (vB < vC → w.wXLK < w.wXOP) ∧ (vC < vB → w.wXOP < w.wXLK)) := by
  obtain ⟨s, hs, _, sA, sB, sC, _⟩ :=
    volStateAt_spec Real.sqrt XLF XOP XLK n t hA hB hC h21 (Nat.le_of_lt ht)
  have cA : s.statsXLF.count ≠ 0 := by rw [sA]; simp [sumsOver]
  have cB : s.statsXOP.count ≠ 0 := by rw [sB]; simp [sumsOver]
  have cC : s.statsXLK.count ≠ 0 := by rw [sC]; simp [sumsOver]
  refine ⟨s, _, _, _, _, hs, stdev_eq_ok Real.sqrt _ cA, stdev_eq_ok Real.sqrt _ cB,
    stdev_eq_ok Real.sqrt _ cC, weights_eq_ok Real.sqrt _ _ _ cA cB cC,
    stdevValue_count_twenty _ (by rw [sA]; rfl), stdevValue_count_twenty _ (by rw [sB]; rfl),
    stdevValue_count_twenty _ (by rw [sC]; rfl), ?_⟩
  intro nA nB nC
  have pA := lt_of_le_of_ne (stdevValue_nonneg s.statsXLF) (Ne.symm nA)
  have pB := lt_of_le_of_ne (stdevValue_nonneg s.statsXOP) (Ne.symm nB)
  have pC := lt_of_le_of_ne (stdevValue_nonneg s.statsXLK) (Ne.symm nC)
  obtain ⟨w1, w2, w3⟩ := weightsValue_of_pos Real.sqrt _ _ _ pA pB pC
  have hS : 0 < 1 / stdevValue Real.sqrt s.statsXLF + 1 / stdevValue Real.sqrt s.statsXOP +
      1 / stdevValue Real.sqrt s.statsXLK := by
    have := div_pos zero_lt_one pA
    have := div_pos zero_lt_one pB
    have := div_pos zero_lt_one pC
    linarith
  refine ⟨w1, w2, w3, ?_, ?_, ?_, ?_, ?_, ?_, ?_, ?_⟩
  · rw [w1, w2, inverse_share_mul _ _ pA hS, inverse_share_mul _ _ pB hS]
  · rw [w2, w3, inverse_share_mul _ _ pB hS, inverse_share_mul _ _ pC hS]
  · intro h; rw [w1, w2]; exact inverse_share_lt _ _ _ pA hS h
  · intro h; rw [w1, w2]; exact inverse_share_lt _ _ _ pB hS h
  · intro h; rw [w1, w3]; exact inverse_share_lt _ _ _ pA hS h
  · intro h; rw [w1, w3]; exact inverse_share_lt _ _ _ pC hS h
  · intro h; rw [w2, w3]; exact inverse_share_lt _ _ _ pB hS h
  · intro h; rw [w2, w3]; exact inverse_share_lt _ _ _ pC hS h

theorem C14_inverse_volatility_allocation_witness :
    (pulse (1 : ℝ) 0).length = 22 ∧ (pulse (2 : ℝ) 0).length = 22 ∧ 21 ≤ 21 ∧ 21 < 22 ∧
    ∃ s vA vB vC w, volStateAt Real.sqrt (pulse (1 : ℝ) 0) (pulse 2 0) (pulse 1 0) 22 21 =
        Except.ok s ∧
      stdev Real.sqrt s.statsXLF = Except.ok vA ∧ stdev Real.sqrt s.statsXOP = Except.ok vB ∧
      stdev Real.sqrt s.statsXLK = Except.ok vC ∧
      weights Real.sqrt s.statsXLF s.statsXOP s.statsXLK = Except.ok w ∧
      vA = Real.sqrt (19 / 400) ∧ vB = Real.sqrt (19 / 100) ∧ vC = Real.sqrt (19 / 400) ∧
      vA ≠ 0 ∧ vB ≠ 0 ∧ vC ≠ 0 ∧ vA < vB ∧
      w.wXLF = 1 / vA / (1 / vA + 1 / vB + 1 / vC) ∧
      w.wXOP < w.wXLF ∧ w.wXLF * vA = w.wXOP * vB ∧ w.wXOP * vB = w.wXLK * vC := by
  obtain ⟨s, vA, vB, vC, w, hs, hvA, hvB, hvC, hw, eA, eB, eC, himp⟩ :=
    C14_inverse_volatility_allocation (pulse (1 : ℝ) 0) (pulse 2 0) (pulse 1 0) 22 21
      (pulse_length 1 0) (pulse_length 2 0) (pulse_length 1 0) (by decide) (by decide)
  obtain ⟨s', _, hs', _, sA, sB, sC, _, _⟩ := run_of_22_days Real.sqrt (pulse (1 : ℝ) 0)
    (pulse 2 0) (pulse 1 0) (pulse_length 1 0) (pulse_length 2 0) (pulse_length 1 0)
  have es : s = s' := Except.ok.inj (hs.symm.trans hs')
  have m1 : max (0 : ℝ) (1 * 1 / 20 - (1 / 20) ^ 2) = 19 / 400 := by
    rw [max_eq_right (by norm_num)]
    norm_num
  have m2 : max (0 : ℝ) (2 * 2 / 20 - (2 / 20) ^ 2) = 19 / 100 := by
    rw [max_eq_right (by norm_num)]
    norm_num
  rw [es, sA, sumsOver_pulse_window, m1] at eA
  rw [es, sB, sumsOver_pulse_window, m2] at eB
  rw [es, sC, sumsOver_pulse_window, m1] at eC
  have pA : 0 < vA := by rw [eA]; exact Real.sqrt_pos.mpr (by norm_num)
  have pB : 0 < vB := by rw [eB]; exact Real.sqrt_pos.mpr (by norm_num)
  have pC : 0 < vC := by rw [eC]; exact Real.sqrt_pos.mpr (by norm_num)
  have lAB : vA < vB := by
    rw [eA, eB]
    exact Real.sqrt_lt_sqrt (by norm_num) (by norm_num)
  obtain ⟨w1, _, _, q1, q2, o1, _⟩ := himp (ne_of_gt pA) (ne_of_gt pB) (ne_of_gt pC)
  exact ⟨pulse_length 1 0, pulse_length 2 0, by decide, by decide, s, vA, vB, vC, w, hs, hvA,
    hvB, hvC, hw, eA, eB, eC, ne_of_gt pA, ne_of_gt pB, ne_of_gt pC, lAB, w1, o1 lAB, q1, q2⟩

section PulseRuns

theorem pulse_gt (h x : ℝ) (hh : -1 < h) (hx : -1 < x) :
    ∀ i, i < 22 → -1 < (pulse h x).getD i 0 := by
  intro i hi
  rcases Nat.eq_zero_or_pos i with h0 | h0
  · rw [h0, pulse_getD_first]
    exact hh
  · by_cases h21 : i = 21
    · rw [h21, pulse_getD_last]
      exact hx
    · rw [pulse_getD_mid h x i h0 (by omega)]
      norm_num

end PulseRuns

theorem C16_agreement_with_equal_weighting_witness :
    (pulse (1 : ℝ) 1).length = 22 ∧ (pulse (1 : ℝ) 0).length = 22 ∧ 21 ≤ 22 ∧
    ∃ equityEqual equityVol s vA vB vC w,
      equalWeighted (pulse (1 : ℝ) 1) (pulse 1 0) (pulse 1 0) 22 = Except.ok equityEqual ∧
      riskParity Real.sqrt (pulse (1 : ℝ) 1) (pulse 1 0) (pulse 1 0) 22 = Except.ok equityVol ∧
      volStateAt Real.sqrt (pulse (1 : ℝ) 1) (pulse 1 0) (pulse 1 0) 22 21 = Except.ok s ∧
      stdev Real.sqrt s.statsXLF = Except.ok vA ∧ stdev Real.sqrt s.statsXOP = Except.ok vB ∧
      stdev Real.sqrt s.statsXLK = Except.ok vC ∧
      weights Real.sqrt s.statsXLF s.statsXOP s.statsXLK = Except.ok w ∧
      vA = vB ∧ vB = vC ∧ vA ≠ 0 ∧
      w.wXLF = 1 / 3 ∧ w.wXOP = 1 / 3 ∧ w.wXLK = 1 / 3 ∧
      dailyRetVol w 1 0 0 = 1 / 3 ∧
      equityEqual.getD 20 0 ≠ 0 ∧ equityVol.getD 20 0 ≠ 0 ∧
      equityVol.getD 21 0 / equityVol.getD 20 0 = equityEqual.getD 21 0 / equityEqual.getD 20 0 ∧
      equityVol.getD 21 0 / equityVol.getD 20 0 = 4 / 3 := by
  obtain ⟨eqE, eqV, hE, hV, hday⟩ := C16_agreement_with_equal_weighting (pulse (1 : ℝ) 1)
    (pulse 1 0) (pulse 1 0) 22 (pulse_length 1 1) (pulse_length 1 0) (pulse_length 1 0)
    (by decide)
  obtain ⟨s, vA, vB, vC, w, hs, hvA, hvB, hvC, hw, himp⟩ := hday 21 (by decide) (by decide)
  obtain ⟨s', eqV', hs', hV', sA, sB, sC, h20, _⟩ := run_of_22_days Real.sqrt (pulse (1 : ℝ) 1)
    (pulse 1 0) (pulse 1 0) (pulse_length 1 1) (pulse_length 1 0) (pulse_length 1 0)
  obtain ⟨eqE', hE', hIE⟩ := equalWeighted_spec (pulse (1 : ℝ) 1) (pulse 1 0) (pulse 1 0) 22
    (pulse_length 1 1) (pulse_length 1 0) (pulse_length 1 0) (by decide)
  have es : s = s' := Except.ok.inj (hs.symm.trans hs')
  have eV : eqV = eqV' := Except.ok.inj (hV.symm.trans hV')
  have eE : eqE = eqE' := Except.ok.inj (hE.symm.trans hE')
  have cnt : ({ sum := 1, sumSq := 1 * 1, count := 20 } : RollingStats ℝ).count ≠ 0 := by
    decide
  rw [es, sA, sumsOver_pulse_window, stdev_eq_ok Real.sqrt _ cnt] at hvA
  rw [es, sB, sumsOver_pulse_window, stdev_eq_ok Real.sqrt _ cnt] at hvB
  rw [es, sC, sumsOver_pulse_window, stdev_eq_ok Real.sqrt _ cnt] at hvC
  have eA := Except.ok.inj hvA
  have eB := Except.ok.inj hvB
  have eC := Except.ok.inj hvC
  have pA : 0 < vA := by rw [← eA]; exact stdevValue_single_pos 1 one_ne_zero
  have hEpos : 0 < eqE.getD 20 0 := by
    rw [eE]
    refine equalInv_pos _ _ _ 22 eqE' hIE (fun u _ hu => ?_) 20 (by decide)
    have := pulse_gt 1 1 (by norm_num) (by norm_num) u hu
    have := pulse_gt 1 0 (by norm_num) (by norm_num) u hu
    linarith
  have hV20 : eqV.getD 20 0 = 100 := by rw [eV]; exact h20
  have nV : eqV.getD 20 0 ≠ 0 := by rw [hV20]; norm_num
  obtain ⟨w1, w2, w3, hd, hratio⟩ := himp (eA.symm.trans eB) (eB.symm.trans eC) (ne_of_gt pA)
  rw [pulse_getD_last, pulse_getD_last] at hd
  have hr := hratio (ne_of_gt hEpos) nV
  have hE21 : eqE.getD 21 0 / eqE.getD 20 0 = 4 / 3 := by
    rw [eE, hIE.2.2 21 (by decide) (by decide), pulse_getD_last, pulse_getD_last,
      mul_div_cancel_left₀ _ (by rw [← eE]; exact ne_of_gt hEpos)]
    norm_num
  refine ⟨pulse_length 1 1, pulse_length 1 0, by decide, eqE, eqV, s, vA, vB, vC, w, hE, hV,
    hs, ?_, ?_, ?_, hw, eA.symm.trans eB, eB.symm.trans eC, ne_of_gt pA, w1, w2, w3, ?_,
    ne_of_gt hEpos, nV, hr, hr.trans hE21⟩
  · rw [es, sA, sumsOver_pulse_window, stdev_eq_ok Real.sqrt _ cnt, eA]
  · rw [es, sB, sumsOver_pulse_window, stdev_eq_ok Real.sqrt _ cnt, eB]
  · rw [es, sC, sumsOver_pulse_window, stdev_eq_ok Real.sqrt _ cnt, eC]
  · rw [hd]
    norm_num

theorem C17_positive_equity_witness :
    (pulse (1 : ℝ) (-1 / 2)).length = 22 ∧ (pulse (2 : ℝ) 0).length = 22 ∧
    (pulse (1 : ℝ) (1 / 2)).length = 22 ∧ 21 ≤ 22 ∧
    (∀ i, i < 22 → -1 < (pulse (1 : ℝ) (-1 / 2)).getD i 0) ∧
    (∀ i, i < 22 → -1 < (pulse (2 : ℝ) 0).getD i 0) ∧
    (∀ i, i < 22 → -1 < (pulse (1 : ℝ) (1 / 2)).getD i 0) ∧
    ∃ equityEqual equityVol s w,
      equalWeighted (pulse (1 : ℝ) (-1 / 2)) (pulse 2 0) (pulse 1 (1 / 2)) 22 =
        Except.ok equityEqual ∧
      riskParity Real.sqrt (pulse (1 : ℝ) (-1 / 2)) (pulse 2 0) (pulse 1 (1 / 2)) 22 =
        Except.ok equityVol ∧
      0 < equityEqual.getD 21 0 ∧ 0 < equityVol.getD 20 0 ∧ 0 < equityVol.getD 21 0 ∧
      volStateAt Real.sqrt (pulse (1 : ℝ) (-1 / 2)) (pulse 2 0) (pulse 1 (1 / 2)) 22 21 =
        Except.ok s ∧
      weights Real.sqrt s.statsXLF s.statsXOP s.statsXLK = Except.ok w ∧
      0 < w.wXLF ∧ 0 ≤ w.wXOP ∧ 0 ≤ w.wXLK ∧ w.wXLF + w.wXOP + w.wXLK = 1 ∧
      min (-1 / 2) (min 0 (1 / 2)) ≤ dailyRetVol w (-1 / 2) 0 (1 / 2) ∧
      dailyRetVol w (-1 / 2) 0 (1 / 2) ≤ max (-1 / 2) (max 0 (1 / 2)) := by
  have gA := pulse_gt 1 (-1 / 2) (by norm_num) (by norm_num)
  have gB := pulse_gt 2 0 (by norm_num) (by norm_num)
  have gC := pulse_gt 1 (1 / 2) (by norm_num) (by norm_num)
  obtain ⟨eqE, eqV, hE, hV, posE, posV, hday⟩ := C17_positive_equity (pulse (1 : ℝ) (-1 / 2))
    (pulse 2 0) (pulse 1 (1 / 2)) 22 (pulse_length 1 (-1 / 2)) (pulse_length 2 0)
    (pulse_length 1 (1 / 2)) (by decide) gA gB gC
  obtain ⟨s, w, hs, hw, hcases⟩ := hday 21 (by decide) (by decide)
  obtain ⟨s', _, hs', _, sA, sB, sC, _, _⟩ := run_of_22_days Real.sqrt (pulse (1 : ℝ) (-1 / 2))
    (pulse 2 0) (pulse 1 (1 / 2)) (pulse_length 1 (-1 / 2)) (pulse_length 2 0)
    (pulse_length 1 (1 / 2))
  have es : s = s' := Except.ok.inj (hs.symm.trans hs')
  have hw' := hw
  rw [es, sA, sB, sC, sumsOver_pulse_window, sumsOver_pulse_window, sumsOver_pulse_window,
    weights_eq_ok Real.sqrt _ _ _ (by decide) (by decide) (by decide)] at hw'
  have ew := Except.ok.inj hw'
  have p1 := stdevValue_single_pos 1 one_ne_zero
  have p2 := stdevValue_single_pos 2 two_ne_zero
  have wpos : 0 < w.wXLF := by
    rw [← ew, (weightsValue_of_pos Real.sqrt _ _ _ p1 p2 p1).1]
    have := div_pos zero_lt_one p1
    have := div_pos zero_lt_one p2
    exact div_pos (by assumption) (by linarith)
  rw [pulse_getD_last, pulse_getD_last, pulse_getD_last] at hcases
  rcases hcases with ⟨z, _⟩ | ⟨_, nB, nC, hsum, hmin, hmax⟩
  · exact absurd z (ne_of_gt wpos)
  · exact ⟨pulse_length 1 (-1 / 2), pulse_length 2 0, pulse_length 1 (1 / 2), by decide, gA, gB,
      gC, eqE, eqV, s, w, hE, hV, posE 21 (by decide), posV 20 (by decide) (by decide),
      posV 21 (by decide) (by decide), hs, hw, wpos, nB, nC, hsum, hmin, hmax⟩

/-- With 26 days on which XLF returns 1 on day 24 and 0 on every other day, the
statistics queried on day 25 hold the sums over days 4 to 23, not over days 5 to
24: their sum is 0 where the sum over days 5 to 24 is 1, and the volatility they
yield is 0 where the one recomputed over days 5 to 24 is not. -/
theorem window_lag_example :
    ∃ s, volStateAt Real.sqrt (List.replicate 24 (0 : ℝ) ++ [1, 0]) (List.replicate 26 0)
        (List.replicate 26 0) 26 25 = Except.ok s ∧
      TracksWindow (List.replicate 24 (0 : ℝ) ++ [1, 0]) s.statsXLF 4 23 ∧
      ¬ TracksWindow (List.replicate 24 (0 : ℝ) ++ [1, 0]) s.statsXLF 5 24 ∧
      s.statsXLF.sum = 0 ∧
      ∑ i ∈ Finset.Icc 5 24, (List.replicate 24 (0 : ℝ) ++ [1, 0]).getD i 0 = 1 ∧
      stdev Real.sqrt s.statsXLF = Except.ok 0 ∧
      stdev Real.sqrt (sumsOver (List.replicate 24 (0 : ℝ) ++ [1, 0]) 5 25 20) ≠ Except.ok 0 := by
  have hz : ∀ i, i < 24 → (List.replicate 24 (0 : ℝ) ++ [1, 0]).getD i 0 = 0 := by
    intro i hi
    rw [List.getD_append _ _ _ _ (by simpa using hi)]
    exact getD_replicate_zero 24 i
  have h24 : (List.replicate 24 (0 : ℝ) ++ [1, 0]).getD 24 0 = 1 := by
    rw [List.getD_append_right _ _ _ _ (by simp)]
    simp
  have hsum : ∑ i ∈ Finset.Icc 5 24, (List.replicate 24 (0 : ℝ) ++ [1, 0]).getD i 0 = 1 := by
    rw [Finset.sum_eq_single 24, h24]
    · intro i hi hne
      rw [Finset.mem_Icc] at hi
      exact hz i (by omega)
    · intro h
      exact absurd (Finset.mem_Icc.mpr ⟨by decide, le_refl 24⟩) h
  have hsq : ∑ i ∈ Finset.Ico 5 25, (List.replicate 24 (0 : ℝ) ++ [1, 0]).getD i 0 *
      (List.replicate 24 (0 : ℝ) ++ [1, 0]).getD i 0 = 1 := by
    rw [Finset.sum_eq_single 24, h24]
    · ring
    · intro i hi hne
      rw [Finset.mem_Ico] at hi
      rw [hz i (by omega)]
      ring
    · intro h
      exact absurd (Finset.mem_Ico.mpr ⟨by decide, by decide⟩) h
  obtain ⟨s, hs, _, sA, _, _, _⟩ :=
    volStateAt_spec Real.sqrt (List.replicate 24 (0 : ℝ) ++ [1, 0]) (List.replicate 26 0)
      (List.replicate 26 0) 26 25 (by simp) (by simp) (by simp) (by decide) (by decide)
  have hs0 : s.statsXLF.sum = 0 := by
    rw [sA]
    simp only [sumsOver]
    exact Finset.sum_eq_zero (fun i hi => by
      rw [Finset.mem_Ico] at hi; exact hz i (by omega))
  refine ⟨s, hs, by rw [sA]; exact tracksWindow_sumsOver _ 4 23, ?_, hs0, hsum, ?_, ?_⟩
  · intro hT
    have := hT.2.1
    rw [hs0, hsum] at this
    exact zero_ne_one this
  · rw [sA, stdev_eq_ok Real.sqrt _ (by simp [sumsOver]),
      stdevValue_zero_sums _ 4 (25 - 1) (fun i _ h2 => hz i (by omega))]
  · rw [stdev_eq_ok Real.sqrt _ (by simp [sumsOver])]
    intro h
    have h0 := Except.ok.inj h
    have hsum2 : ∑ i ∈ Finset.Ico 5 25, (List.replicate 24 (0 : ℝ) ++ [1, 0]).getD i 0 = 1 := by
      have e : Finset.Ico 5 25 = Finset.Icc 5 24 := Nat.Ico_succ_right 5 24
      rw [e]; exact hsum
    have hv : algVariance (sumsOver (List.replicate 24 (0 : ℝ) ++ [1, 0]) 5 25 20) = 19 / 400 := by
      simp only [algVariance, sumsOver, hsum2, hsq]
      norm_num
    simp only [stdevValue, hv] at h0
    norm_num at h0

/-- On the 23-day input `wipeoutXLF`, `wipeoutFlat`, `wipeoutFlat` the three
standard deviations on day 22 are equal and nonzero and `equityEqual[21]` is
nonzero, but `equityVol[21]` is 0 (the whole weight was on XLF on day 21, which
returned -1), so the ratio `equityVol[22] / equityVol[21]` is a division by zero
and is not the ratio `equityEqual[22] / equityEqual[21]`. -/
theorem ratio_fails_after_total_loss :
    ∃ equityEqual equityVol s vA vB vC,
      equalWeighted (wipeoutXLF : List ℝ) wipeoutFlat wipeoutFlat 23 = Except.ok equityEqual ∧
      riskParity Real.sqrt (wipeoutXLF : List ℝ) wipeoutFlat wipeoutFlat 23 =
        Except.ok equityVol ∧
      volStateAt Real.sqrt (wipeoutXLF : List ℝ) wipeoutFlat wipeoutFlat 23 22 = Except.ok s ∧
      stdev Real.sqrt s.statsXLF = Except.ok vA ∧ stdev Real.sqrt s.statsXOP = Except.ok vB ∧
      stdev Real.sqrt s.statsXLK = Except.ok vC ∧
      vA = vB ∧ vB = vC ∧ vA ≠ 0 ∧
      equityEqual.getD 21 0 ≠ 0 ∧ equityVol.getD 21 0 = 0 ∧
      fdiv (equityVol.getD 22 0) (equityVol.getD 21 0) = Except.error Fault.divByZero ∧
      equityVol.getD 22 0 / equityVol.getD 21 0 ≠ equityEqual.getD 22 0 / equityEqual.getD 21 0 := by
  obtain ⟨eqE, hE, hIE⟩ := equalWeighted_spec (wipeoutXLF : List ℝ) wipeoutFlat wipeoutFlat 23
    wipeoutXLF_length wipeoutFlat_length wipeoutFlat_length (by decide)
  obtain ⟨sn, hsn, hIV⟩ := volStateAt_spec Real.sqrt (wipeoutXLF : List ℝ) wipeoutFlat
    wipeoutFlat 23 23 wipeoutXLF_length wipeoutFlat_length wipeoutFlat_length (by decide)
    (by decide)
  obtain ⟨s, hs, _, sA, sB, sC, _⟩ := volStateAt_spec Real.sqrt (wipeoutXLF : List ℝ)
    wipeoutFlat wipeoutFlat 23 22 wipeoutXLF_length wipeoutFlat_length wipeoutFlat_length
    (by decide) (by decide)
  -- day 22 looks at days 1 .. 20: a single 1 on day 20 for each asset
  have wX : sumsOver (wipeoutXLF : List ℝ) 1 21 20 = { sum := 1, sumSq := 1, count := 20 } :=
    sumsOver_pulse _ 1 21 20 20 (by decide) (by decide) wipeoutXLF_20
      (fun i h1 h2 hne => wipeoutXLF_mid i h1 (by omega))
  have wY : sumsOver (wipeoutFlat : List ℝ) 1 21 20 = { sum := 1, sumSq := 1, count := 20 } :=
    sumsOver_pulse _ 1 21 20 20 (by decide) (by decide) wipeoutFlat_20
      (fun i h1 h2 hne => wipeoutFlat_low i (by omega))
  have sA' : s.statsXLF = { sum := 1, sumSq := 1, count := 20 } := by rw [sA]; exact wX
  have sB' : s.statsXOP = { sum := 1, sumSq := 1, count := 20 } := by rw [sB]; exact wY
  have sC' : s.statsXLK = { sum := 1, sumSq := 1, count := 20 } := by rw [sC]; exact wY
  -- day 21 looks at days 0 .. 19: a single 1 on day 0 for XLF, zeros for the others
  have vX : sumsOver (wipeoutXLF : List ℝ) 0 20 20 = { sum := 1, sumSq := 1, count := 20 } :=
    sumsOver_pulse _ 0 20 0 20 (by decide) (by decide) wipeoutXLF_0
      (fun i h1 h2 hne => wipeoutXLF_mid i (by omega) h2)
  have vY : stdevValue Real.sqrt (sumsOver (wipeoutFlat : List ℝ) 0 20 20) = 0 :=
    stdevValue_zero_sums _ 0 20 (fun i _ h => wipeoutFlat_low i h)
  have w2 := weightsValue_wXOP_zero Real.sqrt (sumsOver (wipeoutXLF : List ℝ) 0 20 20)
    (sumsOver (wipeoutFlat : List ℝ) 0 20 20) (sumsOver (wipeoutFlat : List ℝ) 0 20 20) vY
  have w3 := weightsValue_wXLK_zero Real.sqrt (sumsOver (wipeoutXLF : List ℝ) 0 20 20)
    (sumsOver (wipeoutFlat : List ℝ) 0 20 20) (sumsOver (wipeoutFlat : List ℝ) 0 20 20) vY
  have w1 := weightsValue_sum (sumsOver (wipeoutXLF : List ℝ) 0 20 20)
    (sumsOver (wipeoutFlat : List ℝ) 0 20 20) (sumsOver (wipeoutFlat : List ℝ) 0 20 20)
    (Or.inl (by rw [vX]; exact ne_of_gt stdevValue_pulse_pos))
  rw [w2, w3, add_zero, add_zero] at w1
  have hV21 : sn.equityVol.getD 21 0 = 0 := by
    have h := hIV.2.2.2.2.2.2 21 (by decide) (by decide)
    have e : dailyRetVol (weightsValue Real.sqrt (sumsOver (wipeoutXLF : List ℝ) 0 20 20)
        (sumsOver (wipeoutFlat : List ℝ) 0 20 20) (sumsOver (wipeoutFlat : List ℝ) 0 20 20))
        ((wipeoutXLF : List ℝ).getD 21 0) ((wipeoutFlat : List ℝ).getD 21 0)
        ((wipeoutFlat : List ℝ).getD 21 0) = -1 := by
      simp only [dailyRetVol, w1, w2, w3, wipeoutXLF_21, wipeoutFlat_21]
      norm_num
    rw [h]
    refine mul_eq_zero_of_right _ ?_
    show 1 + dailyRetVol (weightsValue Real.sqrt (sumsOver (wipeoutXLF : List ℝ) 0 20 20)
        (sumsOver (wipeoutFlat : List ℝ) 0 20 20) (sumsOver (wipeoutFlat : List ℝ) 0 20 20))
        ((wipeoutXLF : List ℝ).getD 21 0) ((wipeoutFlat : List ℝ).getD 21 0)
        ((wipeoutFlat : List ℝ).getD 21 0) = 0
    rw [e]
    norm_num
  have hEpos : 0 < eqE.getD 21 0 := by
    refine equalInv_pos _ _ _ 23 eqE hIE (fun u _ _ => ?_) 21 (by decide)
    have := wipeoutXLF_ge (F := ℝ) u
    have := wipeoutFlat_ge (F := ℝ) u
    linarith
  have hE22 : eqE.getD 22 0 = eqE.getD 21 0 := by
    rw [hIE.2.2 22 (by decide) (by decide), wipeoutXLF_22, wipeoutFlat_22]
    norm_num
  refine ⟨eqE, sn.equityVol, s, _, _, _, hE, riskParity_eq Real.sqrt _ _ _ 23 sn hsn, hs,
    stdev_eq_ok Real.sqrt _ (by rw [sA']; decide), stdev_eq_ok Real.sqrt _ (by rw [sB']; decide),
    stdev_eq_ok Real.sqrt _ (by rw [sC']; decide), by rw [sA', sB'], by rw [sB', sC'],
    by rw [sA']; exact ne_of_gt stdevValue_pulse_pos, ne_of_gt hEpos, hV21, ?_, ?_⟩
  · rw [hV21]; exact fdiv_zero _
  · rw [hV21, div_zero, hE22, div_self (ne_of_gt hEpos)]
    norm_num

section Binary64

theorem okAnd_elim {α : Type} (e : Except Fault α) (p : α → Bool) (h : okAnd e p = true) :
    ∃ a, e = Except.ok a ∧ p a = true := by
  cases e with
  | error f => simp [okAnd] at h
  | ok a => exact ⟨a, rfl, h⟩

/-- Known binary64 values, as a check of the rounding: the literals `0.1` and
`-0.9999999999999999`, `0.1 + 0.1 + 0.1 = 0.30000000000000004` (which is not
the literal `0.3`), `0.1 * 0.1 = 0.010000000000000002`,
`0.1 - 0.3 = -0.19999999999999998`, `1 / 3`, `1e22 / 3`, the square roots of 2
and of `0.0475`, the ties `2^53 + 1 = 2^53`, `2^53 + 3 = 2^53 + 4` and
`1e16 + 1 = 1e16`, and the subnormal quotients `1 / 2 = 0` and `3 / 2 = 2` (in
units of `2^-1074`). -/
theorem dbl_known_values :
    Dbl.ofRatio 1 10 = { units := 3602879701896397 * 2 ^ 1019 } ∧
    Dbl.ofRatio (-9999999999999999) (10 ^ 16) = { units := -(9007199254740991 * 2 ^ 1021) } ∧
    Dbl.ofRatio 1 10 + Dbl.ofRatio 1 10 + Dbl.ofRatio 1 10 =
      { units := 1351079888211149 * 2 ^ 1022 } ∧
    Dbl.ofRatio 1 10 + Dbl.ofRatio 1 10 + Dbl.ofRatio 1 10 ≠ Dbl.ofRatio 3 10 ∧
    Dbl.ofRatio 1 10 * Dbl.ofRatio 1 10 = { units := 1441151880758559 * 2 ^ 1017 } ∧
    Dbl.ofRatio 1 10 - Dbl.ofRatio 3 10 = { units := -(7205759403792793 * 2 ^ 1019) } ∧
    (1 : Dbl) / 3 = { units := 6004799503160661 * 2 ^ 1020 } ∧
    (10000000000000000000000 : Dbl) / 3 = { units := 6357828776041667 * 2 ^ 1093 } ∧
    Dbl.sqrt 2 = { units := 6369051672525773 * 2 ^ 1022 } ∧
    Dbl.sqrt (Dbl.ofRatio 475 10000) = { units := 3926147131575085 * 2 ^ 1020 } ∧
    (9007199254740992 : Dbl) + 1 = 9007199254740992 ∧
    (9007199254740992 : Dbl) + 3 = 9007199254740996 ∧
    (10000000000000000 : Dbl) + 1 = 10000000000000000 ∧
    ({ units := 1 } : Dbl) / 2 = 0 ∧
    ({ units := 3 } : Dbl) / 2 = { units := 2 } := by
  decide!

/-- Binary64 run on a series that starts with `1e16` followed by ones: on entry
to iteration 22 the incremental statistics of XLF hold 1 and 1, although the
window they stand for (days 1 to 20) holds twenty ones; the initialisation run
from scratch on that window holds 20 and 20 and gives the standard deviation 0,
and the incremental statistics give a standard deviation above 0.2. -/
theorem dbl_drift_run :
    okAnd (volStateAt Dbl.sqrt ((10000000000000000 : Dbl) :: List.replicate 22 1)
        (List.replicate 23 0) (List.replicate 23 0) 23 22) (fun s =>
      okAnd (initStats (((10000000000000000 : Dbl) :: List.replicate 22 1).drop 1)
          ((List.replicate 23 (0 : Dbl)).drop 1) ((List.replicate 23 (0 : Dbl)).drop 1)) (fun f =>
        okAnd (stdev Dbl.sqrt s.statsXLF) (fun vInc =>
          okAnd (stdev Dbl.sqrt f.1) (fun vScratch =>
            decide (((10000000000000000 : Dbl) :: List.replicate 22 1).length = 23 ∧
              (((10000000000000000 : Dbl) :: List.replicate 22 1).drop 1).take 20 =
                List.replicate 20 1 ∧
              s.statsXLF.count = 20 ∧ s.statsXLF.sum = 1 ∧ s.statsXLF.sumSq = 1 ∧
              f.1.count = 20 ∧ f.1.sum = 20 ∧ f.1.sumSq = 20 ∧
              vScratch = 0 ∧ Dbl.ofRatio 2 10 < vInc ∧ vInc ≠ vScratch))))) = true := by
  decide!

/-- Binary64 run on 26 days on which XLF returns 1 on day 24 and 0 otherwise: the
statistics queried on day 25 are those of days 4 to 23 (sum 0, standard
deviation 0), not those of days 5 to 24 (sum 1, nonzero standard deviation). -/
theorem dbl_lag_run :
    okAnd (volStateAt Dbl.sqrt (List.replicate 24 (0 : Dbl) ++ [1, 0]) (List.replicate 26 0)
        (List.replicate 26 0) 26 25) (fun s =>
      okAnd (initStats ((List.replicate 24 (0 : Dbl) ++ [1, 0]).drop 4)
          ((List.replicate 26 (0 : Dbl)).drop 4) ((List.replicate 26 (0 : Dbl)).drop 4)) (fun g =>
        okAnd (initStats ((List.replicate 24 (0 : Dbl) ++ [1, 0]).drop 5)
            ((List.replicate 26 (0 : Dbl)).drop 5) ((List.replicate 26 (0 : Dbl)).drop 5)) (fun f =>
          okAnd (stdev Dbl.sqrt s.statsXLF) (fun v =>
            okAnd (stdev Dbl.sqrt f.1) (fun vClaimed =>
              decide (s.statsXLF.sum = g.1.sum ∧ s.statsXLF.sumSq = g.1.sumSq ∧
                g.1.count = 20 ∧
                s.statsXLF.count = 20 ∧ s.statsXLF.sum = 0 ∧ s.statsXLF.sumSq = 0 ∧
                f.1.sum = 1 ∧ f.1.sumSq = 1 ∧ v = 0 ∧ vClaimed ≠ 0)))))) = true := by
  decide!

/-- Binary64 run on a constant series of `0.1` next to two series with one
nonzero return: on day 21 the standard deviation and the weight of the constant
asset are not 0, and the other two weights do not sum to 1. -/
theorem dbl_constant_run :
    okAnd (volStateAt Dbl.sqrt (List.replicate 22 (Dbl.ofRatio 1 10)) (pulse 1 0) (pulse 1 0)
        22 21) (fun s =>
      okAnd (stdev Dbl.sqrt s.statsXLF) (fun vA =>
        okAnd (stdev Dbl.sqrt s.statsXOP) (fun vB =>
          okAnd (weights Dbl.sqrt s.statsXLF s.statsXOP s.statsXLK) (fun w =>
            decide (vA ≠ 0 ∧ vB ≠ 0 ∧ w.wXLF ≠ 0 ∧ w.wXOP + w.wXLK ≠ 1 ∧
              w.wXOP < w.wXLF))))) = true := by
  decide!

/-- Binary64 run on three series whose windows give the standard deviations
`vA < vB`: the weights of XLF and XOP are equal, and `weight * stdev` differs
between them. -/
theorem dbl_allocation_run :
    okAnd (volStateAt Dbl.sqrt (pulse 35 0) (pulse (Dbl.ofRatio (35 * 2 ^ 47 + 1) (2 ^ 47)) 0)
        (pulse 1 0) 22 21) (fun s =>
      okAnd (stdev Dbl.sqrt s.statsXLF) (fun vA =>
        okAnd (stdev Dbl.sqrt s.statsXOP) (fun vB =>
          okAnd (stdev Dbl.sqrt s.statsXLK) (fun vC =>
            okAnd (weights Dbl.sqrt s.statsXLF s.statsXOP s.statsXLK) (fun w =>
              decide (vA ≠ 0 ∧ vB ≠ 0 ∧ vC ≠ 0 ∧ vA < vB ∧ w.wXOP = w.wXLF ∧
                w.wXLF * vA ≠ w.wXOP * vB)))))) = true := by
  decide!

/-- Binary64 run on three series with equal nonzero standard deviations on day
21, where XLF returns 1 and the others 0: the weights are not `1 / 3`, the
risk-parity daily return is not the equal-weight daily return, and the equity
ratios differ although both equities of day 20 are nonzero. -/
theorem dbl_thirds_run :
    okAnd (equalWeighted (pulse (1 : Dbl) 1) (pulse 1 0) (pulse 1 0) 22) (fun equityEqual =>
      okAnd (riskParity Dbl.sqrt (pulse (1 : Dbl) 1) (pulse 1 0) (pulse 1 0) 22) (fun equityVol =>
        okAnd (volStateAt Dbl.sqrt (pulse (1 : Dbl) 1) (pulse 1 0) (pulse 1 0) 22 21) (fun s =>
          okAnd (stdev Dbl.sqrt s.statsXLF) (fun vA =>
            okAnd (stdev Dbl.sqrt s.statsXOP) (fun vB =>
              okAnd (stdev Dbl.sqrt s.statsXLK) (fun vC =>
                okAnd (weights Dbl.sqrt s.statsXLF s.statsXOP s.statsXLK) (fun w =>
                  decide (vA = vB ∧ vB = vC ∧ vA ≠ 0 ∧
                    equityEqual.getD 20 0 ≠ 0 ∧ equityVol.getD 20 0 ≠ 0 ∧
                    w.wXLF ≠ 1 / 3 ∧ w.wXOP ≠ 1 / 3 ∧ w.wXLK ≠ 1 / 3 ∧
                    dailyRetVol w ((pulse (1 : Dbl) 1).getD 21 0) ((pulse (1 : Dbl) 0).getD 21 0)
                        ((pulse (1 : Dbl) 0).getD 21 0) ≠
                      ((pulse (1 : Dbl) 1).getD 21 0 + (pulse (1 : Dbl) 0).getD 21 0 +
                        (pulse (1 : Dbl) 0).getD 21 0) / 3 ∧
                    equityVol.getD 21 0 / equityVol.getD 20 0 ≠
                      equityEqual.getD 21 0 / equityEqual.getD 20 0)))))))) = true := by
  decide!

/-- Binary64 run on three series whose returns are all greater than -1, with
`-0.9999999999999999` on day 21: the risk-parity daily return of day 21 is -1
and the equity of day 21 is 0. -/
theorem dbl_loss_run :
    okAnd (riskParity Dbl.sqrt (pulse 1 (Dbl.ofRatio (-9999999999999999) (10 ^ 16)))
        (pulse 1 (Dbl.ofRatio (-9999999999999999) (10 ^ 16)))
        (pulse 1 (Dbl.ofRatio (-9999999999999999) (10 ^ 16))) 22) (fun equityVol =>
      okAnd (equalWeighted (pulse 1 (Dbl.ofRatio (-9999999999999999) (10 ^ 16)))
          (pulse 1 (Dbl.ofRatio (-9999999999999999) (10 ^ 16)))
          (pulse 1 (Dbl.ofRatio (-9999999999999999) (10 ^ 16))) 22) (fun equityEqual =>
        decide ((∀ x ∈ pulse 1 (Dbl.ofRatio (-9999999999999999) (10 ^ 16)),
            Dbl.ofRatio (-1) 1 < x) ∧
          equityVol.length = 22 ∧ equityEqual.length = 22 ∧
          equityVol.getD 20 0 = 100 ∧ equityVol.getD 21 0 = 0 ∧
          ¬ (0 : Dbl) < equityVol.getD 21 0))) = true := by
  decide!

end Binary64

/-- C3 (as stated, refuted in the arithmetic of the program). In binary64, on the
23-day input whose XLF series is `1e16` followed by ones (XOP and XLK all zero),
the window of day 22 (days 1 to 20) holds twenty ones, whose sum and sum of
squares are 20 and 20 when summed from scratch by the initialisation code; the
incrementally maintained statistics queried at iteration 22 hold count 20, sum 1
and sum of squares 1 (adding 1 to `1e16` is absorbed, removing `1e16` leaves 0),
and their standard deviation is above 0.2 where the one recomputed from scratch
is 0. -/
theorem C3_incremental_stats_drift :
    ∃ s f vInc vScratch,
      volStateAt Dbl.sqrt ((10000000000000000 : Dbl) :: List.replicate 22 1)
        (List.replicate 23 0) (List.replicate 23 0) 23 22 = Except.ok s ∧
      initStats (((10000000000000000 : Dbl) :: List.replicate 22 1).drop 1)
        ((List.replicate 23 (0 : Dbl)).drop 1) ((List.replicate 23 (0 : Dbl)).drop 1) =
          Except.ok f ∧
      stdev Dbl.sqrt s.statsXLF = Except.ok vInc ∧ stdev Dbl.sqrt f.1 = Except.ok vScratch ∧
      ((10000000000000000 : Dbl) :: List.replicate 22 1).length = 23 ∧
      (((10000000000000000 : Dbl) :: List.replicate 22 1).drop 1).take 20 =
        List.replicate 20 1 ∧
      s.statsXLF.count = 20 ∧ s.statsXLF.sum = 1 ∧ s.statsXLF.sumSq = 1 ∧
      f.1.count = 20 ∧ f.1.sum = 20 ∧ f.1.sumSq = 20 ∧
      vScratch = 0 ∧ Dbl.ofRatio 2 10 < vInc ∧ vInc ≠ vScratch := by
  obtain ⟨s, hs, h1⟩ := okAnd_elim _ _ dbl_drift_run
  obtain ⟨f, hf, h2⟩ := okAnd_elim _ _ h1
  obtain ⟨vInc, hi, h3⟩ := okAnd_elim _ _ h2
  obtain ⟨vScratch, hv, h4⟩ := okAnd_elim _ _ h3
  exact ⟨s, f, vInc, vScratch, hs, hf, hi, hv, of_decide_eq_true h4⟩

/-- C4 (as stated, refuted). With 26 days on which XLF returns 1 on day 24 and 0
on every other day, the statistics queried on day 25 hold the sums over days 4
to 23, not over days 5 to 24: their sum is 0 where the sum over days 5 to 24 is
1, and the volatility they yield is 0 where the one recomputed over days 5 to 24
is not. This holds in exact real arithmetic (first part) and in binary64 (second
part, where the statistics equal those the initialisation code computes from
scratch over days 4 to 23). -/
theorem C4_window_lags_one_more_day :
    (∃ s, volStateAt Real.sqrt (List.replicate 24 (0 : ℝ) ++ [1, 0]) (List.replicate 26 0)
        (List.replicate 26 0) 26 25 = Except.ok s ∧
      TracksWindow (List.replicate 24 (0 : ℝ) ++ [1, 0]) s.statsXLF 4 23 ∧
      ¬ TracksWindow (List.replicate 24 (0 : ℝ) ++ [1, 0]) s.statsXLF 5 24 ∧
      s.statsXLF.sum = 0 ∧
      ∑ i ∈ Finset.Icc 5 24, (List.replicate 24 (0 : ℝ) ++ [1, 0]).getD i 0 = 1 ∧
      stdev Real.sqrt s.statsXLF = Except.ok 0 ∧
      stdev Real.sqrt (sumsOver (List.replicate 24 (0 : ℝ) ++ [1, 0]) 5 25 20) ≠ Except.ok 0) ∧
    ∃ s g f v vClaimed,
      volStateAt Dbl.sqrt (List.replicate 24 (0 : Dbl) ++ [1, 0]) (List.replicate 26 0)
        (List.replicate 26 0) 26 25 = Except.ok s ∧
      initStats ((List.replicate 24 (0 : Dbl) ++ [1, 0]).drop 4)
        ((List.replicate 26 (0 : Dbl)).drop 4) ((List.replicate 26 (0 : Dbl)).drop 4) =
          Except.ok g ∧
      initStats ((List.replicate 24 (0 : Dbl) ++ [1, 0]).drop 5)
        ((List.replicate 26 (0 : Dbl)).drop 5) ((List.replicate 26 (0 : Dbl)).drop 5) =
          Except.ok f ∧
      stdev Dbl.sqrt s.statsXLF = Except.ok v ∧ stdev Dbl.sqrt f.1 = Except.ok vClaimed ∧
      s.statsXLF.sum = g.1.sum ∧ s.statsXLF.sumSq = g.1.sumSq ∧ g.1.count = 20 ∧
      s.statsXLF.count = 20 ∧ s.statsXLF.sum = 0 ∧ s.statsXLF.sumSq = 0 ∧
      f.1.sum = 1 ∧ f.1.sumSq = 1 ∧ v = 0 ∧ vClaimed ≠ 0 := by
  refine ⟨window_lag_example, ?_⟩
  obtain ⟨s, hs, h1⟩ := okAnd_elim _ _ dbl_lag_run
  obtain ⟨g, hg, h2⟩ := okAnd_elim _ _ h1
  obtain ⟨f, hf, h3⟩ := okAnd_elim _ _ h2
  obtain ⟨v, hv, h4⟩ := okAnd_elim _ _ h3
  obtain ⟨vClaimed, hc, h5⟩ := okAnd_elim _ _ h4
  exact ⟨s, g, f, v, vClaimed, hs, hg, hf, hv, hc, of_decide_eq_true h5⟩

/-- C8 (as stated, refuted in the arithmetic of the program). In binary64, with 22
days on which XLF returns `0.1` every day while XOP and XLK return 1 on day 0
and 0 afterwards, on day 21 the standard deviation of XLF is not 0 and its
weight is not 0 (it is larger than the weight of XOP), and the weights of XOP
and XLK do not sum to 1, although the standard deviation of XOP is nonzero. -/
theorem C8_constant_window_nonzero_stdev :
    ∃ s vA vB w,
      volStateAt Dbl.sqrt (List.replicate 22 (Dbl.ofRatio 1 10)) (pulse 1 0) (pulse 1 0) 22 21 =
        Except.ok s ∧
      stdev Dbl.sqrt s.statsXLF = Except.ok vA ∧ stdev Dbl.sqrt s.statsXOP = Except.ok vB ∧
      weights Dbl.sqrt s.statsXLF s.statsXOP s.statsXLK = Except.ok w ∧
      vA ≠ 0 ∧ vB ≠ 0 ∧ w.wXLF ≠ 0 ∧ w.wXOP + w.wXLK ≠ 1 ∧ w.wXOP < w.wXLF := by
  obtain ⟨s, hs, h1⟩ := okAnd_elim _ _ dbl_constant_run
  obtain ⟨vA, hA, h2⟩ := okAnd_elim _ _ h1
  obtain ⟨vB, hB, h3⟩ := okAnd_elim _ _ h2
  obtain ⟨w, hw, h4⟩ := okAnd_elim _ _ h3
  exact ⟨s, vA, vB, w, hs, hA, hB, hw, of_decide_eq_true h4⟩

/-- C14 (as stated, refuted in the arithmetic of the program). In binary64, with
22 days on which XLF, XOP and XLK return 35, `35 + 2^-47` and 1 on day 0 and 0
afterwards, on day 21 the three standard deviations are nonzero and that of XLF
is strictly smaller than that of XOP, yet the two weights are equal, and
`weight * stdev` is not the same for XLF and XOP. -/
theorem C14_rounded_weights_tie :
    ∃ s vA vB vC w,
      volStateAt Dbl.sqrt (pulse 35 0) (pulse (Dbl.ofRatio (35 * 2 ^ 47 + 1) (2 ^ 47)) 0)
        (pulse 1 0) 22 21 = Except.ok s ∧
      stdev Dbl.sqrt s.statsXLF = Except.ok vA ∧ stdev Dbl.sqrt s.statsXOP = Except.ok vB ∧
      stdev Dbl.sqrt s.statsXLK = Except.ok vC ∧
      weights Dbl.sqrt s.statsXLF s.statsXOP s.statsXLK = Except.ok w ∧
      vA ≠ 0 ∧ vB ≠ 0 ∧ vC ≠ 0 ∧ vA < vB ∧ w.wXOP = w.wXLF ∧
      w.wXLF * vA ≠ w.wXOP * vB := by
  obtain ⟨s, hs, h1⟩ := okAnd_elim _ _ dbl_allocation_run
  obtain ⟨vA, hA, h2⟩ := okAnd_elim _ _ h1
  obtain ⟨vB, hB, h3⟩ := okAnd_elim _ _ h2
  obtain ⟨vC, hC, h4⟩ := okAnd_elim _ _ h3
  obtain ⟨w, hw, h5⟩ := okAnd_elim _ _ h4
  exact ⟨s, vA, vB, vC, w, hs, hA, hB, hC, hw, of_decide_eq_true h5⟩

/-- C16 (as stated, refuted). First part, exact real arithmetic: on the 23-day
input `wipeoutXLF`, `wipeoutFlat`, `wipeoutFlat` the three standard deviations on
day 22 are equal and nonzero and `equityEqual[21]` is nonzero, but
`equityVol[21]` is 0, so the ratio `equityVol[22] / equityVol[21]` is a division
by zero and is not the ratio `equityEqual[22] / equityEqual[21]`. Second part,
binary64: with 22 days on which all three assets return 1 on day 0, XLF returns
1 on day 21 and every other return is 0, the three standard deviations on day
21 are equal and nonzero and both equities of day 20 are nonzero, yet no weight
is `1 / 3`, the risk-parity daily return is not the equal-weight daily return,
and the two equity ratios differ. -/
theorem C16_ratio_fails_after_total_loss :
    (∃ equityEqual equityVol s vA vB vC,
      equalWeighted (wipeoutXLF : List ℝ) wipeoutFlat wipeoutFlat 23 = Except.ok equityEqual ∧
      riskParity Real.sqrt (wipeoutXLF : List ℝ) wipeoutFlat wipeoutFlat 23 =
        Except.ok equityVol ∧
      volStateAt Real.sqrt (wipeoutXLF : List ℝ) wipeoutFlat wipeoutFlat 23 22 = Except.ok s ∧
      stdev Real.sqrt s.statsXLF = Except.ok vA ∧ stdev Real.sqrt s.statsXOP = Except.ok vB ∧
      stdev Real.sqrt s.statsXLK = Except.ok vC ∧
      vA = vB ∧ vB = vC ∧ vA ≠ 0 ∧
      equityEqual.getD 21 0 ≠ 0 ∧ equityVol.getD 21 0 = 0 ∧
      fdiv (equityVol.getD 22 0) (equityVol.getD 21 0) = Except.error Fault.divByZero ∧
      equityVol.getD 22 0 / equityVol.getD 21 0 ≠
        equityEqual.getD 22 0 / equityEqual.getD 21 0) ∧
    ∃ equityEqual equityVol s vA vB vC w,
      equalWeighted (pulse (1 : Dbl) 1) (pulse 1 0) (pulse 1 0) 22 = Except.ok equityEqual ∧
      riskParity Dbl.sqrt (pulse (1 : Dbl) 1) (pulse 1 0) (pulse 1 0) 22 = Except.ok equityVol ∧
      volStateAt Dbl.sqrt (pulse (1 : Dbl) 1) (pulse 1 0) (pulse 1 0) 22 21 = Except.ok s ∧
      stdev Dbl.sqrt s.statsXLF = Except.ok vA ∧ stdev Dbl.sqrt s.statsXOP = Except.ok vB ∧
      stdev Dbl.sqrt s.statsXLK = Except.ok vC ∧
      weights Dbl.sqrt s.statsXLF s.statsXOP s.statsXLK = Except.ok w ∧
      vA = vB ∧ vB = vC ∧ vA ≠ 0 ∧
      equityEqual.getD 20 0 ≠ 0 ∧ equityVol.getD 20 0 ≠ 0 ∧
      w.wXLF ≠ 1 / 3 ∧ w.wXOP ≠ 1 / 3 ∧ w.wXLK ≠ 1 / 3 ∧
      dailyRetVol w ((pulse (1 : Dbl) 1).getD 21 0) ((pulse (1 : Dbl) 0).getD 21 0)
          ((pulse (1 : Dbl) 0).getD 21 0) ≠
        ((pulse (1 : Dbl) 1).getD 21 0 + (pulse (1 : Dbl) 0).getD 21 0 +
          (pulse (1 : Dbl) 0).getD 21 0) / 3 ∧
      equityVol.getD 21 0 / equityVol.getD 20 0 ≠
        equityEqual.getD 21 0 / equityEqual.getD 20 0 := by
  refine ⟨ratio_fails_after_total_loss, ?_⟩
  obtain ⟨eqE, hE, h1⟩ := okAnd_elim _ _ dbl_thirds_run
  obtain ⟨eqV, hV, h2⟩ := okAnd_elim _ _ h1
  obtain ⟨s, hs, h3⟩ := okAnd_elim _ _ h2
  obtain ⟨vA, hA, h4⟩ := okAnd_elim _ _ h3
  obtain ⟨vB, hB, h5⟩ := okAnd_elim _ _ h4
  obtain ⟨vC, hC, h6⟩ := okAnd_elim _ _ h5
  obtain ⟨w, hw, h7⟩ := okAnd_elim _ _ h6
  exact ⟨eqE, eqV, s, vA, vB, vC, w, hE, hV, hs, hA, hB, hC, hw, of_decide_eq_true h7⟩

/-- C17 (as stated, refuted in the arithmetic of the program). In binary64, with
22 days on which all three assets return 1 on day 0, `-0.9999999999999999` on
day 21 and 0 in between, every return is strictly greater than -1 and both
strategies return curves of length 22, yet the risk-parity equity of day 21 is
0, not positive (the rounded daily return of day 21 is -1). -/
theorem C17_equity_reaches_zero :
    ∃ equityVol equityEqual,
      riskParity Dbl.sqrt (pulse 1 (Dbl.ofRatio (-9999999999999999) (10 ^ 16)))
        (pulse 1 (Dbl.ofRatio (-9999999999999999) (10 ^ 16)))
        (pulse 1 (Dbl.ofRatio (-9999999999999999) (10 ^ 16))) 22 = Except.ok equityVol ∧
      equalWeighted (pulse 1 (Dbl.ofRatio (-9999999999999999) (10 ^ 16)))
        (pulse 1 (Dbl.ofRatio (-9999999999999999) (10 ^ 16)))
        (pulse 1 (Dbl.ofRatio (-9999999999999999) (10 ^ 16))) 22 = Except.ok equityEqual ∧
      (∀ x ∈ pulse 1 (Dbl.ofRatio (-9999999999999999) (10 ^ 16)), Dbl.ofRatio (-1) 1 < x) ∧
      equityVol.length = 22 ∧ equityEqual.length = 22 ∧
      equityVol.getD 20 0 = 100 ∧ equityVol.getD 21 0 = 0 ∧
      ¬ (0 : Dbl) < equityVol.getD 21 0 := by
  obtain ⟨eqV, hV, h1⟩ := okAnd_elim _ _ dbl_loss_run
  obtain ⟨eqE, hE, h2⟩ := okAnd_elim _ _ h1
  exact ⟨eqV, eqE, hV, hE, of_decide_eq_true h2⟩

end RiskParity
